import Mathlib

/-!
# Instagram-Automation: job lock, trigger scheduler and publish orchestrator

A shallow embedding of the two Cloudflare workers of the repository

* `instagram_poster_bot/src/index.js` (namespace `Poster`): `scheduled`, `fetch`,
  `handlePost`, `handlePostComplete`, `getAccessToken`, `listDropboxFiles`, ...
* `telegram_to_dropbox_bot/src/index.js` (namespace `Relay`): `fetch`, `handleUpdate`,
  `getDropboxAccessToken`, ...

Asynchronous handlers are functions from a world (key-value store and clock) to an
outcome, the world afterwards and the list of requests issued, in order.  The answers
of the remote services are inputs (a script).  Times are milliseconds since the epoch.
-/

namespace Poster

/-! ## The key-value store -/

/-- The strings held by `MEDIA_KV`, named by what `JSON.parse` makes of them:
`lock t` is `JSON.stringify({timestamp: t, status: 'running'})`,
`trigger t` is `JSON.stringify({timestamp: t, type: 'manual'})`,
`token a e` is `JSON.stringify({access_token: a, expires_at: ...})` where `e` is the
`getTime()` of `new Date(expires_at)` (`none` when that is not a date),
`text s` is a string `s` that is not JSON text (an URL, garbage, the empty string). -/
inductive Value where
  | lock (timestamp : Nat)
  | trigger (timestamp : Nat)
  | token (access_token : String) (expires_at : Option Int)
  | text (s : String)
  deriving DecidableEq, Repr

/-- JavaScript truthiness of a stored string: only the empty string is falsy. -/
def Value.truthy : Value → Bool
  | .text s => s ≠ ""
  | _ => true

/-- The field `timestamp` of the parsed record (`none` is `undefined`). -/
def Value.timestamp : Value → Option Nat
  | .lock t => some t
  | .trigger t => some t
  | _ => none

/-- A stored record: the value and the absolute time at which the store drops it. -/
structure Rec where
  value : Value
  expiresAt : Option Nat
  deriving DecidableEq, Repr

/-- The store: every key holds at most one record. -/
abbrev Store := String → Option Rec

/-- The store without any record. -/
def Store.empty : Store := fun _ => none

/-- The call `KV.get(key)` at time `now`: an expired record reads as `null`. -/
def Store.get (st : Store) (key : String) (now : Nat) : Option Value :=
  match st key with
  | none => none
  | some r =>
    match r.expiresAt with
    | none => some r.value
    | some t => if now < t then some r.value else none

/-- The call `KV.put(key, value, { expirationTtl: ttl })` at time `now` (`ttl` in seconds). -/
def Store.put (st : Store) (key : String) (value : Value) (ttl : Option Nat) (now : Nat) :
    Store :=
  fun k => if k = key then some ⟨value, ttl.map (fun s => now + s * 1000)⟩ else st k

/-- The call `KV.delete(key)`. -/
def Store.delete (st : Store) (key : String) : Store :=
  fun k => if k = key then none else st k

/-! ## Remote answers -/

/-- JavaScript truthiness of an optional string field (`none` is `undefined`). -/
def truthyStr : Option String → Bool
  | some s => s ≠ ""
  | none => false

/-- Whether the character list `pat` occurs in the character list. -/
def includesChars : List Char → List Char → Bool
  | [], pat => pat.isEmpty
  | c :: cs, pat => pat.isPrefixOf (c :: cs) || includesChars cs pat

/-- The call `s.includes(pat)`. -/
def includes (s pat : String) : Bool := includesChars s.toList pat.toList

/-- The JSON answer of `media` and `media_publish`: the field `id`, the field `error`
(`none` is `undefined`; inside, the field `message`), and the answer as JSON text. -/
structure GraphJson where
  id : Option String
  error : Option (Option String)
  raw : String
  deriving DecidableEq, Repr

/-- The JSON answer of a status poll. -/
structure StatusJson where
  status_code : Option String
  status : Option String
  raw : String
  deriving DecidableEq, Repr

/-- What one `fetch` followed by `res.json()` gives: it throws, or yields the body. -/
inductive Fetched (β : Type) where
  | threw (message : String)
  | json (body : β)
  deriving DecidableEq, Repr

/-- What a `fetch` whose `res.ok` is tested gives: it throws, answers with a status
outside 200..299 and a text, or answers with a body. -/
inductive Answer (β : Type) where
  | threw (message : String)
  | notOk (status : Nat) (text : String)
  | ok (body : β)
  deriving DecidableEq, Repr

/-! ## Requests issued -/

/-- The observable actions of a handler, in the order they are issued. -/
inductive Event where
  | kvPut (key : String) (value : Value) (ttl : Option Nat)
  | kvDelete (key : String)
  | notify (message : String)
  | callHandlePostComplete
  | tokenRefresh
  | listFolder (path : String)
  | listSharedLinks (path : String)
  | createSharedLink (path : String)
  | createContainer (video_url caption : String)
  | pollStatus (creationId : String) (answer : Fetched StatusJson)
  | sleep (ms : Nat)
  | publish (creationId : String) (answer : Fetched GraphJson)
  | deleteFile (path : String) (deleted : Bool)
  | sendMessage (chatId : String) (text : String)
  | listFolderPage (cursor : Option String)
  | getFile (fileId : String)
  | downloadFile (filePath : String)
  | uploadFile (path : String)
  deriving DecidableEq, Repr

/-! ## Handlers as state transformers -/

/-- How an awaited computation ends: it returns, it throws an error with a message, or
the invocation does not get past it (it is still suspended when observed, or the runtime
recycled the worker). -/
inductive Outcome (α : Type) where
  | ok (a : α)
  | threw (message : String)
  | halted
  deriving DecidableEq, Repr

/-- The world a handler runs in: the store and the clock (`Date.now()`). -/
structure World where
  kv : Store
  now : Nat

/-- The result of running a handler. -/
structure Result (α : Type) where
  out : Outcome α
  world : World
  trace : List Event

/-- An asynchronous computation. -/
def M (α : Type) : Type := World → Result α

/-- Return a value. -/
def M.pure {α : Type} (a : α) : M α := fun w => ⟨.ok a, w, []⟩

/-- Sequencing (`await`): an error or a halt skips the rest. -/
def M.bind {α β : Type} (m : M α) (f : α → M β) : M β := fun w =>
  match m w with
  | ⟨.ok a, w1, t1⟩ => ⟨(f a w1).out, (f a w1).world, t1 ++ (f a w1).trace⟩
  | ⟨.threw e, w1, t1⟩ => ⟨.threw e, w1, t1⟩
  | ⟨.halted, w1, t1⟩ => ⟨.halted, w1, t1⟩

instance : Monad M where
  pure := M.pure
  bind := M.bind

/-- The statement `throw new Error(message)`. -/
def throwNew {α : Type} (message : String) : M α := fun w => ⟨.threw message, w, []⟩

/-- The statement `try { m } catch (e) { handler(e.message) }`. -/
def tryCatch {α : Type} (m : M α) (handler : String → M α) : M α := fun w =>
  match m w with
  | ⟨.ok a, w1, t1⟩ => ⟨.ok a, w1, t1⟩
  | ⟨.threw e, w1, t1⟩ => ⟨(handler e w1).out, (handler e w1).world, t1 ++ (handler e w1).trace⟩
  | ⟨.halted, w1, t1⟩ => ⟨.halted, w1, t1⟩

/-- The statement `try { m } finally { fin }`: `fin` runs after a return and after a
throw; an error of `fin` replaces the outcome of `m`. -/
def tryFinally {α : Type} (m : M α) (fin : M Unit) : M α := fun w =>
  match m w with
  | ⟨.halted, w1, t1⟩ => ⟨.halted, w1, t1⟩
  | ⟨o, w1, t1⟩ =>
    match fin w1 with
    | ⟨.ok _, w2, t2⟩ => ⟨o, w2, t1 ++ t2⟩
    | ⟨.threw e, w2, t2⟩ => ⟨.threw e, w2, t1 ++ t2⟩
    | ⟨.halted, w2, t2⟩ => ⟨.halted, w2, t1 ++ t2⟩

/-- Record one issued request. -/
def emit (e : Event) : M Unit := fun w => ⟨.ok (), w, [e]⟩

/-- The call `Date.now()`. -/
def dateNow : M Nat := fun w => ⟨.ok w.now, w, []⟩

/-- Time passes. -/
def advance (ms : Nat) : M Unit := fun w => ⟨.ok (), { w with now := w.now + ms }, []⟩

/-- The statement `await new Promise(res => setTimeout(res, ms))`. -/
def sleep (ms : Nat) : M Unit := fun w => ⟨.ok (), { w with now := w.now + ms }, [.sleep ms]⟩

/-- The call `env.MEDIA_KV.get(key)`. -/
def kvGet (key : String) : M (Option Value) := fun w => ⟨.ok (w.kv.get key w.now), w, []⟩

/-- The call `env.MEDIA_KV.put(key, value, { expirationTtl: ttl })`. -/
def kvPut (key : String) (value : Value) (ttl : Option Nat) : M Unit := fun w =>
  ⟨.ok (), { w with kv := w.kv.put key value ttl w.now }, [.kvPut key value ttl]⟩

/-- The call `env.MEDIA_KV.delete(key)`. -/
def kvDelete (key : String) : M Unit := fun w =>
  ⟨.ok (), { w with kv := w.kv.delete key }, [.kvDelete key]⟩

/-- The call `JSON.parse(s)` on a stored string: text that is not JSON throws (the
wording of the engine's message is not modelled). -/
def jsonParse (v : Value) : M Value :=
  match v with
  | .text s => throwNew ("Unexpected token in JSON: " ++ s)
  | v => M.pure v

/-- The function `notify`: one `sendMessage` request; every failure is caught and logged. -/
def notify (message : String) : M Unit := emit (.notify message)

/-! ## Job lock and trigger scheduler -/

/-- An HTTP response: body text and status. -/
structure Response where
  body : String
  status : Nat
  deriving DecidableEq, Repr

/-- The event handed to `scheduled`; `cron` is the cron expression of the timer. -/
structure ScheduledEvent where
  cron : Option String
  deriving DecidableEq, Repr

/-- The request handed to `fetch`: method and path of the URL. -/
structure Request where
  method : String
  pathname : String
  deriving DecidableEq, Repr

/-- The call `new Date(now).getUTCHours()`. -/
def getUTCHours (now : Nat) : Nat := now / 3600000 % 24

/-- The call `new Date(now).getUTCMinutes()`. -/
def getUTCMinutes (now : Nat) : Nat := now / 60000 % 60

/-- The function `handlePost`; the publish workflow it awaits is the argument. -/
def handlePost (handlePostComplete : M Unit) : M Unit := do
  let t ← dateNow
  kvPut "job_running" (.lock t) (some 600)
  tryFinally
    (tryCatch
      (do emit .callHandlePostComplete
          handlePostComplete)
      (fun message => notify ("❌ Job execution error: " ++ message)))
    (kvDelete "job_running")

/-- The handler `scheduled`; it returns `handlePost`'s `undefined` (`none`) or a response. -/
def scheduled (event : ScheduledEvent) (handlePostComplete : M Unit) :
    M (Option Response) := do
  let manualTrigger ← kvGet "manual_trigger_requested"
  if (manualTrigger.map Value.truthy).getD false then do
    kvDelete "manual_trigger_requested"
    notify "🎯 Manual trigger detected - starting job..."
    handlePost handlePostComplete
    pure none
  else do
    let now ← dateNow
    if truthyStr event.cron ∧ getUTCMinutes now = 0 ∧ getUTCHours now % 4 = 0 then do
      notify "⏰ Scheduled upload triggered - starting job..."
      handlePost handlePostComplete
      pure none
    else
      pure (some ⟨"Cron check completed - no action needed", 200⟩)

/-- The `if (isRunning)` block of `/trigger`: `some r` when it returns the response `r`. -/
def checkRunning (isRunning : Option Value) : M (Option Response) :=
  match isRunning with
  | none => pure none
  | some v =>
    if v.truthy then do
      let lockData ← jsonParse v
      let now ← dateNow
      match lockData.timestamp with
      | some timestamp =>
        if (now : Int) - (timestamp : Int) > 300000 then do
          kvDelete "job_running"
          pure none
        else
          pure (some ⟨"⏳ Job is already running, please wait...", 429⟩)
      | none => pure (some ⟨"⏳ Job is already running, please wait...", 429⟩)
    else pure none

/-- The handler `fetch` of the poster. -/
def fetch (req : Request) : M Response :=
  if req.pathname = "/" then
    pure ⟨"bot is running", 200⟩
  else if req.pathname = "/trigger" then
    if req.method ≠ "POST" ∧ req.method ≠ "GET" then
      pure ⟨"Only GET/POST allowed", 405⟩
    else do
      let isRunning ← kvGet "job_running"
      let isQueued ← kvGet "manual_trigger_requested"
      match ← checkRunning isRunning with
      | some r => pure r
      | none =>
        if (isQueued.map Value.truthy).getD false then
          pure ⟨"⏳ Job is already queued, will start soon...", 429⟩
        else do
          let now ← dateNow
          kvPut "manual_trigger_requested" (.trigger now) (some 120)
          notify "📋 Manual upload job queued - will start within 1 minute"
          pure ⟨"✅ Job queued successfully! Will start within 1 minute via cron", 200⟩
  else
    pure ⟨"Not Found", 404⟩

/-! ## OAuth token cache -/

/-- The JSON answer of the token endpoint (`expires_in` in seconds, `none` is `undefined`). -/
structure TokenJson where
  access_token : String
  expires_in : Option Int
  deriving DecidableEq, Repr

/-- The `if (cached)` block of `getAccessToken`: `some token` when it returns the cached
token.  A falsy or unparsable string, a record without a date in `expires_at`, and an
expiry at most 5 minutes ahead all fall through. -/
def cachedToken (cached : Option Value) (now : Nat) : Option String :=
  match cached with
  | some (.token access_token (some expiresAt)) =>
    if expiresAt - (now : Int) > 5 * 60 * 1000 then some access_token else none
  | _ => none

/-- The largest time value of a `Date`, in ms; beyond it the date is invalid and
`toISOString` throws. -/
def maxTimeValue : Int := 8640000000000000

/-- The function `getAccessToken`; `refresh` is the answer of the token endpoint.  An
`expires_in` that is `undefined`, or one that takes the expiry out of the range of
`Date`, makes `expiresAt.toISOString()` throw before the store is written. -/
def getAccessToken (refresh : Answer TokenJson) : M String := do
  let cached ← kvGet "dropbox_access_token"
  let now ← dateNow
  match cachedToken cached now with
  | some access_token => pure access_token
  | none => do
    emit .tokenRefresh
    match refresh with
    | .threw message => throwNew message
    | .notOk status txt =>
      throwNew ("Dropbox token refresh failed: " ++ toString status ++ " " ++ txt)
    | .ok json =>
      match json.expires_in with
      | none => throwNew "Invalid time value"
      | some expires_in => do
        let now ← dateNow
        if (now : Int) + (expires_in - 600) * 1000 < -maxTimeValue ∨
            maxTimeValue < (now : Int) + (expires_in - 600) * 1000 then
          throwNew "Invalid time value"
        else do
          kvPut "dropbox_access_token"
            (.token json.access_token (some ((now : Int) + (expires_in - 600) * 1000))) none
          pure json.access_token

/-! ## Remote object store client -/

/-- An entry of a folder listing; `server_modified` is the `getTime()` of its date. -/
structure Entry where
  tag : String
  path_lower : String
  server_modified : Int
  deriving DecidableEq, Repr

/-- The item `listDropboxFiles` returns. -/
structure FileItem where
  path_lower : String
  url : String
  deriving DecidableEq, Repr

/-- Split a character list at every occurrence of `sep`. -/
def splitOnChar (sep : Char) : List Char → List (List Char)
  | [] => [[]]
  | c :: cs =>
    match splitOnChar sep cs with
    | [] => [[c]]
    | p :: ps => if c = sep then [] :: p :: ps else (c :: p) :: ps

/-- The pair `key=value` of one segment of a query string. -/
def parseParam (seg : List Char) : String × String :=
  (String.mk (seg.takeWhile (· ≠ '=')), String.mk ((seg.dropWhile (· ≠ '=')).drop 1))

/-- The call `p.set('raw', '1')` on a list of pairs. -/
def setRaw : List (String × String) → List (String × String)
  | [] => [("raw", "1")]
  | (k, v) :: ps =>
    if k = "raw" then ("raw", "1") :: ps.filter (fun q => q.1 ≠ "raw") else (k, v) :: setRaw ps

/-- The function `toRawDropboxLink`.  Names and values of the query are kept as they are
spelled: the decoding and re-encoding of `URLSearchParams` is not modelled, so the text
agrees with the code on queries of unreserved characters. -/
def toRawDropboxLink (url : String) : String :=
  let parts := splitOnChar '?' url.toList
  let base := String.mk (parts.headD [])
  let qs := parts.tail.headD []
  let p := ((splitOnChar '&' qs).filter (fun seg => seg ≠ [])).map parseParam
  let p := setRaw (p.filter (fun q => q.1 ≠ "dl"))
  base ++ "?" ++ "&".intercalate (p.map (fun q => q.1 ++ "=" ++ q.2))

/-- The stored string as text: an URL is itself; a record is its JSON text (numbers
and dates up to their spelling). -/
def Value.toText : Value → String
  | .text s => s
  | .lock t => "\x7b\"timestamp\":" ++ toString t ++ ",\"status\":\"running\"\x7d"
  | .trigger t => "\x7b\"timestamp\":" ++ toString t ++ ",\"type\":\"manual\"\x7d"
  | .token a e =>
    "\x7b\"access_token\":\"" ++ a ++ "\",\"expires_at\":" ++ toString (e.getD 0) ++ "\x7d"

/-- The function `getSharedLink`; the arguments after the path are the answers of
`list_shared_links` (the URLs of `data.links`) and of `create_shared_link_with_settings`. -/
def getSharedLink (path : String) (listed : Answer (List String)) (created : Answer String) :
    M String := do
  emit (.listSharedLinks path)
  match listed with
  | .threw message => throwNew message
  | .notOk status _ => throwNew ("Failed to list shared links: " ++ toString status)
  | .ok (url :: _) => pure url
  | .ok [] => do
    emit (.createSharedLink path)
    match created with
    | .threw message => throwNew message
    | .notOk status _ => throwNew ("Failed to create shared link: " ++ toString status)
    | .ok url => pure url

/-- The function `listDropboxFiles`; `folder` is the answer of `list_folder`. -/
def listDropboxFiles (path : String) (folder : Answer (List Entry))
    (listed : Answer (List String)) (created : Answer String) : M (List FileItem) := do
  emit (.listFolder path)
  match folder with
  | .threw message => throwNew message
  | .notOk status txt => throwNew ("list_folder failed: " ++ toString status ++ " " ++ txt)
  | .ok entries =>
    let files := entries.filter (fun e => e.tag = "file")
    match files.insertionSort (fun a b => a.server_modified ≤ b.server_modified) with
    | [] => pure []
    | oldestFile :: _ => do
      let cached ← kvGet ("sharedlink:" ++ oldestFile.path_lower)
      if (cached.map Value.truthy).getD false then
        pure [⟨oldestFile.path_lower, toRawDropboxLink ((cached.map Value.toText).getD "")⟩]
      else do
        let url ← getSharedLink oldestFile.path_lower listed created
        kvPut ("sharedlink:" ++ oldestFile.path_lower) (.text url) (some 86400)
        pure [⟨oldestFile.path_lower, toRawDropboxLink url⟩]

/-- The function `deleteDropboxFile`; `answer` is the answer of `delete_v2`.  A status
outside 200..299 is logged only. -/
def deleteDropboxFile (path : String) (answer : Answer Unit) : M Unit := do
  match answer with
  | .threw message => do
    emit (.deleteFile path false)
    throwNew message
  | .notOk _ _ => emit (.deleteFile path false)
  | .ok _ => emit (.deleteFile path true)

/-- The folder after the requests of a trace: a `delete_v2` that succeeded removes the
entries of its path. -/
def queueAfter (entries : List Entry) : List Event → List Entry
  | [] => entries
  | .deleteFile path true :: rest => queueAfter (entries.filter (fun e => e.path_lower ≠ path)) rest
  | _ :: rest => queueAfter entries rest

/-! ## Publish orchestrator -/

/-- The caption pool of `handlePostComplete`. -/
def captions : List String :=
  [ "still here? follow (@sillytonic)",
    "caught you lurking 👀 (@sillytonic)",
    "follow or regret it (@sillytonic)",
    "your feed needs me (@sillytonic)",
    "been stalking? just follow (@sillytonic)",
    "plot twist: hit follow (@sillytonic)",
    "you know what to do (@sillytonic)",
    "follow for daily chaos (@sillytonic)",
    "stop scrolling, start following (@sillytonic)",
    "your thumb + follow button (@sillytonic)",
    "seen enough? follow now (@sillytonic)",
    "follow me or stay basic (@sillytonic)",
    "lurker to follower speedrun (@sillytonic)",
    "follow and thank me later (@sillytonic)",
    "make your feed less boring (@sillytonic)",
    "follow button is right there (@sillytonic)",
    "you + follow = perfection (@sillytonic)",
    "stop being shy, follow (@sillytonic)",
    "follow for more vibes (@sillytonic)",
    "hit follow, hit different (@sillytonic)" ]

/-- The answers of the remote services to one run of `handlePostComplete`.
`random` is `Math.floor(Math.random() * captions.length)`; `polls n` is the answer to
status check number `n` (counted from 1) and the time the request takes. -/
structure Script where
  random : Fin 20
  tokenRefresh : Answer TokenJson
  listFolder : Answer (List Entry)
  listSharedLinks : Answer (List String)
  createSharedLink : Answer String
  upload : Fetched GraphJson
  polls : Nat → Fetched StatusJson × Nat
  publish : Fetched GraphJson
  retryPublish : Fetched GraphJson
  deleteFile : Answer Unit

/-- The constant `maxPollingTime`: 3 minutes. -/
def maxPollingTime : Nat := 180000

/-- The body of the `try` of the poll loop with its `catch`, after the answer arrived:
`true` when the round ends in `break`, `false` when it goes on to the wait. -/
def pollRound (answer : Fetched StatusJson) (attempts : Nat) : M Bool :=
  tryCatch
    (match answer with
      | .threw message => throwNew message
      | .json statusJson =>
        if truthyStr statusJson.status_code then
          if statusJson.status_code = some "FINISHED" then pure true
          else if statusJson.status_code = some "ERROR" then
            throwNew ("Instagram processing failed: " ++ statusJson.raw)
          else pure false
        else if statusJson.status = some "FINISHED" then pure true
        else pure false)
    (fun _ => if attempts ≥ 10 then pure true else pure false)

/-- The `while` loop of `handlePostComplete`, cut after `fuel` rounds (a cut loop is
`halted`); `attempts` is the counter before the round. -/
def pollLoop (sc : Script) (creationId : String) (pollingStartTime : Nat) :
    Nat → Nat → M Unit
  | 0, _ => fun w => ⟨.halted, w, []⟩
  | fuel + 1, attempts => do
    let now ← dateNow
    if now - pollingStartTime < maxPollingTime then do
      advance (sc.polls (attempts + 1)).2
      emit (.pollStatus creationId (sc.polls (attempts + 1)).1)
      let stop ← pollRound (sc.polls (attempts + 1)).1 (attempts + 1)
      if stop then pure ()
      else do
        sleep 6000
        pollLoop sc creationId pollingStartTime fuel (attempts + 1)
    else pure ()

/-- The rounds the poll loop can make at most: a round that goes on waits 6000 ms. -/
def pollFuel : Nat := maxPollingTime / 6000 + 1

/-- The publish step of `handlePostComplete`: `some id` is the post id of the first
answer, `none` stands for `'retry_success'`. -/
def publishMedia (sc : Script) (creationId : String) : M (Option String) := do
  emit (.publish creationId sc.publish)
  match sc.publish with
  | .threw message => throwNew message
  | .json publishJson =>
    if truthyStr publishJson.id then pure publishJson.id
    else
      match publishJson.error with
      | none => throwNew ("Publish failed: " ++ publishJson.raw)
      | some none =>
        throwNew "Cannot read properties of undefined (reading 'includes')"
      | some (some message) =>
        if includes message "not ready" then do
          sleep 30000
          emit (.publish creationId sc.retryPublish)
          match sc.retryPublish with
          | .threw message => throwNew message
          | .json retryPublishJson =>
            if truthyStr retryPublishJson.id then pure none
            else throwNew ("Publish failed after retry: " ++ retryPublishJson.raw)
        else throwNew ("Publish failed: " ++ publishJson.raw)

/-- The container request of `handlePostComplete` (the `media` call and the test of its
answer): the creation id. -/
def uploadVideo (sc : Script) (video_url caption : String) : M String := do
  emit (.createContainer video_url caption)
  match sc.upload with
  | .threw message => throwNew message
  | .json uploadJson =>
    if truthyStr uploadJson.id then pure (uploadJson.id.getD "")
    else throwNew ("Upload failed: " ++ uploadJson.raw)

/-- The function `handlePostComplete`. -/
def handlePostComplete (sc : Script) : M Unit := do
  let caption := captions.getD sc.random.val ""
  notify "🔄 Starting job"
  let _accessToken ← getAccessToken sc.tokenRefresh
  let files ← listDropboxFiles "" sc.listFolder sc.listSharedLinks sc.createSharedLink
  match files with
  | [] => notify "⚠️ No videos left to post."
  | file :: _ => do
    let creationId ← uploadVideo sc file.url caption
    let pollingStartTime ← dateNow
    pollLoop sc creationId pollingStartTime pollFuel 0
    let postId ← publishMedia sc creationId
    notify "🗑️ Cleaning up - deleting video from Dropbox..."
    deleteDropboxFile file.path_lower sc.deleteFile
    notify ("✅ Job completed successfully!\nCaption: " ++ caption
      ++ "\nInstagram Post ID: " ++ postId.getD "retry_success")

end Poster

namespace Relay

open Poster

/-! ## The relay worker (`telegram_to_dropbox_bot`)

Its store `DROPBOX_AUTH_KV` holds plain strings (`Value.text`). -/

/-- The key `KV_DROPBOX_ACCESS_TOKEN_KEY`. -/
def KV_DROPBOX_ACCESS_TOKEN_KEY : String := "dropbox_access_token"

/-- The key `KV_DROPBOX_EXPIRES_AT_KEY` (seconds since the epoch). -/
def KV_DROPBOX_EXPIRES_AT_KEY : String := "dropbox_expires_at"

/-- The JSON answer of the token endpoint (`expires_in` in seconds). -/
structure TokenData where
  access_token : String
  expires_in : Nat
  deriving DecidableEq, Repr

/-- An entry of a `list_folder` page. -/
structure StatEntry where
  tag : String
  name : String
  size : Option Nat
  deriving DecidableEq, Repr

/-- A page of `list_folder`: its entries and its cursor.  The folder is finite: `has_more`
holds exactly while the script has a further page. -/
structure Page where
  entries : List StatEntry
  cursor : Option String
  deriving DecidableEq, Repr

/-- The field `video` of a message. -/
structure Video where
  file_id : String
  file_name : Option String
  file_unique_id : String
  deriving DecidableEq, Repr

/-- A chat message; `chat` is `message.chat.id` (`none` when `message.chat` is missing). -/
structure Message where
  chat : Option String
  text : Option String
  video : Option Video
  deriving DecidableEq, Repr

/-- The parsed body of a webhook call: `null`, or an object with its two fields. -/
inductive Update where
  | null
  | obj (message : Option Message) (channel_post : Option Message)
  deriving DecidableEq, Repr

/-- The request handed to the relay: the method and what `request.json()` gives. -/
structure Request where
  method : String
  body : Fetched Update

/-- The environment and the answers of the remote services to one invocation.
`kvBound` tells whether `env.DROPBOX_AUTH_KV` is bound; `parseInt` is the builtin
(`none` is `NaN`); `send text` is the answer of `sendMessage` to that text; `render` is
the text of the statistics message for a count and a total size. -/
structure Script where
  kvBound : Bool
  adminChat : String
  parseInt : String → Option Int
  send : String → Answer Unit
  tokenRefresh : Answer TokenData
  firstPage : Answer Page
  morePages : List (Answer Page)
  render : Nat → Nat → String
  getFile : Answer (Option String)
  download : Answer Unit
  upload : Answer Unit

/-- The function `sendMessage`: a status outside 200..299 is logged only. -/
def sendMessage (sc : Script) (chatId : String) (text : String) : M Unit := do
  emit (.sendMessage chatId text)
  match sc.send text with
  | .threw message => throwNew message
  | .notOk _ _ => pure ()
  | .ok _ => pure ()

/-- The function `sendMessageQuietly`. -/
def sendMessageQuietly (sc : Script) (chatId : String) (text : String) : M Unit :=
  tryCatch (sendMessage sc chatId text) (fun _ => pure ())

/-- The test `accessToken && expiresAt > Math.floor(Date.now() / 1000) + 300` of
`getDropboxAccessToken`: `some token` when the cached token is returned. -/
def cachedToken (parseInt : String → Option Int) (accessToken expiresAtText : Option Value)
    (now : Nat) : Option String :=
  let expiresAt : Option Int :=
    if (expiresAtText.map Value.truthy).getD false then
      parseInt ((expiresAtText.map Value.toText).getD "")
    else some 0
  match accessToken, expiresAt with
  | some token, some e =>
    if token.truthy ∧ e > ((now / 1000 : Nat) : Int) + 300 then some token.toText else none
  | _, _ => none

/-- The function `getDropboxAccessToken`. -/
def getDropboxAccessToken (sc : Script) : M String := do
  if !sc.kvBound then throwNew "Dropbox KV namespace not bound!"
  else do
    let accessToken ← kvGet KV_DROPBOX_ACCESS_TOKEN_KEY
    let expiresAtText ← kvGet KV_DROPBOX_EXPIRES_AT_KEY
    let now ← dateNow
    match cachedToken sc.parseInt accessToken expiresAtText now with
    | some token => pure token
    | none => do
      emit .tokenRefresh
      match sc.tokenRefresh with
      | .threw message => throwNew message
      | .notOk status errorText =>
        throwNew ("Dropbox token refresh failed: " ++ toString status ++ " - " ++ errorText)
      | .ok tokenData => do
        let now ← dateNow
        let newExpiresAt := now / 1000 + tokenData.expires_in
        kvPut KV_DROPBOX_ACCESS_TOKEN_KEY (.text tokenData.access_token)
          (some tokenData.expires_in)
        kvPut KV_DROPBOX_EXPIRES_AT_KEY (.text (toString newExpiresAt))
          (some tokenData.expires_in)
        pure tokenData.access_token

/-- Whether `name.toLowerCase().endsWith(suffix)` (lower-casing of ASCII letters). -/
def endsWithLower (name suffix : String) : Bool :=
  suffix.toList.isSuffixOf (name.toList.map Char.toLower)

/-- Whether `text.toLowerCase().startsWith(start)` (lower-casing of ASCII letters). -/
def startsWithLower (text start : String) : Bool :=
  start.toList.isPrefixOf (text.toList.map Char.toLower)

/-- The `forEach` of one page: the count and the size of its videos are added. -/
def countPage (entries : List StatEntry) (videoCount totalSize : Nat) : Nat × Nat :=
  entries.foldl
    (fun acc entry =>
      if entry.tag = "file" ∧ endsWithLower entry.name ".mp4" then
        (acc.1 + 1, acc.2 + entry.size.getD 0)
      else acc)
    (videoCount, totalSize)

/-- The `do ... while (cursor)` loop of `getDropboxFolderStats`: `answer` is the answer
to the request of this round, `rest` the pages the store still has to give. -/
def statsLoop : Answer Page → List (Answer Page) → Option String → Nat → Nat → M (Nat × Nat)
  | answer, rest, cursor, videoCount, totalSize => do
    emit (.listFolderPage cursor)
    match answer with
    | .threw message => throwNew message
    | .notOk status txt =>
      throwNew ("Dropbox list_folder failed: " ++ toString status ++ " " ++ txt)
    | .ok data =>
      let counted := countPage data.entries videoCount totalSize
      match rest with
      | [] => pure counted
      | next :: rest =>
        if truthyStr data.cursor then statsLoop next rest data.cursor counted.1 counted.2
        else pure counted

/-- The function `getDropboxFolderStats`: the count and the total size. -/
def getDropboxFolderStats (sc : Script) : M (Nat × Nat) :=
  statsLoop sc.firstPage sc.morePages none 0 0

/-- The function `processAndUploadVideoToDropbox`. -/
def processAndUploadVideoToDropbox (sc : Script) (videoObject : Video) (chatId : String) :
    M Response := do
  let fileId := videoObject.file_id
  let fileName :=
    if truthyStr videoObject.file_name then videoObject.file_name.getD ""
    else "video_" ++ videoObject.file_unique_id ++ ".mp4"
  sendMessage sc chatId ("Received video: " ++ fileName ++ ". Uploading to Dropbox...")
  emit (.getFile fileId)
  match sc.getFile with
  | .threw message => throwNew message
  | .notOk _ txt => throwNew ("Telegram getFile failed: " ++ txt)
  | .ok none => throwNew "Cannot read properties of undefined (reading 'file_path')"
  | .ok (some filePath) => do
    emit (.downloadFile filePath)
    match sc.download with
    | .threw message => throwNew message
    | .notOk _ statusText => throwNew ("Telegram file download failed: " ++ statusText)
    | .ok _ => do
      let _accessToken ← getDropboxAccessToken sc
      emit (.uploadFile ("/" ++ fileName))
      match sc.upload with
      | .threw message => throwNew message
      | .notOk _ txt => throwNew ("Dropbox upload failed: " ++ txt)
      | .ok _ => do
        sendMessage sc chatId ("✅ Uploaded \"" ++ fileName ++ "\" to Dropbox.")
        pure ⟨"OK_VIDEO_UPLOADED", 200⟩

/-- The function `handleUpdate`. -/
def handleUpdate (sc : Script) (update : Update) : M Response :=
  match update with
  | .null => throwNew "Cannot read properties of null (reading 'message')"
  | .obj message channel_post =>
    match message.orElse (fun _ => channel_post) with
    | none => pure ⟨"OK_NO_MESSAGE", 200⟩
    | some message =>
      match message.chat with
      | none => throwNew "Cannot read properties of undefined (reading 'id')"
      | some chatId =>
        if (message.text.map (fun t => startsWithLower t "/start")).getD false then do
          sendMessage sc chatId "Hello! Send me a video for Dropbox upload, or use /stats."
          pure ⟨"OK_START", 200⟩
        else if (message.text.map (fun t => startsWithLower t "/stats")).getD false then do
          sendMessage sc chatId "📊 Fetching stats from Dropbox..."
          tryCatch
            (do let _accessToken ← getDropboxAccessToken sc
                let stats ← getDropboxFolderStats sc
                sendMessage sc chatId (sc.render stats.1 stats.2))
            (fun message => sendMessage sc chatId ("Error fetching stats: " ++ message))
          pure ⟨"OK_STATS", 200⟩
        else
          match message.video with
          | some video => processAndUploadVideoToDropbox sc video chatId
          | none => pure ⟨"OK_IGNORED", 200⟩

/-- The handler `fetch` of the relay. -/
def fetch (sc : Script) (request : Request) : M Response :=
  tryCatch
    (if request.method = "POST" then
      match request.body with
      | .threw message => do
        sendMessageQuietly sc sc.adminChat
          ("UPLOAD BOT (DROPBOX) CRITICAL: JSON parse error: " ++ message)
        pure ⟨"OK_JSON_PARSE_ERROR", 200⟩
      | .json update => handleUpdate sc update
    else pure ⟨"Hello! This is the Telegram Dropbox Uploader Bot.", 200⟩)
    (fun message => do
      sendMessageQuietly sc sc.adminChat ("UPLOAD BOT (DROPBOX) Top-level error: " ++ message)
      pure ⟨"OK_TOP_LEVEL_ERROR_CAUGHT", 200⟩)

end Relay

/-! # Specification vocabulary -/

namespace Poster

/-- The world in which `handlePost` awaits the workflow: the lock is written. -/
def lockedWorld (w : World) : World :=
  { w with kv := w.kv.put "job_running" (.lock w.now) (some 600) w.now }

/-- The test `if (manualTrigger)` of `scheduled`: a Trigger Request is pending. -/
def pendingTrigger (kv : Store) (now : Nat) : Bool :=
  ((kv.get "manual_trigger_requested" now).map Value.truthy).getD false

/-- The tick is a cron event on the first minute of an hour that is a multiple of 4. -/
def onBoundary (event : ScheduledEvent) (now : Nat) : Bool :=
  truthyStr event.cron && getUTCMinutes now = 0 && getUTCHours now % 4 = 0

/-- The result of a tick that does nothing. -/
def noAction (w : World) : Result (Option Response) :=
  ⟨.ok (some ⟨"Cron check completed - no action needed", 200⟩), w, []⟩

/-- The world in which a tick that found a pending Trigger Request goes on: the
record is deleted. -/
def consumed (w : World) : World :=
  { w with kv := w.kv.delete "manual_trigger_requested" }

/-- The world in which a tick calls `handlePost`: a pending Trigger Request has been
deleted, everything else is as the tick found it. -/
def startWorld (w : World) : World :=
  if pendingTrigger w.kv w.now then consumed w else w

/-- The requests of a tick before it calls `handlePost`. -/
def announcement (w : World) : List Event :=
  if pendingTrigger w.kv w.now then
    [.kvDelete "manual_trigger_requested",
     .notify "🎯 Manual trigger detected - starting job..."]
  else [.notify "⏰ Scheduled upload triggered - starting job..."]

/-- The requests of `handlePost` after the workflow ended: the lock is deleted when the
workflow returned, an error notification comes first when it threw, and nothing is
issued while the invocation has not got past the workflow. -/
def closing : Outcome Unit → List Event
  | .ok _ => [.kvDelete "job_running"]
  | .threw message =>
    [.notify ("❌ Job execution error: " ++ message), .kvDelete "job_running"]
  | .halted => []

/-- The world `handlePost` leaves when the workflow ended as `r`: the world of the
workflow, with the lock deleted once the workflow returned or threw. -/
def released (r : Result Unit) : World :=
  match r.out with
  | .halted => r.world
  | _ => { r.world with kv := r.world.kv.delete "job_running" }

/-- How a tick that started the workflow ends: it returns nothing once `handlePost`
returned, whether the workflow returned or threw. -/
def tickOutcome : Outcome Unit → Outcome (Option Response)
  | .halted => .halted
  | _ => .ok none

/-- The response of an awaited handler, when it returned one. -/
def Result.status (r : Result Response) : Option Nat :=
  match r.out with
  | .ok resp => some resp.status
  | _ => none

/-- The computation returns or throws: the invocation gets past it. -/
def Completes {α : Type} (m : M α) : Prop := ∀ w, (m w).out ≠ .halted

/-- The computation leaves the record of `key` as it is. -/
def Preserves {α : Type} (key : String) (m : M α) : Prop := ∀ w, (m w).world.kv key = w.kv key

/-- A workflow that is still running when the world is next looked at. -/
def stillRunning : M Unit := fun w => ⟨.halted, w, []⟩

/-- Whether a poll round ends the loop: the answer is `FINISHED`, or the round failed
(the request threw, or the status code is `ERROR`) and it is the tenth round or later. -/
def pollStop (answer : Fetched StatusJson) (attempts : Nat) : Bool :=
  match answer with
  | .threw _ => decide (attempts ≥ 10)
  | .json statusJson =>
    if truthyStr statusJson.status_code then
      if statusJson.status_code = some "FINISHED" then true
      else if statusJson.status_code = some "ERROR" then decide (attempts ≥ 10)
      else false
    else decide (statusJson.status = some "FINISHED")

/-- The first publish answer carries an id. -/
def firstId (sc : Script) : Bool :=
  match sc.publish with
  | .json publishJson => truthyStr publishJson.id
  | .threw _ => false

/-- The first publish answer has no id and its error message contains `not ready`. -/
def notReady (sc : Script) : Bool :=
  match sc.publish with
  | .json publishJson =>
    !truthyStr publishJson.id &&
      (match publishJson.error with
        | some (some message) => includes message "not ready"
        | _ => false)
  | .threw _ => false

/-- The answer to the retry carries an id. -/
def retryId (sc : Script) : Bool :=
  match sc.retryPublish with
  | .json retryPublishJson => truthyStr retryPublishJson.id
  | .threw _ => false

/-- The run gets to cleanup: the first publish answer or the answer to the retry
carries an id. -/
def published (sc : Script) : Bool := firstId sc || (notReady sc && retryId sc)

/-- The publish requests of a run that reaches the publish step. -/
def publishTrace (sc : Script) (creationId : String) : List Event :=
  if notReady sc then
    [.publish creationId sc.publish, .sleep 30000, .publish creationId sc.retryPublish]
  else [.publish creationId sc.publish]

/-- The part of `handlePostComplete` before the publish step: `none` when there is
nothing to post, else the selected item and the creation id. -/
def beforePublish (sc : Script) : M (Option (FileItem × String)) := do
  notify "🔄 Starting job"
  let _accessToken ← getAccessToken sc.tokenRefresh
  let files ← listDropboxFiles "" sc.listFolder sc.listSharedLinks sc.createSharedLink
  match files with
  | [] => do
    notify "⚠️ No videos left to post."
    pure none
  | file :: _ => do
    let creationId ← uploadVideo sc file.url (captions.getD sc.random.val "")
    let pollingStartTime ← dateNow
    pollLoop sc creationId pollingStartTime pollFuel 0
    pure (some (file, creationId))

/-- The part of `handlePostComplete` after the publish step. -/
def afterPublish (sc : Script) (file : FileItem) (postId : Option String) : M Unit := do
  notify "🗑️ Cleaning up - deleting video from Dropbox..."
  deleteDropboxFile file.path_lower sc.deleteFile
  notify ("✅ Job completed successfully!\nCaption: " ++ captions.getD sc.random.val ""
    ++ "\nInstagram Post ID: " ++ postId.getD "retry_success")

/-- An invocation of the poster worker: a timer tick at a time, with the workflow it
runs if it starts one, or a request to `/trigger` at a time. -/
inductive Invocation where
  | tick (event : ScheduledEvent) (now : Nat) (workflow : M Unit)
  | trigger (method : String) (now : Nat)

/-- The time of an invocation. -/
def Invocation.now : Invocation → Nat
  | .tick _ now _ => now
  | .trigger _ now => now

/-- The requests an invocation issues on a store. -/
def Invocation.trace : Invocation → Store → List Event
  | .tick event now workflow, kv => (scheduled event workflow ⟨kv, now⟩).trace
  | .trigger method now, kv => (fetch ⟨method, "/trigger"⟩ ⟨kv, now⟩).trace

/-- The store an invocation leaves. -/
def Invocation.after : Invocation → Store → Store
  | .tick event now workflow, kv => (scheduled event workflow ⟨kv, now⟩).world.kv
  | .trigger method now, kv => (fetch ⟨method, "/trigger"⟩ ⟨kv, now⟩).world.kv

/-- The store after a sequence of invocations, one after the other. -/
def runAll (kv : Store) : List Invocation → Store
  | [] => kv
  | i :: rest => runAll (i.after kv) rest

/-- The workflow of a tick returns or throws before the next invocation. -/
def Invocation.completes : Invocation → Prop
  | .tick _ _ workflow => Completes workflow
  | .trigger _ _ => True

/-- An unexpired `job_running` record is visible at time `now`. -/
def lockHeld (kv : Store) (now : Nat) : Bool := (kv.get "job_running" now).isSome

/-- The invocation acquires the lock and starts the workflow: it writes `job_running`
and calls `handlePostComplete`. -/
def acquires (i : Invocation) (kv : Store) : Bool :=
  decide (Event.kvPut "job_running" (.lock i.now) (some 600) ∈ i.trace kv) &&
    decide (Event.callHandlePostComplete ∈ i.trace kv)

/-- The event is a publish request. -/
def isPublish : Event → Bool
  | .publish _ _ => true
  | _ => false

/-- A run in which the first status check answers `ERROR` and the second `FINISHED`,
and the publish request succeeds. -/
def errorScript : Script where
  random := 0
  tokenRefresh := .ok ⟨"tok", some 14400⟩
  listFolder := .ok [⟨"file", "/a.mp4", 1000⟩]
  listSharedLinks := .ok ["https://www.dropbox.com/s/x/a.mp4?dl=0"]
  createSharedLink := .threw "unused"
  upload := .json ⟨some "c1", none, "upload"⟩
  polls := fun n =>
    if n = 1 then (.json ⟨some "ERROR", none, "error"⟩, 500)
    else (.json ⟨some "FINISHED", none, "finished"⟩, 500)
  publish := .json ⟨some "p1", none, "publish"⟩
  retryPublish := .threw "unused"
  deleteFile := .ok ()

/-- A run in which the first publish answer says `not ready` and the retry succeeds. -/
def retryScript : Script :=
  { errorScript with
    polls := fun _ => (.json ⟨some "FINISHED", none, "finished"⟩, 500)
    publish := .json ⟨none, some (some "Media ID is not ready"), "not-ready"⟩
    retryPublish := .json ⟨some "p2", none, "publish"⟩ }

/-- A run in which the publish request fails for good. -/
def failScript : Script :=
  { errorScript with
    polls := fun _ => (.json ⟨some "FINISHED", none, "finished"⟩, 500)
    publish := .json ⟨none, some (some "Invalid parameter"), "failed"⟩ }

/-- The event is neither a publish request nor a delete request. -/
def quietEvent : Event → Bool
  | .publish _ _ => false
  | .deleteFile _ _ => false
  | _ => true

/-- From the world `w` the computation returns or throws, leaves the record of `key`
as it is, and issues neither a publish nor a delete request. -/
def MildAt {α : Type} (key : String) (m : M α) (w : World) : Prop :=
  (m w).out ≠ .halted ∧ (m w).world.kv key = w.kv key ∧
    ∀ e ∈ (m w).trace, quietEvent e = true

/-- The computation is mild from every world. -/
def Mild {α : Type} (key : String) (m : M α) : Prop := ∀ w, MildAt key m w

end Poster

/-! ## Vocabulary of the token caches and of the relay -/

namespace Poster

/-- A cached token is present and its stored expiry lies more than 5 minutes after
`now` (poster). -/
def freshToken (kv : Store) (now : Nat) : Prop :=
  ∃ access_token expiresAt,
    kv.get "dropbox_access_token" now = some (.token access_token (some expiresAt)) ∧
      expiresAt > (now : Int) + 300000

/-- The handler returns a response with status 200, or throws; it does not halt. -/
def Acks (m : M Response) : Prop :=
  ∀ w, match (m w).out with
    | .ok r => r.status = 200
    | .threw _ => True
    | .halted => False

end Poster

namespace Relay

open Poster

/-- A cached token is present and its stored expiry (seconds since the epoch, as
`parseInt` reads it) lies more than 5 minutes after `now` (relay). -/
def freshRelayToken (sc : Script) (kv : Store) (now : Nat) : Prop :=
  ∃ token expiresAtText expiresAt,
    kv.get KV_DROPBOX_ACCESS_TOKEN_KEY now = some token ∧ token.truthy = true ∧
    kv.get KV_DROPBOX_EXPIRES_AT_KEY now = some expiresAtText ∧
    expiresAtText.truthy = true ∧
    sc.parseInt expiresAtText.toText = some expiresAt ∧
    expiresAt * 1000 > (now : Int) + 300000

/-- A relay script for the examples: the store is bound, `parseInt` reads decimal
digits, every remote call succeeds. -/
def demoScript : Script where
  kvBound := true
  adminChat := "admin"
  parseInt := fun s => s.toList.foldl
    (fun acc c => acc.bind fun n => if c.isDigit then some (n * 10 + (c.toNat - 48)) else none)
    (some 0)
  send := fun _ => .ok ()
  tokenRefresh := .ok ⟨"fresh", 14400⟩
  firstPage := .ok ⟨[], none⟩
  morePages := []
  render := fun _ _ => "stats"
  getFile := .ok (some "videos/file_1.mp4")
  download := .ok ()
  upload := .ok ()

end Relay

/-! ## Vocabulary of the poll loop and of the selection -/

namespace Poster

/-- The event is a status check. -/
def isPoll : Event → Bool
  | .pollStatus _ _ => true
  | _ => false

/-- The event is one of those issued before the container request: no container
request, status check, wait, publish request or delete request. -/
def preludeEvent : Event → Bool
  | .createContainer _ _ => false
  | .pollStatus _ _ => false
  | .sleep _ => false
  | .publish _ _ => false
  | .deleteFile _ _ => false
  | _ => true

/-- The event is a status check or a wait. -/
def loopEvent : Event → Bool
  | .pollStatus _ _ => true
  | .sleep _ => true
  | _ => false

/-- The event is a container request. -/
def isContainer : Event → Bool
  | .createContainer _ _ => true
  | _ => false

/-- The event is a delete request. -/
def isDelete : Event → Bool
  | .deleteFile _ _ => true
  | _ => false

/-- The shared link of `path` can be had: it is cached, or listed, or created. -/
def linkResolves (kv : Store) (now : Nat) (path : String) (listed : Answer (List String))
    (created : Answer String) : Prop :=
  ((kv.get ("sharedlink:" ++ path) now).map Value.truthy).getD false = true ∨
  (∃ url urls, listed = .ok (url :: urls)) ∨
  (listed = .ok [] ∧ ∃ url, created = .ok url)

/-- Every request the computation issues satisfies `p`. -/
def Emits {α : Type} (p : Event → Bool) (m : M α) : Prop :=
  ∀ w, ∀ e ∈ (m w).trace, p e = true

/-- The part of `handlePostComplete` that selects the item to post. -/
def selectItem (sc : Script) : M (List FileItem) := do
  notify "🔄 Starting job"
  let _accessToken ← getAccessToken sc.tokenRefresh
  listDropboxFiles "" sc.listFolder sc.listSharedLinks sc.createSharedLink

/-- The entry is tagged `file`, no `file` entry of the listing is older, and the `file`
entries listed before it are younger: it is the earliest-listed among the oldest. -/
def IsOldestFile (entries : List Entry) (e : Entry) : Prop :=
  e.tag = "file" ∧ ∃ pre post, entries = pre ++ e :: post ∧
    (∀ f ∈ pre, f.tag = "file" → e.server_modified < f.server_modified) ∧
    (∀ f ∈ post, f.tag = "file" → e.server_modified ≤ f.server_modified)

/-- A run in which nine status checks answer `IN_PROGRESS` and the tenth request fails. -/
def lateFailureScript : Script :=
  { errorScript with
    polls := fun n =>
      if n < 10 then (.json ⟨some "IN_PROGRESS", none, "in-progress"⟩, 500)
      else (.threw "network error", 500) }

/-- A listing with a folder, two files of the same age and a younger file. -/
def mixedScript : Script :=
  { errorScript with
    listFolder := .ok
      [⟨"folder", "/old", 10⟩, ⟨"file", "/c.mp4", 3000⟩, ⟨"file", "/a.mp4", 1000⟩,
       ⟨"file", "/b.mp4", 1000⟩]
    polls := fun _ => (.json ⟨some "FINISHED", none, "finished"⟩, 500) }

/-- A run on a folder with one file in which `list_shared_links` answers 500. -/
def linkFailureScript : Script :=
  { errorScript with listSharedLinks := .notOk 500 "" }

end Poster

/-! # Lemmas on the handlers -/

namespace Poster

theorem Store.get_eq_none_of_absent (kv : Store) (key : String) (now : Nat)
    (h : kv key = none) : kv.get key now = none := by
  simp [Store.get, h]

theorem handlePost_eq (wf : M Unit) (w : World) :
    handlePost wf w =
      match wf (lockedWorld w) with
      | ⟨.ok _, w1, t1⟩ =>
        ⟨.ok (), { w1 with kv := w1.kv.delete "job_running" },
          .kvPut "job_running" (.lock w.now) (some 600) :: .callHandlePostComplete :: t1
            ++ [.kvDelete "job_running"]⟩
      | ⟨.threw e, w1, t1⟩ =>
        ⟨.ok (), { w1 with kv := w1.kv.delete "job_running" },
          .kvPut "job_running" (.lock w.now) (some 600) :: .callHandlePostComplete :: t1
            ++ [.notify ("❌ Job execution error: " ++ e), .kvDelete "job_running"]⟩
      | ⟨.halted, w1, t1⟩ =>
        ⟨.halted, w1,
          .kvPut "job_running" (.lock w.now) (some 600) :: .callHandlePostComplete :: t1⟩ := by
  simp only [handlePost, bind, M.bind, dateNow, kvPut, tryFinally, tryCatch, emit, notify,
    kvDelete, lockedWorld]
  rcases h : wf _ with ⟨o, w1, t1⟩
  cases o <;> simp [h]

theorem scheduled_eq (event : ScheduledEvent) (wf : M Unit) (w : World) :
    scheduled event wf w =
      if pendingTrigger w.kv w.now = true then
        let r := handlePost wf { w with kv := w.kv.delete "manual_trigger_requested" }
        ⟨match r.out with
          | .ok _ => .ok none
          | .threw e => .threw e
          | .halted => .halted,
         r.world,
         .kvDelete "manual_trigger_requested"
           :: .notify "🎯 Manual trigger detected - starting job..." :: r.trace⟩
      else if onBoundary event w.now = true then
        let r := handlePost wf w
        ⟨match r.out with
          | .ok _ => .ok none
          | .threw e => .threw e
          | .halted => .halted,
         r.world,
         .notify "⏰ Scheduled upload triggered - starting job..." :: r.trace⟩
      else noAction w := by
  unfold pendingTrigger onBoundary noAction
  by_cases h1 : ((w.kv.get "manual_trigger_requested" w.now).map Value.truthy).getD false = true
  · rcases h : handlePost wf { w with kv := w.kv.delete "manual_trigger_requested" } with ⟨o, w1, t1⟩
    cases o <;>
      simp [scheduled, bind, M.bind, kvGet, dateNow, h1, kvDelete, notify, emit, pure, M.pure, h]
  · by_cases h2 : truthyStr event.cron ∧ getUTCMinutes w.now = 0 ∧ getUTCHours w.now % 4 = 0
    · rcases h : handlePost wf w with ⟨o, w1, t1⟩
      cases o <;>
        simp [scheduled, bind, M.bind, kvGet, dateNow, h1, h2, kvDelete, notify, emit, pure,
          M.pure, h]
    · have h3 : ¬ ((truthyStr event.cron = true ∧ getUTCMinutes w.now = 0)
          ∧ getUTCHours w.now % 4 = 0) := fun h => h2 ⟨h.1.1, h.1.2, h.2⟩
      simp [scheduled, bind, M.bind, kvGet, dateNow, h1, h2, h3, pure, M.pure]

theorem method_allowed {method : String} (hm : method = "GET" ∨ method = "POST") :
    ¬ (method ≠ "POST" ∧ method ≠ "GET") := by
  rcases hm with h | h <;> simp [h]

/-- `/trigger` with no visible lock and no pending request: the request is queued. -/
theorem fetch_trigger_free (method : String) (hm : method = "GET" ∨ method = "POST")
    (w : World) (h1 : w.kv.get "job_running" w.now = none)
    (h2 : pendingTrigger w.kv w.now = false) :
    fetch ⟨method, "/trigger"⟩ w =
      ⟨.ok ⟨"✅ Job queued successfully! Will start within 1 minute via cron", 200⟩,
       { w with kv := w.kv.put "manual_trigger_requested" (.trigger w.now) (some 120) w.now },
       [.kvPut "manual_trigger_requested" (.trigger w.now) (some 120),
        .notify "📋 Manual upload job queued - will start within 1 minute"]⟩ := by
  unfold pendingTrigger at h2
  simp [fetch, method_allowed hm, bind, M.bind, kvGet, h1, h2, checkRunning, pure, M.pure,
    dateNow, kvPut, notify, emit]

/-- `/trigger` with no visible lock and a pending request: rejected, nothing written. -/
theorem fetch_trigger_queued (method : String) (hm : method = "GET" ∨ method = "POST")
    (w : World) (h1 : w.kv.get "job_running" w.now = none)
    (h2 : pendingTrigger w.kv w.now = true) :
    fetch ⟨method, "/trigger"⟩ w =
      ⟨.ok ⟨"⏳ Job is already queued, will start soon...", 429⟩, w, []⟩ := by
  unfold pendingTrigger at h2
  simp [fetch, method_allowed hm, bind, M.bind, kvGet, h1, h2, checkRunning, pure, M.pure]

/-- `/trigger` with a lock of age at most 300000 ms: rejected, nothing written. -/
theorem fetch_trigger_fresh (method : String) (hm : method = "GET" ∨ method = "POST")
    (w : World) (t : Nat) (h1 : w.kv.get "job_running" w.now = some (.lock t))
    (hage : (w.now : Int) - (t : Int) ≤ 300000) :
    fetch ⟨method, "/trigger"⟩ w =
      ⟨.ok ⟨"⏳ Job is already running, please wait...", 429⟩, w, []⟩ := by
  have hage2 : ¬ ((w.now : Int) - (t : Int) > 300000) := not_lt.mpr hage
  simp [fetch, method_allowed hm, bind, M.bind, kvGet, h1, checkRunning, pure, M.pure,
    Value.truthy, jsonParse, dateNow, Value.timestamp, hage2]

/-- `/trigger` with a lock older than 300000 ms: the lock is deleted, then the request
is queued unless one is pending. -/
theorem fetch_trigger_stale (method : String) (hm : method = "GET" ∨ method = "POST")
    (w : World) (t : Nat) (h1 : w.kv.get "job_running" w.now = some (.lock t))
    (hage : (w.now : Int) - (t : Int) > 300000) :
    fetch ⟨method, "/trigger"⟩ w =
      if pendingTrigger w.kv w.now = true then
        ⟨.ok ⟨"⏳ Job is already queued, will start soon...", 429⟩,
         { w with kv := w.kv.delete "job_running" }, [.kvDelete "job_running"]⟩
      else
        ⟨.ok ⟨"✅ Job queued successfully! Will start within 1 minute via cron", 200⟩,
         ⟨Store.put (Store.delete w.kv "job_running") "manual_trigger_requested"
            (.trigger w.now) (some 120) w.now, w.now⟩,
         [.kvDelete "job_running",
          .kvPut "manual_trigger_requested" (.trigger w.now) (some 120),
          .notify "📋 Manual upload job queued - will start within 1 minute"]⟩ := by
  unfold pendingTrigger
  by_cases h2 : ((w.kv.get "manual_trigger_requested" w.now).map Value.truthy).getD false = true
  · simp [fetch, method_allowed hm, bind, M.bind, kvGet, h1, h2, checkRunning, pure, M.pure,
      Value.truthy, jsonParse, dateNow, Value.timestamp, hage, kvDelete]
  · simp [fetch, method_allowed hm, bind, M.bind, kvGet, h1, h2, checkRunning, pure, M.pure,
      Value.truthy, jsonParse, dateNow, Value.timestamp, hage, kvDelete, kvPut, notify, emit]

theorem bind_eq {α β : Type} (m : M α) (f : α → M β) (w : World) :
    (m >>= f) w =
      match m w with
      | ⟨.ok a, w1, t1⟩ => ⟨(f a w1).out, (f a w1).world, t1 ++ (f a w1).trace⟩
      | ⟨.threw e, w1, t1⟩ => ⟨.threw e, w1, t1⟩
      | ⟨.halted, w1, t1⟩ => ⟨.halted, w1, t1⟩ := rfl

theorem mildAt_bind {α β : Type} {key : String} {m : M α} {f : α → M β} {w : World}
    (hm : MildAt key m w)
    (hf : ∀ a w1 t1, m w = ⟨.ok a, w1, t1⟩ → MildAt key (f a) w1) :
    MildAt key (m >>= f) w := by
  unfold MildAt at *
  rw [bind_eq]
  rcases h : m w with ⟨o, w1, t1⟩
  rw [h] at hm
  cases o with
  | ok a =>
    obtain ⟨h1, h2, h3⟩ := hf a w1 t1 h
    refine ⟨h1, h2.trans hm.2.1, ?_⟩
    intro e he
    rcases List.mem_append.mp he with he | he
    · exact hm.2.2 e he
    · exact h3 e he
  | threw e => simpa using hm
  | halted => exact absurd rfl hm.1

theorem mild_bind {α β : Type} {key : String} {m : M α} {f : α → M β}
    (hm : Mild key m) (hf : ∀ a, Mild key (f a)) : Mild key (m >>= f) :=
  fun w => mildAt_bind (hm w) (fun a w1 _ _ => hf a w1)

theorem mild_pure {α : Type} (key : String) (a : α) : Mild key (pure a : M α) := by
  intro w; simp [MildAt, Pure.pure, M.pure]

theorem mild_throwNew {α : Type} (key : String) (message : String) :
    Mild key (throwNew message : M α) := by
  intro w; simp [MildAt, Poster.throwNew]

theorem mild_emit (key : String) (e : Event) (he : quietEvent e = true) :
    Mild key (emit e) := by
  intro w; simp [MildAt, Poster.emit, he]

theorem mild_notify (key : String) (message : String) : Mild key (notify message) :=
  mild_emit key _ rfl

theorem mild_dateNow (key : String) : Mild key dateNow := by
  intro w; simp [MildAt, Poster.dateNow]

theorem mild_sleep (key : String) (ms : Nat) : Mild key (sleep ms) := by
  intro w; simp [MildAt, Poster.sleep, quietEvent]

theorem mild_advance (key : String) (ms : Nat) : Mild key (advance ms) := by
  intro w; simp [MildAt, Poster.advance]

theorem mild_kvGet (key k : String) : Mild key (kvGet k) := by
  intro w; simp [MildAt, Poster.kvGet]

theorem mild_kvPut (key k : String) (v : Value) (ttl : Option Nat) (hk : key ≠ k) :
    Mild key (kvPut k v ttl) := by
  intro w; simp [MildAt, Poster.kvPut, Store.put, hk, quietEvent]

theorem mild_tryCatch {α : Type} {key : String} {m : M α} {handler : String → M α}
    (hm : Mild key m) (hh : ∀ e, Mild key (handler e)) : Mild key (tryCatch m handler) := by
  intro w
  have h0 := hm w
  unfold MildAt at *
  unfold Poster.tryCatch
  rcases h : m w with ⟨o, w1, t1⟩
  rw [h] at h0
  cases o with
  | ok a => simpa using h0
  | threw e =>
    obtain ⟨h1, h2, h3⟩ := hh e w1
    refine ⟨h1, h2.trans h0.2.1, ?_⟩
    intro e he
    rcases List.mem_append.mp he with he | he
    · exact h0.2.2 e he
    · exact h3 e he
  | halted => exact h0

theorem getAccessToken_mild (key : String) (hk : key ≠ "dropbox_access_token")
    (refresh : Answer TokenJson) : Mild key (getAccessToken refresh) := by
  unfold getAccessToken
  refine mild_bind (mild_kvGet _ _) fun cached => mild_bind (mild_dateNow _) fun now => ?_
  split
  · exact mild_pure _ _
  · refine mild_bind (mild_emit _ _ rfl) fun _ => ?_
    split
    · exact mild_throwNew _ _
    · exact mild_throwNew _ _
    · split
      · exact mild_throwNew _ _
      · refine mild_bind (mild_dateNow _) fun _ => ?_
        split
        · exact mild_throwNew _ _
        · exact mild_bind (mild_kvPut _ _ _ _ hk) fun _ => mild_pure _ _

theorem getSharedLink_mild (key path : String) (listed : Answer (List String))
    (created : Answer String) : Mild key (getSharedLink path listed created) := by
  unfold getSharedLink
  refine mild_bind (mild_emit _ _ rfl) fun _ => ?_
  split
  · exact mild_throwNew _ _
  · exact mild_throwNew _ _
  · exact mild_pure _ _
  · refine mild_bind (mild_emit _ _ rfl) fun _ => ?_
    split
    · exact mild_throwNew _ _
    · exact mild_throwNew _ _
    · exact mild_pure _ _

theorem listDropboxFiles_mild (key : String) (hk : ∀ p, key ≠ "sharedlink:" ++ p)
    (path : String) (folder : Answer (List Entry)) (listed : Answer (List String))
    (created : Answer String) : Mild key (listDropboxFiles path folder listed created) := by
  unfold listDropboxFiles
  refine mild_bind (mild_emit _ _ rfl) fun _ => ?_
  split
  · exact mild_throwNew _ _
  · exact mild_throwNew _ _
  · dsimp only
    split
    · exact mild_pure _ _
    · refine mild_bind (mild_kvGet _ _) fun cached => ?_
      split
      · exact mild_pure _ _
      · exact mild_bind (getSharedLink_mild _ _ _ _) fun url =>
          mild_bind (mild_kvPut _ _ _ _ (hk _)) fun _ => mild_pure _ _

theorem uploadVideo_mild (key : String) (sc : Script) (video_url caption : String) :
    Mild key (uploadVideo sc video_url caption) := by
  unfold uploadVideo
  refine mild_bind (mild_emit _ _ rfl) fun _ => ?_
  split
  · exact mild_throwNew _ _
  · split
    · exact mild_pure _ _
    · exact mild_throwNew _ _

/-- The outcome of one poll round is a function of the answer and the counter. -/
theorem pollRound_eq (answer : Fetched StatusJson) (attempts : Nat) (w : World) :
    pollRound answer attempts w = ⟨.ok (pollStop answer attempts), w, []⟩ := by
  unfold pollRound pollStop tryCatch
  cases answer with
  | threw message =>
    by_cases h : attempts ≥ 10 <;> simp [throwNew, h, pure, M.pure]
  | json statusJson =>
    by_cases h1 : truthyStr statusJson.status_code = true
    · by_cases h2 : statusJson.status_code = some "FINISHED"
      · simp [h2, truthyStr, pure, M.pure]
      · by_cases h3 : statusJson.status_code = some "ERROR"
        · by_cases h : attempts ≥ 10 <;> simp [h3, truthyStr, throwNew, h, pure, M.pure]
        · simp [h1, h2, h3, pure, M.pure]
    · by_cases h2 : statusJson.status = some "FINISHED" <;> simp [h1, h2, pure, M.pure]

/-- One unfolding of the poll loop. -/
theorem pollLoop_succ (sc : Script) (creationId : String) (start fuel attempts : Nat)
    (w : World) :
    pollLoop sc creationId start (fuel + 1) attempts w =
      if w.now - start < maxPollingTime then
        if pollStop (sc.polls (attempts + 1)).1 (attempts + 1) = true then
          ⟨.ok (), ⟨w.kv, w.now + (sc.polls (attempts + 1)).2⟩,
            [.pollStatus creationId (sc.polls (attempts + 1)).1]⟩
        else
          ⟨(pollLoop sc creationId start fuel (attempts + 1)
              ⟨w.kv, w.now + (sc.polls (attempts + 1)).2 + 6000⟩).out,
           (pollLoop sc creationId start fuel (attempts + 1)
              ⟨w.kv, w.now + (sc.polls (attempts + 1)).2 + 6000⟩).world,
           .pollStatus creationId (sc.polls (attempts + 1)).1 :: .sleep 6000 ::
             (pollLoop sc creationId start fuel (attempts + 1)
              ⟨w.kv, w.now + (sc.polls (attempts + 1)).2 + 6000⟩).trace⟩
      else ⟨.ok (), w, []⟩ := by
  by_cases h1 : w.now - start < maxPollingTime
  · by_cases h2 : pollStop (sc.polls (attempts + 1)).1 (attempts + 1) = true
    · simp [pollLoop, bind, M.bind, dateNow, h1, h2, advance, emit, pollRound_eq, pure, M.pure]
    · simp [pollLoop, bind, M.bind, dateNow, h1, h2, advance, emit, pollRound_eq, sleep]
  · simp [pollLoop, bind, M.bind, dateNow, h1, pure, M.pure]

theorem pollLoop_mildAt (key : String) (sc : Script) (creationId : String) (start : Nat) :
    ∀ (fuel attempts : Nat) (w : World), start ≤ w.now →
      maxPollingTime ≤ (w.now - start) + fuel * 6000 →
      MildAt key (pollLoop sc creationId start (fuel + 1) attempts) w := by
  intro fuel
  induction fuel with
  | zero =>
    intro attempts w _ hb
    have : ¬ (w.now - start < maxPollingTime) := by omega
    rw [MildAt, pollLoop_succ, if_neg this]
    simp
  | succ n ih =>
    intro attempts w hs hb
    rw [MildAt, pollLoop_succ]
    by_cases h1 : w.now - start < maxPollingTime
    · by_cases h2 : pollStop (sc.polls (attempts + 1)).1 (attempts + 1) = true
      · simp [h1, h2, quietEvent]
      · have := ih (attempts + 1) ⟨w.kv, w.now + (sc.polls (attempts + 1)).2 + 6000⟩
          (by show start ≤ w.now + _ + 6000; omega)
          (by show maxPollingTime ≤ (w.now + _ + 6000 - start) + n * 6000; omega)
        obtain ⟨a1, a2, a3⟩ := this
        simp only [if_pos h1, if_neg h2]
        refine ⟨a1, a2, ?_⟩
        intro e he
        simp only [List.mem_cons] at he
        rcases he with rfl | rfl | he
        · rfl
        · rfl
        · exact a3 e he
    · simp [h1]

theorem bind_assoc_M {α β γ : Type} (m : M α) (f : α → M β) (g : β → M γ) :
    (m >>= f) >>= g = m >>= fun a => f a >>= g := by
  funext w
  simp only [bind_eq]
  rcases h : m w with ⟨o, w1, t1⟩
  cases o with
  | ok a =>
    simp only []
    rcases h2 : f a w1 with ⟨o2, w2, t2⟩
    cases o2 <;> simp
  | threw e => rfl
  | halted => rfl

theorem pure_bind_M {α β : Type} (a : α) (f : α → M β) : (pure a : M α) >>= f = f a := by
  funext w
  simp [bind_eq, pure, M.pure]

theorem bind_pure_unit_M (m : M Unit) : (m >>= fun _ => (pure () : M Unit)) = m := by
  funext w
  simp only [bind_eq]
  rcases h : m w with ⟨o, w1, t1⟩
  cases o <;> simp [pure, M.pure]

/-- The workflow is its part before the publish step, the publish step, and the cleanup. -/
theorem handlePostComplete_eq (sc : Script) :
    handlePostComplete sc =
      beforePublish sc >>= fun r =>
        match r with
        | none => pure ()
        | some (file, creationId) =>
          publishMedia sc creationId >>= fun postId => afterPublish sc file postId := by
  unfold handlePostComplete beforePublish afterPublish
  simp only [bind_assoc_M]
  refine congrArg _ (funext fun _ => congrArg _ (funext fun _ => congrArg _ (funext fun files => ?_)))
  cases files with
  | nil => simp only [bind_assoc_M, pure_bind_M, bind_pure_unit_M]
  | cons file rest => simp only [bind_assoc_M, pure_bind_M]

theorem ne_sharedlink (key : String) (h : key.data.head? ≠ some 's') (p : String) :
    key ≠ "sharedlink:" ++ p := by
  intro hp
  apply h
  rw [hp, String.data_append]
  rfl

theorem beforePublish_mild (key : String) (hk : key ≠ "dropbox_access_token")
    (hs : ∀ p, key ≠ "sharedlink:" ++ p) (sc : Script) : Mild key (beforePublish sc) := by
  unfold beforePublish
  refine mild_bind (mild_notify _ _) fun _ =>
    mild_bind (getAccessToken_mild key hk _) fun _ =>
      mild_bind (listDropboxFiles_mild key hs _ _ _ _) fun files => ?_
  split
  · exact mild_bind (mild_notify _ _) fun _ => mild_pure _ _
  · refine mild_bind (uploadVideo_mild _ _ _ _) fun creationId => ?_
    intro w
    refine mildAt_bind (mild_dateNow _ w) ?_
    intro a w1 t1 h
    simp only [dateNow, Result.mk.injEq, Outcome.ok.injEq] at h
    obtain ⟨rfl, rfl, -⟩ := h
    refine mildAt_bind (pollLoop_mildAt key sc creationId w.now 30 0 w (le_refl _) ?_) ?_
    · simp [maxPollingTime]
    · intro _ w2 _ _
      exact mild_pure _ _ w2

theorem publishMedia_spec (sc : Script) (creationId : String) (w : World) :
    (publishMedia sc creationId w).world.kv = w.kv ∧
    (publishMedia sc creationId w).trace = publishTrace sc creationId ∧
    (published sc = true → ∃ postId, (publishMedia sc creationId w).out = .ok postId) ∧
    (published sc = false → ∃ message, (publishMedia sc creationId w).out = .threw message) := by
  unfold publishMedia publishTrace published firstId notReady retryId
  rcases hp : sc.publish with m | publishJson
  · simp [bind_eq, emit, throwNew]
  · by_cases h1 : truthyStr publishJson.id = true
    · simp [bind_eq, emit, h1, pure, M.pure]
    · rcases he : publishJson.error with _ | _ | message
      · simp [bind_eq, emit, h1, he, throwNew]
      · simp [bind_eq, emit, h1, he, throwNew]
      · by_cases h2 : includes message "not ready" = true
        · rcases hr : sc.retryPublish with m | retryPublishJson
          · simp [bind_eq, emit, h1, he, h2, sleep, throwNew]
          · by_cases h3 : truthyStr retryPublishJson.id = true
            · simp [bind_eq, emit, h1, he, h2, sleep, h3, pure, M.pure]
            · simp [bind_eq, emit, h1, he, h2, sleep, h3, throwNew]
        · simp [bind_eq, emit, h1, he, h2, throwNew]

theorem afterPublish_spec (sc : Script) (file : FileItem) (postId : Option String)
    (w : World) :
    (afterPublish sc file postId w).out ≠ .halted ∧
    (afterPublish sc file postId w).world.kv = w.kv ∧
    ∃ d post, (afterPublish sc file postId w).trace =
        .notify "🗑️ Cleaning up - deleting video from Dropbox..."
          :: .deleteFile file.path_lower d :: post ∧
      ∀ e ∈ post, quietEvent e = true := by
  unfold afterPublish deleteDropboxFile
  rcases hd : sc.deleteFile with m | ⟨status, txt⟩ | u
  · simp [bind_eq, notify, emit, throwNew]
  · simp [bind_eq, notify, emit, quietEvent]
  · simp [bind_eq, notify, emit, quietEvent]

/-- The shape of every run of the workflow: a part without publish and delete requests;
then, when the publish step is reached, its requests; then, when a publish answer carried
an id, the cleanup. -/
theorem handlePostComplete_shape (key : String) (hk : key ≠ "dropbox_access_token")
    (hs : ∀ p, key ≠ "sharedlink:" ++ p) (sc : Script) (w : World) :
    (handlePostComplete sc w).out ≠ .halted ∧
    (handlePostComplete sc w).world.kv key = w.kv key ∧
    ∃ pre, (∀ e ∈ pre, quietEvent e = true) ∧
      ((handlePostComplete sc w).trace = pre ∨
       ∃ creationId,
        (published sc = false ∧
          (handlePostComplete sc w).trace = pre ++ publishTrace sc creationId ∧
          ∃ message, (handlePostComplete sc w).out = .threw message) ∨
        (published sc = true ∧ ∃ path d post,
          (handlePostComplete sc w).trace =
            pre ++ publishTrace sc creationId ++
              .notify "🗑️ Cleaning up - deleting video from Dropbox..."
                :: .deleteFile path d :: post ∧
          ∀ e ∈ post, quietEvent e = true)) := by
  rw [handlePostComplete_eq, bind_eq]
  obtain ⟨hb1, hb2, hb3⟩ := beforePublish_mild key hk hs sc w
  rcases h : beforePublish sc w with ⟨o, w1, t1⟩
  rw [h] at hb1 hb2 hb3
  cases o with
  | halted => exact absurd rfl hb1
  | threw e => exact ⟨by simp, hb2, t1, hb3, Or.inl rfl⟩
  | ok r =>
    cases r with
    | none => exact ⟨by simp [pure, M.pure], hb2, t1, hb3, Or.inl (by simp [pure, M.pure])⟩
    | some fc =>
      obtain ⟨file, creationId⟩ := fc
      obtain ⟨p1, p2, p3, p4⟩ := publishMedia_spec sc creationId w1
      simp only [bind_eq]
      rcases hpm : publishMedia sc creationId w1 with ⟨o2, w2, t2⟩
      rw [hpm] at p1 p2 p3 p4
      simp only at p1 p2 p3 p4
      cases hpub : published sc with
      | false =>
        obtain ⟨message, hm⟩ := p4 hpub
        subst hm
        refine ⟨by simp, by simpa [p1] using hb2, t1, hb3, Or.inr ⟨creationId, Or.inl ?_⟩⟩
        exact ⟨rfl, by simp [p2], message, rfl⟩
      | true =>
        obtain ⟨postId, hm⟩ := p3 hpub
        subst hm
        obtain ⟨a1, a2, d, post, a3, a4⟩ := afterPublish_spec sc file postId w2
        refine ⟨by simpa using a1, ?_, t1, hb3, Or.inr ⟨creationId, Or.inr ⟨rfl, ?_⟩⟩⟩
        · simp only [a2, p1]; exact hb2
        · exact ⟨file.path_lower, d, post, by simp [p2, a3], a4⟩

theorem handlePostComplete_completes (sc : Script) : Completes (handlePostComplete sc) :=
  fun w => (handlePostComplete_shape "job_running" (by decide)
    (ne_sharedlink _ (by decide)) sc w).1

theorem handlePostComplete_preserves_trigger (sc : Script) :
    Preserves "manual_trigger_requested" (handlePostComplete sc) :=
  fun w => (handlePostComplete_shape "manual_trigger_requested" (by decide)
    (ne_sharedlink _ (by decide)) sc w).2.1

theorem quiet_not_delete {l : List Event} (h : ∀ e ∈ l, quietEvent e = true) (path : String)
    (d : Bool) : Event.deleteFile path d ∉ l :=
  fun hm => by simpa [quietEvent] using h _ hm

theorem quiet_not_publish {l : List Event} (h : ∀ e ∈ l, quietEvent e = true)
    (creationId : String) (answer : Fetched GraphJson) : Event.publish creationId answer ∉ l :=
  fun hm => by simpa [quietEvent] using h _ hm

theorem publishTrace_not_delete (sc : Script) (creationId path : String) (d : Bool) :
    Event.deleteFile path d ∉ publishTrace sc creationId := by
  unfold publishTrace
  split <;> simp

/-- A list has one decomposition around an element with a property that no other
element has. -/
theorem split_unique {α : Type} (p : α → Prop) :
    ∀ (a b pre post : List α) (x y : α), a ++ x :: b = pre ++ y :: post →
      (∀ e ∈ a, ¬ p e) → p y → (∀ e ∈ b, ¬ p e) → p x → pre = a := by
  intro a
  induction a with
  | nil =>
    intro b pre post x y h _ hy hb _
    cases pre with
    | nil => rfl
    | cons c pre =>
      simp only [List.nil_append, List.cons_append, List.cons.injEq] at h
      exact absurd hy (hb y (by rw [h.2]; simp))
  | cons c a ih =>
    intro b pre post x y h ha hy hb hx
    cases pre with
    | nil =>
      simp only [List.nil_append, List.cons_append, List.cons.injEq] at h
      exact absurd (h.1 ▸ hy) (ha c (by simp))
    | cons c2 pre =>
      simp only [List.cons_append, List.cons.injEq] at h
      rw [ih b pre post x y h.2 (fun e he => ha e (by simp [he])) hy hb hx, h.1]

theorem queueAfter_of_no_delete (entries : List Entry) :
    ∀ trace : List Event, (∀ path d, Event.deleteFile path d ∉ trace) →
      queueAfter entries trace = entries := by
  intro trace
  induction trace with
  | nil => intro _; rfl
  | cons e rest ih =>
    intro h
    have hrest : ∀ path d, Event.deleteFile path d ∉ rest :=
      fun path d hm => h path d (by simp [hm])
    cases e with
    | deleteFile path d => exact absurd (by simp) (h path d)
    | _ => simpa [queueAfter] using ih hrest

/-- A run that gets to cleanup has a publish answer with an id among its publish
requests. -/
theorem published_confirmed (sc : Script) (creationId : String) (h : published sc = true) :
    ∃ publishJson, Event.publish creationId (.json publishJson) ∈ publishTrace sc creationId ∧
      truthyStr publishJson.id = true := by
  unfold published firstId notReady retryId at h
  unfold publishTrace notReady
  rcases hp : sc.publish with m | publishJson
  · simp [hp] at h
  · by_cases h1 : truthyStr publishJson.id = true
    · exact ⟨publishJson, by simp [h1], h1⟩
    · rcases hr : sc.retryPublish with m | retryPublishJson
      · simp [hp, hr, h1] at h
      · simp only [hp, hr, h1, Bool.false_or, Bool.and_eq_true] at h
        refine ⟨retryPublishJson, ?_, h.2⟩
        simp only [Bool.not_false, Bool.true_and] at h
        simp [h.1, h1]

theorem quiet_filter_publish {l : List Event} (h : ∀ e ∈ l, isPublish e = false) :
    l.filter isPublish = [] :=
  List.filter_eq_nil_iff.mpr fun e he => by simp [h e he]

theorem quiet_isPublish {l : List Event} (h : ∀ e ∈ l, quietEvent e = true) :
    ∀ e ∈ l, isPublish e = false := by
  intro e he
  have := h e he
  cases e <;> simp_all [quietEvent, isPublish]

theorem handlePost_clears (wf : M Unit) (w : World)
    (hwf : (wf (lockedWorld w)).out ≠ .halted) :
    (handlePost wf w).world.kv "job_running" = none := by
  rw [handlePost_eq]
  rcases h : wf (lockedWorld w) with ⟨o, w1, t1⟩
  rw [h] at hwf
  cases o with
  | ok a => simp [Store.delete]
  | threw e => simp [Store.delete]
  | halted => exact absurd rfl hwf

theorem handlePost_acquires (wf : M Unit) (w : World) :
    Event.kvPut "job_running" (.lock w.now) (some 600) ∈ (handlePost wf w).trace ∧
    Event.callHandlePostComplete ∈ (handlePost wf w).trace := by
  rw [handlePost_eq]
  rcases h : wf (lockedWorld w) with ⟨o, w1, t1⟩
  cases o <;> simp

theorem scheduled_acquires (event : ScheduledEvent) (wf : M Unit) (w : World)
    (h : pendingTrigger w.kv w.now = true ∨ onBoundary event w.now = true) :
    Event.kvPut "job_running" (.lock w.now) (some 600) ∈ (scheduled event wf w).trace ∧
    Event.callHandlePostComplete ∈ (scheduled event wf w).trace := by
  rw [scheduled_eq]
  by_cases hp : pendingTrigger w.kv w.now = true
  · have := handlePost_acquires wf { w with kv := w.kv.delete "manual_trigger_requested" }
    simp only [hp, if_true]
    exact ⟨by simp [this.1], by simp [this.2]⟩
  · have hb : onBoundary event w.now = true := h.resolve_left hp
    have := handlePost_acquires wf w
    simp only [hp, hb, if_true, if_false]
    exact ⟨by simp [this.1], by simp [this.2]⟩

/-- The run of `handlePost` in terms of the run of the workflow it awaits. -/
theorem handlePost_run (wf : M Unit) (w : World) :
    handlePost wf w =
      ⟨(match (wf (lockedWorld w)).out with
        | .halted => .halted
        | _ => .ok ()),
       released (wf (lockedWorld w)),
       .kvPut "job_running" (.lock w.now) (some 600) :: .callHandlePostComplete ::
         (wf (lockedWorld w)).trace ++ closing (wf (lockedWorld w)).out⟩ := by
  rw [handlePost_eq]
  rcases h : wf (lockedWorld w) with ⟨o, w1, t1⟩
  cases o <;> simp [released, closing]

/-- The run of a tick that starts the workflow in terms of the run of the workflow. -/
theorem scheduled_run (event : ScheduledEvent) (wf : M Unit) (w : World)
    (h : pendingTrigger w.kv w.now = true ∨ onBoundary event w.now = true) :
    scheduled event wf w =
      ⟨tickOutcome (wf (lockedWorld (startWorld w))).out,
       released (wf (lockedWorld (startWorld w))),
       announcement w ++ .kvPut "job_running" (.lock w.now) (some 600) ::
         .callHandlePostComplete :: (wf (lockedWorld (startWorld w))).trace ++
           closing (wf (lockedWorld (startWorld w))).out⟩ := by
  rw [scheduled_eq]
  by_cases hp : pendingTrigger w.kv w.now = true
  · simp only [hp, if_true, handlePost_run, startWorld, announcement, consumed]
    rcases hw : (wf (lockedWorld { w with kv := w.kv.delete "manual_trigger_requested" })).out
      with a | e | _ <;> simp [tickOutcome]
  · have hb : onBoundary event w.now = true := h.resolve_left hp
    have hpf : pendingTrigger w.kv w.now = false := by simpa using hp
    simp only [hpf, hb, if_true, if_false, handlePost_run, startWorld, announcement,
      Bool.false_eq_true]
    rcases hw : (wf (lockedWorld w)).out with a | e | _ <;> simp [tickOutcome]

/-- The workflow of a tick starts under the lock the tick has just written, whatever
record the key held before. -/
theorem startWorld_locked (w : World) :
    (lockedWorld (startWorld w)).kv.get "job_running" w.now = some (.lock w.now) := by
  have hn : (startWorld w).now = w.now := by
    unfold startWorld consumed; split <;> rfl
  simp [lockedWorld, Store.get, Store.put, hn]

/-- The cases of a tick, by the marker `handlePost` leaves before it awaits the
workflow. -/
theorem scheduled_marker_cases (event : ScheduledEvent) (wf : M Unit) (w : World) :
    (w.kv.get "manual_trigger_requested" w.now = none → pendingTrigger w.kv w.now = false) ∧
    (∀ t, w.kv.get "manual_trigger_requested" w.now = some (.trigger t) →
      pendingTrigger w.kv w.now = true) ∧
    (Event.callHandlePostComplete ∈ (scheduled event wf w).trace ↔
      (pendingTrigger w.kv w.now = true ∨ onBoundary event w.now = true)) ∧
    (pendingTrigger w.kv w.now = true →
      (∃ rest, (scheduled event wf w).trace =
        .kvDelete "manual_trigger_requested"
          :: .notify "🎯 Manual trigger detected - starting job..."
          :: .kvPut "job_running" (.lock w.now) (some 600)
          :: .callHandlePostComplete :: rest) ∧
      (Preserves "manual_trigger_requested" wf →
        (scheduled event wf w).world.kv "manual_trigger_requested" = none ∧
        ∀ (event2 : ScheduledEvent) (wf2 : M Unit) (now2 : Nat),
          onBoundary event2 now2 = false →
          scheduled event2 wf2 ⟨(scheduled event wf w).world.kv, now2⟩ =
            noAction ⟨(scheduled event wf w).world.kv, now2⟩)) ∧
    (pendingTrigger w.kv w.now = false →
      (onBoundary event w.now = true →
        ∃ rest, (scheduled event wf w).trace =
          .notify "⏰ Scheduled upload triggered - starting job..."
            :: .kvPut "job_running" (.lock w.now) (some 600)
            :: .callHandlePostComplete :: rest) ∧
      (onBoundary event w.now = false → scheduled event wf w = noAction w)) := by
  refine ⟨fun h => by simp [pendingTrigger, h],
    fun t h => by simp [pendingTrigger, h, Value.truthy], ?_⟩
  rw [scheduled_eq]
  by_cases hp : pendingTrigger w.kv w.now = true
  · simp only [if_pos hp, handlePost_eq]
    rcases h : wf (lockedWorld _) with ⟨o, w1, t1⟩
    have hkey : Preserves "manual_trigger_requested" wf → w1.kv "manual_trigger_requested" = none := by
      intro hpres
      have := hpres (lockedWorld { w with kv := w.kv.delete "manual_trigger_requested" })
      rw [h] at this
      simpa [lockedWorld, Store.put, Store.delete] using this
    have hnext : ∀ kv : Store, kv "manual_trigger_requested" = none →
        ∀ (event2 : ScheduledEvent) (wf2 : M Unit) (now2 : Nat),
          onBoundary event2 now2 = false →
          scheduled event2 wf2 ⟨kv, now2⟩ = noAction ⟨kv, now2⟩ := by
      intro kv hkv event2 wf2 now2 hb
      rw [scheduled_eq]
      have : pendingTrigger kv now2 = false := by
        simp [pendingTrigger, Store.get_eq_none_of_absent kv _ now2 hkv]
      simp [this, hb]
    cases o with
    | ok a =>
      refine ⟨by simp [hp], fun _ => ⟨⟨_, rfl⟩, fun hpres => ?_⟩, fun hf => ?_⟩
      · have hk : (Store.delete w1.kv "job_running") "manual_trigger_requested" = none := by
          simpa [Store.delete] using hkey hpres
        exact ⟨hk, hnext _ hk⟩
      · rw [hp] at hf; cases hf
    | threw e =>
      refine ⟨by simp [hp], fun _ => ⟨⟨_, rfl⟩, fun hpres => ?_⟩, fun hf => ?_⟩
      · have hk : (Store.delete w1.kv "job_running") "manual_trigger_requested" = none := by
          simpa [Store.delete] using hkey hpres
        exact ⟨hk, hnext _ hk⟩
      · rw [hp] at hf; cases hf
    | halted =>
      refine ⟨by simp [hp], fun _ => ⟨⟨_, rfl⟩, fun hpres => ?_⟩, fun hf => ?_⟩
      · exact ⟨hkey hpres, hnext _ (hkey hpres)⟩
      · rw [hp] at hf; cases hf
  · have hpf : pendingTrigger w.kv w.now = false := by simpa using hp
    by_cases hb : onBoundary event w.now = true
    · simp only [if_neg hp, if_pos hb, handlePost_eq]
      rcases h : wf (lockedWorld w) with ⟨o, w1, t1⟩
      cases o <;>
        exact ⟨by simp [hb], fun hf => (by rw [hpf] at hf; cases hf),
          fun _ => ⟨fun _ => ⟨_, rfl⟩, fun hf => (by rw [hb] at hf; cases hf)⟩⟩
    · simp only [if_neg hp, if_neg hb]
      refine ⟨by simp [noAction, hp, hb], fun hf => (by rw [hpf] at hf; cases hf),
        fun _ => ⟨fun hf => absurd hf hb, fun _ => trivial⟩⟩

theorem after_no_lock (i : Invocation) (kv : Store) (hc : i.completes)
    (h : kv "job_running" = none) : (i.after kv) "job_running" = none := by
  cases i with
  | tick event now workflow =>
    simp only [Invocation.after, scheduled_eq]
    by_cases hp : pendingTrigger kv now = true
    · simp only [hp, if_true]
      exact handlePost_clears workflow _ (hc _)
    · by_cases hb : onBoundary event now = true
      · simp only [hp, hb, if_true, if_false]
        exact handlePost_clears workflow _ (hc _)
      · simp only [hp, hb, if_false]
        exact h
  | trigger method now =>
    simp only [Invocation.after]
    have hget : (⟨kv, now⟩ : World).kv.get "job_running" (⟨kv, now⟩ : World).now = none :=
      Store.get_eq_none_of_absent kv _ now h
    by_cases hm : method = "GET" ∨ method = "POST"
    · by_cases hp : pendingTrigger kv now = true
      · rw [fetch_trigger_queued method hm ⟨kv, now⟩ hget hp]; exact h
      · rw [fetch_trigger_free method hm ⟨kv, now⟩ hget (by simpa using hp)]
        simpa [Store.put] using h
    · have : method ≠ "POST" ∧ method ≠ "GET" := by
        constructor <;> intro h' <;> exact hm (by simp [h'])
      simpa [fetch, this, pure, M.pure] using h

theorem runAll_no_lock (invs : List Invocation) :
    ∀ kv : Store, kv "job_running" = none → (∀ i ∈ invs, i.completes) →
      ∀ pre i post, invs = pre ++ i :: post → (runAll kv pre) "job_running" = none := by
  induction invs with
  | nil => intro kv _ _ pre i post h; simp at h
  | cons j rest ih =>
    intro kv hkv hc pre i post h
    cases pre with
    | nil => exact hkv
    | cons j2 pre =>
      simp only [List.cons_append, List.cons.injEq] at h
      obtain ⟨rfl, h⟩ := h
      exact ih (j.after kv) (after_no_lock j kv (hc j (by simp)) hkv)
        (fun i hi => hc i (by simp [hi])) pre i post h

theorem cachedToken_eq_some_iff (cached : Option Value) (now : Nat) (a : String) :
    cachedToken cached now = some a ↔
      ∃ e, cached = some (.token a (some e)) ∧ e > (now : Int) + 300000 := by
  unfold cachedToken
  split
  · rename_i access_token expiresAt
    by_cases h : expiresAt - (now : Int) > 5 * 60 * 1000
    · simp only [h, if_true, Option.some.injEq]
      constructor
      · rintro rfl; exact ⟨expiresAt, rfl, by omega⟩
      · rintro ⟨e, he, -⟩
        simp only [Option.some.injEq, Value.token.injEq] at he
        exact he.1
    · simp only [h, if_false]
      constructor
      · intro h'; cases h'
      · rintro ⟨e, he, hgt⟩
        simp only [Option.some.injEq, Value.token.injEq] at he
        obtain ⟨-, rfl⟩ := he
        omega
  · rename_i hno
    constructor
    · intro h'; cases h'
    · rintro ⟨e, he, -⟩
      exact absurd he (hno a e)

theorem getAccessToken_hit (refresh : Answer TokenJson) (w : World) (a : String)
    (h : cachedToken (w.kv.get "dropbox_access_token" w.now) w.now = some a) :
    getAccessToken refresh w = ⟨.ok a, w, []⟩ := by
  simp [getAccessToken, bind_eq, kvGet, dateNow, h, pure, M.pure]

theorem getAccessToken_miss (refresh : Answer TokenJson) (w : World)
    (h : cachedToken (w.kv.get "dropbox_access_token" w.now) w.now = none) :
    ∃ rest, (getAccessToken refresh w).trace = .tokenRefresh :: rest := by
  rcases refresh with m | ⟨status, txt⟩ | json
  · exact ⟨[], by simp [getAccessToken, bind_eq, kvGet, dateNow, h, emit, throwNew]⟩
  · exact ⟨[], by simp [getAccessToken, bind_eq, kvGet, dateNow, h, emit, throwNew]⟩
  · rcases he : json.expires_in with _ | expires_in
    · exact ⟨[], by simp [getAccessToken, bind_eq, kvGet, dateNow, h, emit, throwNew, he]⟩
    · by_cases hr : (w.now : Int) + (expires_in - 600) * 1000 < -maxTimeValue ∨
          maxTimeValue < (w.now : Int) + (expires_in - 600) * 1000
      · exact ⟨[], by
          simp [getAccessToken, bind_eq, kvGet, dateNow, h, emit, he, throwNew, hr]⟩
      · simp [getAccessToken, bind_eq, kvGet, dateNow, h, emit, he, kvPut, pure, M.pure, hr]

end Poster

namespace Relay

open Poster

theorem relay_cachedToken_eq_some_iff (sc : Script) (kv : Store) (now : Nat) (a : String) :
    cachedToken sc.parseInt (kv.get KV_DROPBOX_ACCESS_TOKEN_KEY now)
        (kv.get KV_DROPBOX_EXPIRES_AT_KEY now) now = some a ↔
      ∃ token expiresAtText expiresAt,
        kv.get KV_DROPBOX_ACCESS_TOKEN_KEY now = some token ∧ token.truthy = true ∧
        kv.get KV_DROPBOX_EXPIRES_AT_KEY now = some expiresAtText ∧
        expiresAtText.truthy = true ∧
        sc.parseInt expiresAtText.toText = some expiresAt ∧
        expiresAt * 1000 > (now : Int) + 300000 ∧ a = token.toText := by
  unfold cachedToken
  rcases h1 : kv.get KV_DROPBOX_ACCESS_TOKEN_KEY now with _ | token
  · simp
  · rcases h2 : kv.get KV_DROPBOX_EXPIRES_AT_KEY now with _ | txt
    · have : ¬ ((0 : Int) > ((now / 1000 : Nat) : Int) + 300) := by omega
      simp only [Option.map_none', Option.getD_none, Bool.false_eq_true, if_false, this,
        and_false]
      constructor
      · intro h'; cases h'
      · rintro ⟨token', txt', e', -, -, h2', -⟩
        cases h2'
    · by_cases ht : txt.truthy = true
      · rcases hp : sc.parseInt txt.toText with _ | e
        · simp [ht, hp]
        · by_cases hgt : e > ((now / 1000 : Nat) : Int) + 300
          · have hms : e * 1000 > (now : Int) + 300000 := by omega
            by_cases hk : token.truthy = true
            · simp only [Option.map_some', Option.getD_some, ht, if_true, hp, hk, hgt,
                and_self, Option.some.injEq]
              constructor
              · rintro rfl
                exact ⟨token, txt, e, rfl, hk, rfl, ht, hp, hms, rfl⟩
              · rintro ⟨token', txt', e', h1', -, -, -, -, -, rfl⟩
                rw [h1']
            · simp only [Option.map_some', Option.getD_some, ht, if_true, hp, hk,
                Bool.false_eq_true, false_and, if_false]
              constructor
              · intro h'; cases h'
              · rintro ⟨token', txt', e', h1', hk', -⟩
                simp only [Option.some.injEq] at h1'
                rw [← h1'] at hk'
                exact absurd hk' hk
          · simp only [Option.map_some', Option.getD_some, ht, if_true, hp, hgt, and_false,
              if_false]
            constructor
            · intro h'; cases h'
            · rintro ⟨token', txt', e', -, -, h2', -, hp', hms, -⟩
              simp only [Option.some.injEq] at h2'
              rw [← h2', hp] at hp'
              simp only [Option.some.injEq] at hp'
              omega
      · have : ¬ ((0 : Int) > ((now / 1000 : Nat) : Int) + 300) := by omega
        simp only [Option.map_some', Option.getD_some, ht, Bool.false_eq_true, if_false, this,
          and_false]
        constructor
        · intro h'; cases h'
        · rintro ⟨token', txt', e', -, -, h2', ht', -⟩
          simp only [Option.some.injEq] at h2'
          rw [← h2'] at ht'
          exact absurd ht' ht

theorem getDropboxAccessToken_hit (sc : Script) (w : World) (a : String)
    (hb : sc.kvBound = true)
    (h : cachedToken sc.parseInt (w.kv.get KV_DROPBOX_ACCESS_TOKEN_KEY w.now)
      (w.kv.get KV_DROPBOX_EXPIRES_AT_KEY w.now) w.now = some a) :
    getDropboxAccessToken sc w = ⟨.ok a, w, []⟩ := by
  simp [getDropboxAccessToken, hb, bind_eq, kvGet, dateNow, h, pure, M.pure]

theorem getDropboxAccessToken_miss (sc : Script) (w : World) (hb : sc.kvBound = true)
    (h : cachedToken sc.parseInt (w.kv.get KV_DROPBOX_ACCESS_TOKEN_KEY w.now)
      (w.kv.get KV_DROPBOX_EXPIRES_AT_KEY w.now) w.now = none) :
    ∃ rest, (getDropboxAccessToken sc w).trace = .tokenRefresh :: rest := by
  rcases hr : sc.tokenRefresh with m | ⟨status, txt⟩ | tokenData
  · exact ⟨[], by
      simp [getDropboxAccessToken, hb, bind_eq, kvGet, dateNow, h, emit, throwNew, hr]⟩
  · exact ⟨[], by
      simp [getDropboxAccessToken, hb, bind_eq, kvGet, dateNow, h, emit, throwNew, hr]⟩
  · simp [getDropboxAccessToken, hb, bind_eq, kvGet, dateNow, h, emit, hr, kvPut, pure,
      M.pure]

end Relay

namespace Poster

theorem completes_bind {α β : Type} {m : M α} {f : α → M β}
    (hm : Completes m) (hf : ∀ a, Completes (f a)) : Completes (m >>= f) := by
  intro w
  rw [bind_eq]
  have h0 := hm w
  rcases h : m w with ⟨o, w1, t1⟩
  rw [h] at h0
  cases o with
  | ok a => exact hf a w1
  | threw e => simp
  | halted => exact absurd rfl h0

theorem completes_pure {α : Type} (a : α) : Completes (pure a : M α) := by
  intro w; simp [Pure.pure, M.pure]

theorem completes_throwNew {α : Type} (message : String) :
    Completes (throwNew message : M α) := by
  intro w; simp [Poster.throwNew]

theorem completes_emit (e : Event) : Completes (emit e) := by
  intro w; simp [Poster.emit]

theorem completes_dateNow : Completes dateNow := by
  intro w; simp [Poster.dateNow]

theorem completes_kvGet (k : String) : Completes (kvGet k) := by
  intro w; simp [Poster.kvGet]

theorem completes_kvPut (k : String) (v : Value) (ttl : Option Nat) :
    Completes (kvPut k v ttl) := by
  intro w; simp [Poster.kvPut]

theorem completes_tryCatch {α : Type} {m : M α} {handler : String → M α}
    (hm : Completes m) (hh : ∀ e, Completes (handler e)) : Completes (tryCatch m handler) := by
  intro w
  have h0 := hm w
  unfold Poster.tryCatch
  rcases h : m w with ⟨o, w1, t1⟩
  rw [h] at h0
  cases o with
  | ok a => simp
  | threw e => exact hh e w1
  | halted => exact absurd rfl h0

theorem acks_bind {α : Type} {m : M α} {f : α → M Response}
    (hm : Completes m) (hf : ∀ a, Acks (f a)) : Acks (m >>= f) := by
  intro w
  rw [bind_eq]
  have h0 := hm w
  rcases h : m w with ⟨o, w1, t1⟩
  rw [h] at h0
  cases o with
  | ok a => exact hf a w1
  | threw e => simp
  | halted => exact absurd rfl h0

theorem acks_pure (body : String) : Acks (pure ⟨body, 200⟩ : M Response) := by
  intro w; simp [Pure.pure, M.pure]

theorem acks_throwNew (message : String) : Acks (throwNew message : M Response) := by
  intro w; simp [Poster.throwNew]

end Poster

namespace Relay

open Poster

theorem sendMessage_completes (sc : Script) (chatId text : String) :
    Completes (sendMessage sc chatId text) := by
  unfold sendMessage
  refine completes_bind (completes_emit _) fun _ => ?_
  split
  · exact completes_throwNew _
  · exact completes_pure _
  · exact completes_pure _

theorem sendMessageQuietly_returns (sc : Script) (chatId text : String) (w : World) :
    (sendMessageQuietly sc chatId text w).out = .ok () := by
  unfold sendMessageQuietly sendMessage Poster.tryCatch
  rcases h : sc.send text with m | ⟨status, txt⟩ | u <;>
    simp [bind_eq, emit, h, throwNew, pure, M.pure]

theorem getDropboxAccessToken_completes (sc : Script) :
    Completes (getDropboxAccessToken sc) := by
  unfold getDropboxAccessToken
  split
  · exact completes_throwNew _
  · refine completes_bind (completes_kvGet _) fun _ =>
      completes_bind (completes_kvGet _) fun _ => completes_bind completes_dateNow fun _ => ?_
    split
    · exact completes_pure _
    · refine completes_bind (completes_emit _) fun _ => ?_
      split
      · exact completes_throwNew _
      · exact completes_throwNew _
      · exact completes_bind completes_dateNow fun _ =>
          completes_bind (completes_kvPut _ _ _) fun _ =>
            completes_bind (completes_kvPut _ _ _) fun _ => completes_pure _

theorem statsLoop_completes (rest : List (Answer Page)) :
    ∀ (answer : Answer Page) (cursor : Option String) (videoCount totalSize : Nat),
      Completes (statsLoop answer rest cursor videoCount totalSize) := by
  induction rest with
  | nil =>
    intro answer cursor videoCount totalSize
    unfold statsLoop
    refine completes_bind (completes_emit _) fun _ => ?_
    split
    · exact completes_throwNew _
    · exact completes_throwNew _
    · exact completes_pure _
  | cons next rest ih =>
    intro answer cursor videoCount totalSize
    unfold statsLoop
    refine completes_bind (completes_emit _) fun _ => ?_
    split
    · exact completes_throwNew _
    · exact completes_throwNew _
    · dsimp only
      split
      · exact ih _ _ _ _
      · exact completes_pure _

theorem processAndUploadVideoToDropbox_acks (sc : Script) (videoObject : Video)
    (chatId : String) : Acks (processAndUploadVideoToDropbox sc videoObject chatId) := by
  unfold processAndUploadVideoToDropbox
  dsimp only
  refine acks_bind (sendMessage_completes _ _ _) fun _ =>
    acks_bind (completes_emit _) fun _ => ?_
  split
  · exact acks_throwNew _
  · exact acks_throwNew _
  · exact acks_throwNew _
  · refine acks_bind (completes_emit _) fun _ => ?_
    split
    · exact acks_throwNew _
    · exact acks_throwNew _
    · refine acks_bind (getDropboxAccessToken_completes _) fun _ =>
        acks_bind (completes_emit _) fun _ => ?_
      split
      · exact acks_throwNew _
      · exact acks_throwNew _
      · exact acks_bind (sendMessage_completes _ _ _) fun _ => acks_pure _

theorem handleUpdate_acks (sc : Script) (update : Update) : Acks (handleUpdate sc update) := by
  unfold handleUpdate
  split
  · exact acks_throwNew _
  · split
    · exact acks_pure _
    · split
      · exact acks_throwNew _
      · split
        · exact acks_bind (sendMessage_completes _ _ _) fun _ => acks_pure _
        · split
          · refine acks_bind (sendMessage_completes _ _ _) fun _ => acks_bind ?_ fun _ =>
              acks_pure _
            refine completes_tryCatch ?_ fun _ => sendMessage_completes _ _ _
            exact completes_bind (getDropboxAccessToken_completes _) fun _ =>
              completes_bind (statsLoop_completes _ _ _ _ _) fun _ =>
                sendMessage_completes _ _ _
          · split
            · exact processAndUploadVideoToDropbox_acks _ _ _
            · exact acks_pure _

end Relay

/-! ## Lemmas on the poll loop and on the selection -/

namespace Poster

theorem emits_bind {α β : Type} {p : Event → Bool} {m : M α} {f : α → M β}
    (hm : Emits p m) (hf : ∀ a, Emits p (f a)) : Emits p (m >>= f) := by
  intro w e he
  rw [bind_eq] at he
  have h0 := hm w
  rcases h : m w with ⟨o, w1, t1⟩
  rw [h] at he h0
  cases o with
  | ok a =>
    rcases List.mem_append.mp he with he | he
    · exact h0 e he
    · exact hf a w1 e he
  | threw m => exact h0 e he
  | halted => exact h0 e he

theorem emits_pure {α : Type} (p : Event → Bool) (a : α) : Emits p (pure a : M α) := by
  intro w e he; simp [Pure.pure, M.pure] at he

theorem emits_throwNew {α : Type} (p : Event → Bool) (message : String) :
    Emits p (throwNew message : M α) := by
  intro w e he; simp [throwNew] at he

theorem emits_emit (p : Event → Bool) (e : Event) (he : p e = true) : Emits p (emit e) := by
  intro w e' he'
  simp only [emit, List.mem_singleton] at he'
  rw [he']; exact he

theorem emits_dateNow (p : Event → Bool) : Emits p dateNow := by
  intro w e he; simp [dateNow] at he

theorem emits_kvGet (p : Event → Bool) (k : String) : Emits p (kvGet k) := by
  intro w e he; simp [kvGet] at he

theorem emits_kvPut (p : Event → Bool) (k : String) (v : Value) (ttl : Option Nat)
    (hp : p (.kvPut k v ttl) = true) : Emits p (kvPut k v ttl) := by
  intro w e he
  simp only [kvPut, List.mem_singleton] at he
  rw [he]; exact hp

theorem getAccessToken_prelude (refresh : Answer TokenJson) :
    Emits preludeEvent (getAccessToken refresh) := by
  unfold getAccessToken
  refine emits_bind (emits_kvGet _ _) fun cached => emits_bind (emits_dateNow _) fun now => ?_
  split
  · exact emits_pure _ _
  · refine emits_bind (emits_emit _ _ rfl) fun _ => ?_
    split
    · exact emits_throwNew _ _
    · exact emits_throwNew _ _
    · split
      · exact emits_throwNew _ _
      · refine emits_bind (emits_dateNow _) fun _ => ?_
        split
        · exact emits_throwNew _ _
        · exact emits_bind (emits_kvPut _ _ _ _ rfl) fun _ => emits_pure _ _

theorem getSharedLink_prelude (path : String) (listed : Answer (List String))
    (created : Answer String) : Emits preludeEvent (getSharedLink path listed created) := by
  unfold getSharedLink
  refine emits_bind (emits_emit _ _ rfl) fun _ => ?_
  split
  · exact emits_throwNew _ _
  · exact emits_throwNew _ _
  · exact emits_pure _ _
  · refine emits_bind (emits_emit _ _ rfl) fun _ => ?_
    split
    · exact emits_throwNew _ _
    · exact emits_throwNew _ _
    · exact emits_pure _ _

theorem listDropboxFiles_prelude (path : String) (folder : Answer (List Entry))
    (listed : Answer (List String)) (created : Answer String) :
    Emits preludeEvent (listDropboxFiles path folder listed created) := by
  unfold listDropboxFiles
  refine emits_bind (emits_emit _ _ rfl) fun _ => ?_
  split
  · exact emits_throwNew _ _
  · exact emits_throwNew _ _
  · dsimp only
    split
    · exact emits_pure _ _
    · refine emits_bind (emits_kvGet _ _) fun cached => ?_
      split
      · exact emits_pure _ _
      · exact emits_bind (getSharedLink_prelude _ _ _) fun url =>
          emits_bind (emits_kvPut _ _ _ _ rfl) fun _ => emits_pure _ _

theorem selectItem_prelude (sc : Script) : Emits preludeEvent (selectItem sc) := by
  unfold selectItem
  exact emits_bind (emits_emit _ _ rfl) fun _ =>
    emits_bind (getAccessToken_prelude _) fun _ => listDropboxFiles_prelude _ _ _ _

/-- The poll loop returns or is cut; it does not throw. -/
theorem pollLoop_out (sc : Script) (creationId : String) (start : Nat) :
    ∀ (fuel attempts : Nat) (w : World),
      (pollLoop sc creationId start fuel attempts w).out = .ok () ∨
      (pollLoop sc creationId start fuel attempts w).out = .halted := by
  intro fuel
  induction fuel with
  | zero => intro attempts w; exact Or.inr rfl
  | succ n ih =>
    intro attempts w
    rw [pollLoop_succ]
    by_cases h1 : w.now - start < maxPollingTime
    · by_cases h2 : pollStop (sc.polls (attempts + 1)).1 (attempts + 1) = true
      · simp [h1, h2]
      · simpa [h1, h2] using ih (attempts + 1) _
    · simp [h1]

theorem beforePublish_eq (sc : Script) :
    beforePublish sc =
      selectItem sc >>= fun files =>
        match files with
        | [] => notify "⚠️ No videos left to post." >>= fun _ => pure none
        | file :: _ =>
          uploadVideo sc file.url (captions.getD sc.random.val "") >>= fun creationId =>
            dateNow >>= fun pollingStartTime =>
              pollLoop sc creationId pollingStartTime pollFuel 0 >>= fun _ =>
                pure (some (file, creationId)) := by
  unfold beforePublish selectItem
  simp only [bind_assoc_M]

theorem uploadVideo_eq (sc : Script) (video_url caption : String) (w : World) :
    (∃ message, uploadVideo sc video_url caption w =
      ⟨.threw message, w, [.createContainer video_url caption]⟩) ∨
    (∃ creationId, uploadVideo sc video_url caption w =
      ⟨.ok creationId, w, [.createContainer video_url caption]⟩) := by
  unfold uploadVideo
  rcases h : sc.upload with m | uploadJson
  · exact Or.inl ⟨m, by simp [bind_eq, emit, throwNew]⟩
  · by_cases hid : truthyStr uploadJson.id = true
    · exact Or.inr ⟨uploadJson.id.getD "", by simp [bind_eq, emit, hid, pure, M.pure]⟩
    · exact Or.inl ⟨"Upload failed: " ++ uploadJson.raw, by simp [bind_eq, emit, hid, throwNew]⟩

theorem pollLoop_returns (sc : Script) (creationId : String) (w : World) :
    (pollLoop sc creationId w.now pollFuel 0 w).out = .ok () := by
  have h := (pollLoop_mildAt "job_running" sc creationId w.now 30 0 w (le_refl _)
    (by simp [maxPollingTime])).1
  rcases pollLoop_out sc creationId w.now pollFuel 0 w with h' | h'
  · exact h'
  · exact absurd h' h

/-- The runs of the part before the publish step, by what the selection gave. -/
theorem beforePublish_run (sc : Script) (w : World) :
    (beforePublish sc w).trace = (selectItem sc w).trace ∧
      (∀ file rest, (selectItem sc w).out ≠ .ok (file :: rest)) ∧
      (∀ r, (beforePublish sc w).out ≠ .ok (some r)) ∨
    ((beforePublish sc w).trace =
        (selectItem sc w).trace ++ [.notify "⚠️ No videos left to post."] ∧
      (selectItem sc w).out = .ok [] ∧ (beforePublish sc w).out = .ok none) ∨
    ∃ file rest, (selectItem sc w).out = .ok (file :: rest) ∧
      (((beforePublish sc w).trace = (selectItem sc w).trace ++
          [.createContainer file.url (captions.getD sc.random.val "")] ∧
        ∃ message, (beforePublish sc w).out = .threw message) ∨
       ∃ creationId w1,
        (beforePublish sc w).trace = (selectItem sc w).trace ++
          .createContainer file.url (captions.getD sc.random.val "") ::
            (pollLoop sc creationId w1.now pollFuel 0 w1).trace ∧
        beforePublish sc w =
          ⟨.ok (some (file, creationId)), (pollLoop sc creationId w1.now pollFuel 0 w1).world,
            (beforePublish sc w).trace⟩) := by
  rw [beforePublish_eq, bind_eq]
  rcases hs : selectItem sc w with ⟨o, w1, t1⟩
  cases o with
  | halted => exact Or.inl ⟨rfl, by simp, by simp⟩
  | threw m => exact Or.inl ⟨rfl, by simp, by simp⟩
  | ok files =>
    cases files with
    | nil =>
      refine Or.inr (Or.inl ⟨?_, rfl, ?_⟩) <;> simp [bind_eq, notify, emit, pure, M.pure]
    | cons file rest =>
      refine Or.inr (Or.inr ⟨file, rest, rfl, ?_⟩)
      simp only [bind_eq]
      rcases uploadVideo_eq sc file.url (captions.getD sc.random.val "") w1 with
        ⟨m, hu⟩ | ⟨creationId, hu⟩
      · rw [hu]
        exact Or.inl ⟨rfl, m, rfl⟩
      · rw [hu]
        refine Or.inr ⟨creationId, w1, ?_⟩
        have hp := pollLoop_returns sc creationId w1
        rcases hl : pollLoop sc creationId w1.now pollFuel 0 w1 with ⟨o2, w2, t2⟩
        rw [hl] at hp
        simp only at hp
        subst hp
        simp [dateNow, hl, pure, M.pure]

theorem afterPublish_trace (sc : Script) (file : FileItem) (postId : Option String)
    (w : World) :
    ∃ d post, (afterPublish sc file postId w).trace =
        .notify "🗑️ Cleaning up - deleting video from Dropbox..."
          :: .deleteFile file.path_lower d :: post ∧
      (post = [] ∨ ∃ message, post = [.notify message]) := by
  unfold afterPublish deleteDropboxFile
  rcases hd : sc.deleteFile with m | ⟨status, txt⟩ | u
  · exact ⟨false, [], by simp [bind_eq, notify, emit, throwNew], Or.inl rfl⟩
  · exact ⟨false, _, by simp [bind_eq, notify, emit]; rfl, Or.inr ⟨_, rfl⟩⟩
  · exact ⟨true, _, by simp [bind_eq, notify, emit]; rfl, Or.inr ⟨_, rfl⟩⟩

/-- The runs of the workflow: the selection; then nothing more, or the "no videos"
notice, or the container request for the selected item; then, when a creation id came
back, the poll loop, the publish requests and, after a confirmed publish, the cleanup of
the selected item. -/
theorem handlePostComplete_run (sc : Script) (w : World) :
    (handlePostComplete sc w).trace = (selectItem sc w).trace ∨
    (handlePostComplete sc w).trace =
      (selectItem sc w).trace ++ [.notify "⚠️ No videos left to post."] ∨
    ∃ file rest, (selectItem sc w).out = .ok (file :: rest) ∧
      ((handlePostComplete sc w).trace = (selectItem sc w).trace ++
          [.createContainer file.url (captions.getD sc.random.val "")] ∨
       ∃ creationId w1 tail,
        (handlePostComplete sc w).trace = (selectItem sc w).trace ++
          .createContainer file.url (captions.getD sc.random.val "") ::
            (pollLoop sc creationId w1.now pollFuel 0 w1).trace ++
              publishTrace sc creationId ++ tail ∧
        (tail = [] ∨ ∃ d post, tail =
          .notify "🗑️ Cleaning up - deleting video from Dropbox..."
            :: .deleteFile file.path_lower d :: post ∧
          (post = [] ∨ ∃ message, post = [.notify message]))) := by
  rw [handlePostComplete_eq, bind_eq]
  rcases beforePublish_run sc w with ⟨ht, -, hout⟩ | ⟨ht, -, hout⟩ |
    ⟨file, rest, hsel, ⟨ht, m, hout⟩ | ⟨creationId, w1, ht, hb⟩⟩
  · left
    rcases hb : beforePublish sc w with ⟨o, w2, t2⟩
    rw [hb] at ht hout
    simp only at ht hout
    cases o with
    | halted => exact ht
    | threw m => exact ht
    | ok r =>
      cases r with
      | none => simpa [pure, M.pure] using ht
      | some r => exact absurd rfl (hout r)
  · right; left
    rcases hb : beforePublish sc w with ⟨o, w2, t2⟩
    rw [hb] at ht hout
    simp only at ht hout
    subst hout
    simpa [pure, M.pure] using ht
  · right; right
    refine ⟨file, rest, hsel, Or.inl ?_⟩
    rcases hb : beforePublish sc w with ⟨o, w2, t2⟩
    rw [hb] at ht hout
    simp only at ht hout
    subst hout
    exact ht
  · right; right
    refine ⟨file, rest, hsel, Or.inr ⟨creationId, w1, ?_⟩⟩
    rw [hb]
    simp only [bind_eq]
    obtain ⟨-, p2, -, -⟩ := publishMedia_spec sc creationId
      (pollLoop sc creationId w1.now pollFuel 0 w1).world
    rcases hpm : publishMedia sc creationId
      (pollLoop sc creationId w1.now pollFuel 0 w1).world with ⟨o2, w2, t2⟩
    rw [hpm] at p2
    simp only at p2
    subst p2
    cases o2 with
    | halted => exact ⟨[], by simp [ht], Or.inl rfl⟩
    | threw m => exact ⟨[], by simp [ht], Or.inl rfl⟩
    | ok postId =>
      obtain ⟨d, post, ha, hpost⟩ := afterPublish_trace sc file postId w2
      exact ⟨_, by simp [ht, ha], Or.inr ⟨d, post, rfl, hpost⟩⟩

/-- A decomposition around an element with a property that no element of the prefix
`A` has starts with `A`. -/
theorem split_after_quiet {α : Type} (p : α → Prop) :
    ∀ (A rest pre post : List α) (x : α), A ++ rest = pre ++ x :: post →
      (∀ e ∈ A, ¬ p e) → p x → ∃ pre1, pre = A ++ pre1 ∧ rest = pre1 ++ x :: post := by
  intro A
  induction A with
  | nil => intro rest pre post x h _ _; exact ⟨pre, rfl, h⟩
  | cons a A ih =>
    intro rest pre post x h hA hx
    cases pre with
    | nil =>
      simp only [List.cons_append, List.nil_append, List.cons.injEq] at h
      exact absurd (h.1 ▸ hx) (hA a (by simp))
    | cons b pre =>
      simp only [List.cons_append, List.cons.injEq] at h
      obtain ⟨pre1, h1, h2⟩ := ih rest pre post x h.2 (fun e he => hA e (by simp [he])) hx
      exact ⟨pre1, by rw [h.1, h1]; rfl, h2⟩

/-- The trace of the poll loop is empty or starts with the status check of the next
attempt. -/
theorem pollLoop_trace_head (sc : Script) (creationId : String) (start fuel attempts : Nat)
    (w : World) :
    (pollLoop sc creationId start fuel attempts w).trace = [] ∨
    ∃ rest, (pollLoop sc creationId start fuel attempts w).trace =
      .pollStatus creationId (sc.polls (attempts + 1)).1 :: rest := by
  cases fuel with
  | zero => exact Or.inl rfl
  | succ n =>
    rw [pollLoop_succ]
    by_cases h1 : w.now - start < maxPollingTime
    · by_cases h2 : pollStop (sc.polls (attempts + 1)).1 (attempts + 1) = true
      · exact Or.inr ⟨[], by simp [h1, h2]⟩
      · exact Or.inr ⟨_, by simp [h1, h2]; rfl⟩
    · exact Or.inl (by simp [h1])

/-- A failed status check in the poll loop, followed by the events `S` of the rest of
the run: it is the check of the attempt with its number; before the tenth attempt the
loop goes on to the wait, from the tenth attempt on nothing of the loop follows. -/
theorem pollLoop_failed_round (sc : Script) (creationId : String) (start : Nat)
    (S : List Event) (hS : ∀ e ∈ S, isPoll e = false) :
    ∀ (fuel attempts : Nat) (w : World) (pre : List Event) (c message : String)
      (post : List Event),
      (pollLoop sc creationId start fuel attempts w).trace ++ S =
        pre ++ .pollStatus c (.threw message) :: post →
      c = creationId ∧
      (sc.polls (attempts + (pre.filter isPoll).length + 1)).1 = .threw message ∧
      (attempts + (pre.filter isPoll).length + 1 < 10 →
        ∃ post', post = .sleep 6000 :: post' ∧
          (post' = S ∨ ∃ post'', post' = .pollStatus creationId
            (sc.polls (attempts + (pre.filter isPoll).length + 2)).1 :: post'')) ∧
      (10 ≤ attempts + (pre.filter isPoll).length + 1 → post = S) := by
  have hnoS : ∀ (pre : List Event) (c message : String) (post : List Event),
      S ≠ pre ++ .pollStatus c (.threw message) :: post := by
    intro pre c message post h
    have := hS (.pollStatus c (.threw message)) (by rw [h]; simp)
    simp [isPoll] at this
  intro fuel
  induction fuel with
  | zero =>
    intro attempts w pre c message post h
    exact absurd (by simpa [pollLoop] using h) (hnoS pre c message post)
  | succ n ih =>
    intro attempts w pre c message post h
    rw [pollLoop_succ] at h
    by_cases h1 : w.now - start < maxPollingTime
    · by_cases h2 : pollStop (sc.polls (attempts + 1)).1 (attempts + 1) = true
      · simp only [h1, h2, if_true] at h
        cases pre with
        | nil =>
          simp only [List.nil_append, List.singleton_append, List.cons.injEq,
            Event.pollStatus.injEq] at h
          obtain ⟨⟨rfl, hans⟩, hpost⟩ := h
          rw [hans] at h2
          have h10 : 10 ≤ attempts + 1 := by simpa [pollStop] using h2
          refine ⟨rfl, by simpa using hans, fun hlt => ?_, fun _ => hpost.symm⟩
          simp only [List.filter_nil, List.length_nil, Nat.add_zero] at hlt
          omega
        | cons e pre =>
          simp only [List.singleton_append, List.cons_append, List.cons.injEq] at h
          exact absurd h.2 (hnoS pre c message post)
      · simp only [h1, h2, if_true, if_false, Bool.false_eq_true] at h
        cases pre with
        | nil =>
          simp only [List.nil_append, List.cons_append, List.cons.injEq,
            Event.pollStatus.injEq] at h
          obtain ⟨⟨rfl, hans⟩, hpost⟩ := h
          rw [hans] at h2
          have h10 : attempts + 1 < 10 := by
            have : attempts < 9 := by simpa [pollStop] using h2
            omega
          refine ⟨rfl, by simpa using hans, fun _ => ⟨_, hpost.symm, ?_⟩, fun hge => ?_⟩
          · rcases pollLoop_trace_head sc creationId start n (attempts + 1)
              ⟨w.kv, w.now + (sc.polls (attempts + 1)).2 + 6000⟩ with h0 | ⟨rest, h0⟩
            · left; rw [h0]; rfl
            · right; rw [h0]; exact ⟨rest ++ S, rfl⟩
          · simp only [List.filter_nil, List.length_nil, Nat.add_zero] at hge
            omega
        | cons e pre =>
          simp only [List.cons_append, List.cons.injEq] at h
          obtain ⟨he, h⟩ := h
          cases pre with
          | nil =>
            simp only [List.nil_append, List.cons.injEq] at h
            exact absurd h.1 (by simp)
          | cons e2 pre =>
            simp only [List.cons_append, List.cons.injEq] at h
            obtain ⟨he2, h⟩ := h
            have := ih (attempts + 1) _ pre c message post h
            subst he he2
            have hcount : attempts + ((Event.pollStatus creationId
                (sc.polls (attempts + 1)).1 :: Event.sleep 6000 :: pre).filter isPoll).length
                = attempts + 1 + (pre.filter isPoll).length := by
              simp [List.filter, isPoll]; omega
            rw [hcount]
            exact this
    · simp only [h1, if_false] at h
      exact absurd (by simpa using h) (hnoS pre c message post)

theorem prelude_not_poll {l : List Event} (h : ∀ e ∈ l, preludeEvent e = true) :
    ∀ e ∈ l, isPoll e = false := by
  intro e he
  have := h e he
  cases e <;> simp_all [preludeEvent, isPoll]

theorem publishTrace_cons (sc : Script) (creationId : String) :
    ∃ rest, publishTrace sc creationId = .publish creationId sc.publish :: rest ∧
      ∀ e ∈ rest, isPoll e = false := by
  unfold publishTrace
  split
  · exact ⟨_, rfl, by simp [isPoll]⟩
  · exact ⟨[], rfl, by simp⟩

/-- The head of the stable sort by age is the earliest-listed among the oldest. -/
theorem insertionSort_head (l : List Entry) :
    match l.insertionSort (fun a b => a.server_modified ≤ b.server_modified) with
    | [] => l = []
    | e :: _ => ∃ pre post, l = pre ++ e :: post ∧
        (∀ f ∈ pre, e.server_modified < f.server_modified) ∧
        (∀ f ∈ post, e.server_modified ≤ f.server_modified) := by
  induction l with
  | nil => simp [List.insertionSort]
  | cons a l ih =>
    simp only [List.insertionSort]
    rcases hs : l.insertionSort (fun a b => a.server_modified ≤ b.server_modified) with _ | ⟨b, s⟩
    · rw [hs] at ih
      have hl : l = [] := ih
      subst hl
      simp only [List.orderedInsert]
      exact ⟨[], [], rfl, by simp, by simp⟩
    · rw [hs] at ih ⊢
      obtain ⟨pre, post, hl, hpre, hpost⟩ := ih
      simp only [List.orderedInsert]
      by_cases hab : a.server_modified ≤ b.server_modified
      · simp only [hab, if_true]
        refine ⟨[], l, rfl, by simp, ?_⟩
        intro f hf
        rw [hl] at hf
        simp only [List.mem_append, List.mem_cons] at hf
        rcases hf with hf | rfl | hf
        · exact le_of_lt (lt_of_le_of_lt hab (hpre f hf))
        · exact hab
        · exact le_trans hab (hpost f hf)
      · simp only [hab, if_false]
        refine ⟨a :: pre, post, by rw [hl]; rfl, ?_, hpost⟩
        intro f hf
        simp only [List.mem_cons] at hf
        rcases hf with rfl | hf
        · exact lt_of_not_le hab
        · exact hpre f hf

/-- The head of the sorted `file` entries is the oldest file of the listing. -/
theorem sorted_head_isOldest (entries : List Entry) (e : Entry) (rest : List Entry)
    (h : (entries.filter (fun e => e.tag = "file")).insertionSort
      (fun a b => a.server_modified ≤ b.server_modified) = e :: rest) :
    IsOldestFile entries e := by
  have hh := insertionSort_head (entries.filter (fun e => e.tag = "file"))
  rw [h] at hh
  simp only at hh
  obtain ⟨pre, post, hf, hpre, hpost⟩ := hh
  obtain ⟨l1, l2, hl, h1, h2⟩ := List.filter_eq_append_iff.mp hf
  obtain ⟨m1, m2, hl2, hm1, he, hm2⟩ := List.filter_eq_cons_iff.mp h2
  refine ⟨by simpa using he, l1 ++ m1, m2, by rw [hl, hl2]; simp, ?_, ?_⟩
  · intro f hf htag
    rcases List.mem_append.mp hf with hf | hf
    · exact hpre f (by rw [← h1]; exact List.mem_filter.mpr ⟨hf, by simpa using htag⟩)
    · exact absurd (by simpa using htag) (hm1 f hf)
  · intro f hf htag
    exact hpost f (by rw [← hm2]; exact List.mem_filter.mpr ⟨hf, by simpa using htag⟩)

/-- A listing has at most one oldest file. -/
theorem isOldestFile_unique (entries : List Entry) (e e' : Entry)
    (h : IsOldestFile entries e) (h' : IsOldestFile entries e') : e = e' := by
  obtain ⟨ht, pre, post, hl, hpre, hpost⟩ := h
  obtain ⟨ht', pre', post', hl', hpre', hpost'⟩ := h'
  rw [hl] at hl'
  rcases List.append_eq_append_iff.mp hl' with ⟨a, ha, hb⟩ | ⟨a, ha, hb⟩
  · cases a with
    | nil =>
      simp only [List.nil_append, List.cons.injEq] at hb
      exact hb.1
    | cons x a =>
      simp only [List.cons_append, List.cons.injEq] at hb
      obtain ⟨rfl, hb⟩ := hb
      have h1 := hpre' e (by rw [ha]; simp) ht
      have h2 := hpost e' (by rw [hb]; simp) ht'
      omega
  · cases a with
    | nil =>
      simp only [List.nil_append, List.cons.injEq] at hb
      exact hb.1.symm
    | cons x a =>
      simp only [List.cons_append, List.cons.injEq] at hb
      obtain ⟨rfl, hb⟩ := hb
      have h1 := hpre e' (by rw [ha]; simp) ht'
      have h2 := hpost' e (by rw [hb]; simp) ht
      omega

/-- A listing with a `file` entry has an oldest file. -/
theorem isOldestFile_exists (entries : List Entry)
    (h : ∃ f ∈ entries, f.tag = "file") : ∃ e, IsOldestFile entries e := by
  rcases hs : (entries.filter (fun e => e.tag = "file")).insertionSort
    (fun a b => a.server_modified ≤ b.server_modified) with _ | ⟨e, rest⟩
  · have hh := insertionSort_head (entries.filter (fun e => e.tag = "file"))
    rw [hs] at hh
    simp only at hh
    obtain ⟨f, hf, htag⟩ := h
    have : f ∈ entries.filter (fun e => e.tag = "file") :=
      List.mem_filter.mpr ⟨hf, by simpa using htag⟩
    rw [hh] at this
    simp at this
  · exact ⟨e, sorted_head_isOldest entries e rest hs⟩

/-- What `listDropboxFiles` gives on a listing. -/
theorem listDropboxFiles_on_listing (path : String) (entries : List Entry)
    (listed : Answer (List String)) (created : Answer String) (w : World) :
    ((∀ e ∈ entries, e.tag ≠ "file") →
      listDropboxFiles path (.ok entries) listed created w =
        ⟨.ok [], w, [.listFolder path]⟩) ∧
    (∀ files, (listDropboxFiles path (.ok entries) listed created w).out = .ok files →
      (files = [] ∧ ∀ e ∈ entries, e.tag ≠ "file") ∨
      ∃ e url, IsOldestFile entries e ∧ files = [⟨e.path_lower, url⟩]) ∧
    (∀ e, IsOldestFile entries e → linkResolves w.kv w.now e.path_lower listed created →
      ∃ url, (listDropboxFiles path (.ok entries) listed created w).out =
        .ok [⟨e.path_lower, url⟩]) := by
  rcases hs : (entries.filter (fun e => e.tag = "file")).insertionSort
    (fun a b => a.server_modified ≤ b.server_modified) with _ | ⟨oldest, rest⟩
  · have hh := insertionSort_head (entries.filter (fun e => e.tag = "file"))
    rw [hs] at hh
    simp only at hh
    have hnone : ∀ e ∈ entries, e.tag ≠ "file" := by
      intro e he htag
      have : e ∈ entries.filter (fun e => e.tag = "file") :=
        List.mem_filter.mpr ⟨he, by simpa using htag⟩
      rw [hh] at this
      simp at this
    have heq : listDropboxFiles path (.ok entries) listed created w =
        ⟨.ok [], w, [.listFolder path]⟩ := by
      simp [listDropboxFiles, bind_eq, emit, hs, pure, M.pure]
    refine ⟨fun _ => heq, ?_, ?_⟩
    · intro files hf
      rw [heq] at hf
      simp only [Outcome.ok.injEq] at hf
      exact Or.inl ⟨hf.symm, hnone⟩
    · rintro e ⟨htag, pre, post, hl, -, -⟩ _
      exact absurd htag (hnone e (by rw [hl]; simp))
  · have hold := sorted_head_isOldest entries oldest rest hs
    refine ⟨?_, ?_, ?_⟩
    · intro hnone
      exact absurd hold.1 (hnone oldest (by
        obtain ⟨-, pre, post, hl, -, -⟩ := hold
        rw [hl]; simp))
    · intro files hf
      right
      by_cases hc : ((w.kv.get ("sharedlink:" ++ oldest.path_lower) w.now).map
          Value.truthy).getD false = true
      · simp [listDropboxFiles, bind_eq, emit, hs, kvGet, hc, pure, M.pure] at hf
        exact ⟨oldest, _, hold, hf.symm⟩
      · simp only [listDropboxFiles, bind_eq, emit, hs, kvGet, hc, Bool.false_eq_true,
          if_false] at hf
        rcases hg : getSharedLink oldest.path_lower listed created w with ⟨o, w1, t1⟩
        rw [hg] at hf
        cases o with
        | ok url =>
          simp [kvPut, pure, M.pure] at hf
          exact ⟨oldest, _, hold, hf.symm⟩
        | threw m => simp at hf
        | halted => simp at hf
    · intro e he hres
      have hee : e = oldest := isOldestFile_unique entries e oldest he hold
      subst hee
      by_cases hc : ((w.kv.get ("sharedlink:" ++ e.path_lower) w.now).map
          Value.truthy).getD false = true
      · exact ⟨_, by simp [listDropboxFiles, bind_eq, emit, hs, kvGet, hc, pure, M.pure]; rfl⟩
      · rcases hres with hres | ⟨url, urls, rfl⟩ | ⟨rfl, url, rfl⟩
        · exact absurd hres hc
        · exact ⟨_, by
            simp [listDropboxFiles, bind_eq, emit, hs, kvGet, hc, getSharedLink, kvPut, pure,
              M.pure]; rfl⟩
        · exact ⟨_, by
            simp [listDropboxFiles, bind_eq, emit, hs, kvGet, hc, getSharedLink, kvPut, pure,
              M.pure]; rfl⟩

theorem selectItem_returns (sc : Script) (w : World) (files : List FileItem)
    (h : (selectItem sc w).out = .ok files) :
    ∃ w', (listDropboxFiles "" sc.listFolder sc.listSharedLinks sc.createSharedLink w').out
      = .ok files := by
  unfold selectItem at h
  simp only [bind_eq] at h
  rcases h1 : notify "🔄 Starting job" w with ⟨o1, w1, t1⟩
  rw [h1] at h
  cases o1 with
  | ok a =>
    simp only at h
    rcases h2 : getAccessToken sc.tokenRefresh w1 with ⟨o2, w2, t2⟩
    rw [h2] at h
    cases o2 with
    | ok token => exact ⟨w2, by simpa using h⟩
    | threw m => simp at h
    | halted => simp at h
  | threw m => simp at h
  | halted => simp at h

theorem pollLoop_loopEvents (sc : Script) (creationId : String) (start : Nat) :
    ∀ (fuel attempts : Nat) (w : World),
      ∀ e ∈ (pollLoop sc creationId start fuel attempts w).trace, loopEvent e = true := by
  intro fuel
  induction fuel with
  | zero => intro attempts w e he; simp [pollLoop] at he
  | succ n ih =>
    intro attempts w e he
    rw [pollLoop_succ] at he
    by_cases h1 : w.now - start < maxPollingTime
    · by_cases h2 : pollStop (sc.polls (attempts + 1)).1 (attempts + 1) = true
      · simp only [h1, h2, if_true, List.mem_singleton] at he
        rw [he]; rfl
      · simp only [h1, h2, if_true, if_false, Bool.false_eq_true, List.mem_cons] at he
        rcases he with rfl | rfl | he
        · rfl
        · rfl
        · exact ih _ _ e he
    · simp [h1] at he

theorem filter_nil_of_all_false {p : Event → Bool} {l : List Event}
    (h : ∀ e ∈ l, p e = false) : l.filter p = [] :=
  List.filter_eq_nil_iff.mpr fun e he => by simp [h e he]

theorem prelude_not_container {l : List Event} (h : ∀ e ∈ l, preludeEvent e = true) :
    ∀ e ∈ l, isContainer e = false := by
  intro e he
  have := h e he
  cases e <;> simp_all [preludeEvent, isContainer]

theorem prelude_not_isDelete {l : List Event} (h : ∀ e ∈ l, preludeEvent e = true) :
    ∀ e ∈ l, isDelete e = false := by
  intro e he
  have := h e he
  cases e <;> simp_all [preludeEvent, isDelete]

theorem loop_not_container {l : List Event} (h : ∀ e ∈ l, loopEvent e = true) :
    ∀ e ∈ l, isContainer e = false := by
  intro e he
  have := h e he
  cases e <;> simp_all [loopEvent, isContainer]

theorem loop_not_isDelete {l : List Event} (h : ∀ e ∈ l, loopEvent e = true) :
    ∀ e ∈ l, isDelete e = false := by
  intro e he
  have := h e he
  cases e <;> simp_all [loopEvent, isDelete]

theorem publishTrace_not_container (sc : Script) (creationId : String) :
    ∀ e ∈ publishTrace sc creationId, isContainer e = false ∧ isDelete e = false := by
  intro e he
  unfold publishTrace at he
  split at he
  · simp only [List.mem_cons, List.mem_singleton, List.not_mem_nil, or_false] at he
    rcases he with rfl | rfl | rfl <;> exact ⟨rfl, rfl⟩
  · simp only [List.mem_singleton] at he
    rw [he]; exact ⟨rfl, rfl⟩

/-- The container and delete requests of a run, by the shape of its trace. -/
theorem run_requests (P L Pub post : List Event) (url caption path : String) (d : Bool)
    (hP : ∀ e ∈ P, preludeEvent e = true) (hL : ∀ e ∈ L, loopEvent e = true)
    (hPub : ∀ e ∈ Pub, isContainer e = false ∧ isDelete e = false)
    (hpost : post = [] ∨ ∃ message, post = [.notify message]) :
    (P ++ .createContainer url caption :: L ++ Pub ++
        .notify "🗑️ Cleaning up - deleting video from Dropbox..."
          :: .deleteFile path d :: post).filter isContainer = [.createContainer url caption] ∧
    (P ++ .createContainer url caption :: L ++ Pub ++
        .notify "🗑️ Cleaning up - deleting video from Dropbox..."
          :: .deleteFile path d :: post).filter isDelete = [.deleteFile path d] ∧
    (P ++ .createContainer url caption :: L ++ Pub).filter isContainer
      = [.createContainer url caption] ∧
    (P ++ .createContainer url caption :: L ++ Pub).filter isDelete = [] := by
  have h1 := filter_nil_of_all_false (prelude_not_container hP)
  have h2 := filter_nil_of_all_false (prelude_not_isDelete hP)
  have h3 := filter_nil_of_all_false (loop_not_container hL)
  have h4 := filter_nil_of_all_false (loop_not_isDelete hL)
  have h5 := filter_nil_of_all_false (fun e he => (hPub e he).1)
  have h6 := filter_nil_of_all_false (fun e he => (hPub e he).2)
  rcases hpost with rfl | ⟨message, rfl⟩ <;>
    simp [List.filter_append, List.filter_cons, h1, h2, h3, h4, h5, h6, isContainer, isDelete]

/-- When the shared link of the oldest `file` entry is neither cached, listed nor
created, `listDropboxFiles` throws. -/
theorem listDropboxFiles_link_failure (path : String) (entries : List Entry)
    (listed : Answer (List String)) (created : Answer String) (w : World) (e : Entry)
    (he : IsOldestFile entries e)
    (hno : ¬ linkResolves w.kv w.now e.path_lower listed created) :
    ∃ message, (listDropboxFiles path (.ok entries) listed created w).out =
      .threw message := by
  rcases hs : (entries.filter (fun e => e.tag = "file")).insertionSort
    (fun a b => a.server_modified ≤ b.server_modified) with _ | ⟨oldest, rest⟩
  · have hh := insertionSort_head (entries.filter (fun e => e.tag = "file"))
    rw [hs] at hh
    simp only at hh
    obtain ⟨htag, pre, post, hl, -, -⟩ := he
    have : e ∈ entries.filter (fun e => e.tag = "file") :=
      List.mem_filter.mpr ⟨by rw [hl]; simp, by simpa using htag⟩
    rw [hh] at this
    simp at this
  · have hold := sorted_head_isOldest entries oldest rest hs
    have hee : e = oldest := isOldestFile_unique entries e oldest he hold
    subst hee
    simp only [linkResolves, not_or, not_and, not_exists] at hno
    obtain ⟨hc, hlisted, hcreated⟩ := hno
    rcases listed with m | ⟨status, txt⟩ | urls
    · exact ⟨m, by
        simp [listDropboxFiles, bind_eq, emit, hs, kvGet, hc, getSharedLink, throwNew]⟩
    · exact ⟨"Failed to list shared links: " ++ toString status, by
        simp [listDropboxFiles, bind_eq, emit, hs, kvGet, hc, getSharedLink, throwNew]⟩
    · rcases urls with _ | ⟨url, urls⟩
      · rcases created with m | ⟨status, txt⟩ | url
        · exact ⟨m, by
            simp [listDropboxFiles, bind_eq, emit, hs, kvGet, hc, getSharedLink, throwNew]⟩
        · exact ⟨"Failed to create shared link: " ++ toString status, by
            simp [listDropboxFiles, bind_eq, emit, hs, kvGet, hc, getSharedLink, throwNew]⟩
        · exact absurd rfl (hcreated rfl url)
      · exact absurd rfl (hlisted url urls)

end Poster

/-! # The claims -/

namespace Poster

/-- Counterexample to C1: a request to `/trigger` at 23:58:30 is accepted; the tick of
23:59:00 consumes it, writes the lock and starts a workflow that is still running one
minute later; the tick of 00:00:00, on a boundary, finds that lock unexpired (TTL 600 s)
and acquires all the same. -/
theorem second_acquisition_under_lock :
    (runAll Store.empty
      [.trigger "POST" 86310000, .tick ⟨some "* * * * *"⟩ 86340000 stillRunning]).get
        "job_running" 86400000 = some (.lock 86340000) ∧
    lockHeld (runAll Store.empty
      [.trigger "POST" 86310000, .tick ⟨some "* * * * *"⟩ 86340000 stillRunning])
        86400000 = true ∧
    acquires (.tick ⟨some "* * * * *"⟩ 86400000 (handlePostComplete errorScript))
      (runAll Store.empty
        [.trigger "POST" 86310000, .tick ⟨some "* * * * *"⟩ 86340000 stillRunning])
      = true := by
  decide

/-- **C1, amended.** The scheduled handler does not read `job_running`: whatever the
store holds, also an unexpired lock, a tick with a pending Trigger Request or on a
boundary makes its announcement, overwrites `job_running` with a lock of its own time
and runs the workflow under that lock; the requests of the workflow follow in the
trace, then those that close the run, and the world left is the one the workflow left,
the lock deleted once the workflow returned or threw.  When the store starts without a
`job_running` record and every started workflow returns or throws before the next
invocation, no invocation finds a `job_running` record.  And while a lock of age at
most 300000 ms is visible, `GET|POST /trigger` answers 429 and writes nothing. -/
theorem lock_guards_trigger_only :
    (∀ (event : ScheduledEvent) (wf : M Unit) (w : World),
      (pendingTrigger w.kv w.now = true ∨ onBoundary event w.now = true) →
        acquires (.tick event w.now wf) w.kv = true ∧
        (lockedWorld (startWorld w)).kv.get "job_running" w.now = some (.lock w.now) ∧
        scheduled event wf w =
          ⟨tickOutcome (wf (lockedWorld (startWorld w))).out,
           released (wf (lockedWorld (startWorld w))),
           announcement w ++ .kvPut "job_running" (.lock w.now) (some 600) ::
             .callHandlePostComplete :: (wf (lockedWorld (startWorld w))).trace ++
               closing (wf (lockedWorld (startWorld w))).out⟩) ∧
    (∀ (kv : Store) (invs : List Invocation), kv "job_running" = none →
      (∀ i ∈ invs, i.completes) →
      ∀ pre i post, invs = pre ++ i :: post → lockHeld (runAll kv pre) i.now = false) ∧
    (∀ (method : String) (w : World) (t : Nat), (method = "GET" ∨ method = "POST") →
      w.kv.get "job_running" w.now = some (.lock t) → (w.now : Int) - (t : Int) ≤ 300000 →
      fetch ⟨method, "/trigger"⟩ w =
        ⟨.ok ⟨"⏳ Job is already running, please wait...", 429⟩, w, []⟩) := by
  refine ⟨?_, ?_, ?_⟩
  · intro event wf w h
    have := scheduled_acquires event wf w h
    exact ⟨by simp [acquires, Invocation.trace, Invocation.now, this.1, this.2],
      startWorld_locked w, scheduled_run event wf w h⟩
  · intro kv invs hkv hc pre i post h
    have := runAll_no_lock invs kv hkv hc pre i post h
    simp [lockHeld, Store.get_eq_none_of_absent _ _ _ this]
  · intro method w t hm hlock hage
    exact fetch_trigger_fresh method hm w t hlock hage

/-- Witness of C1, amended: the tick of 00:00:00 finds a lock written one minute
before, overwrites it and runs the workflow, whose first request follows the marker in
the trace; after a request and a tick whose workflow ran to its end, the next tick
finds no lock; a request one minute after a lock was written is answered 429. -/
theorem lock_guards_trigger_only_witness :
    lockHeld (Store.put Store.empty "job_running" (.lock 86340000) (some 600) 86340000)
      86400000 = true ∧
    (scheduled ⟨some "* * * * *"⟩ (handlePostComplete errorScript)
      ⟨Store.put Store.empty "job_running" (.lock 86340000) (some 600) 86340000,
        86400000⟩).trace.take 4 =
      [.notify "⏰ Scheduled upload triggered - starting job...",
       .kvPut "job_running" (.lock 86400000) (some 600),
       .callHandlePostComplete,
       .notify "🔄 Starting job"] ∧
    scheduled ⟨some "* * * * *"⟩ (handlePostComplete errorScript)
      ⟨Store.put Store.empty "job_running" (.lock 86340000) (some 600) 86340000,
        86400000⟩ =
      ⟨tickOutcome (handlePostComplete errorScript (lockedWorld (startWorld
          ⟨Store.put Store.empty "job_running" (.lock 86340000) (some 600) 86340000,
            86400000⟩))).out,
       released (handlePostComplete errorScript (lockedWorld (startWorld
          ⟨Store.put Store.empty "job_running" (.lock 86340000) (some 600) 86340000,
            86400000⟩))),
       announcement
          ⟨Store.put Store.empty "job_running" (.lock 86340000) (some 600) 86340000,
            86400000⟩ ++ .kvPut "job_running" (.lock 86400000) (some 600) ::
         .callHandlePostComplete :: (handlePostComplete errorScript (lockedWorld (startWorld
          ⟨Store.put Store.empty "job_running" (.lock 86340000) (some 600) 86340000,
            86400000⟩))).trace ++
           closing (handlePostComplete errorScript (lockedWorld (startWorld
            ⟨Store.put Store.empty "job_running" (.lock 86340000) (some 600) 86340000,
              86400000⟩))).out⟩ ∧
    lockHeld (runAll Store.empty
      [.trigger "POST" 86310000,
       .tick ⟨some "* * * * *"⟩ 86340000 (handlePostComplete errorScript)]) 86400000 = false ∧
    fetch ⟨"POST", "/trigger"⟩
      ⟨Store.put Store.empty "job_running" (.lock 86340000) (some 600) 86340000, 86400000⟩ =
        ⟨.ok ⟨"⏳ Job is already running, please wait...", 429⟩,
         ⟨Store.put Store.empty "job_running" (.lock 86340000) (some 600) 86340000, 86400000⟩,
         []⟩ :=
  ⟨by decide, by decide,
   (lock_guards_trigger_only.1 ⟨some "* * * * *"⟩ (handlePostComplete errorScript)
      ⟨Store.put Store.empty "job_running" (.lock 86340000) (some 600) 86340000, 86400000⟩
      (Or.inr (by decide))).2.2,
   lock_guards_trigger_only.2.1 Store.empty
      [.trigger "POST" 86310000,
       .tick ⟨some "* * * * *"⟩ 86340000 (handlePostComplete errorScript),
       .tick ⟨some "* * * * *"⟩ 86400000 (handlePostComplete errorScript)]
      rfl
      (by
        intro i hi
        simp only [List.mem_cons, List.mem_singleton, List.not_mem_nil, or_false] at hi
        rcases hi with rfl | rfl | rfl
        · trivial
        · exact handlePostComplete_completes errorScript
        · exact handlePostComplete_completes errorScript)
      [.trigger "POST" 86310000,
       .tick ⟨some "* * * * *"⟩ 86340000 (handlePostComplete errorScript)]
      (.tick ⟨some "* * * * *"⟩ 86400000 (handlePostComplete errorScript)) [] rfl,
   lock_guards_trigger_only.2.2 "POST"
      ⟨Store.put Store.empty "job_running" (.lock 86340000) (some 600) 86340000, 86400000⟩
      86340000 (Or.inr rfl) (by decide) (by decide)⟩

/-- **C2.** In every run of the workflow, a delete request is preceded by a publish
request whose answer carried an id (the first one or the retry); and in a run where no
publish answer carries an id, no delete request is issued and the queue is unchanged. -/
theorem delete_only_after_confirmed_publish (sc : Script) (w : World) :
    (∀ pre path d post,
      (handlePostComplete sc w).trace = pre ++ .deleteFile path d :: post →
        ∃ creationId publishJson, Event.publish creationId (.json publishJson) ∈ pre ∧
          truthyStr publishJson.id = true) ∧
    ((∀ creationId publishJson,
        Event.publish creationId (.json publishJson) ∈ (handlePostComplete sc w).trace →
          truthyStr publishJson.id = false) →
      (∀ path d, Event.deleteFile path d ∉ (handlePostComplete sc w).trace) ∧
      ∀ entries, queueAfter entries (handlePostComplete sc w).trace = entries) := by
  obtain ⟨-, -, pre0, hq, hshape⟩ := handlePostComplete_shape "job_running" (by decide)
    (ne_sharedlink _ (by decide)) sc w
  have hnodel : published sc = false →
      ∀ path d, Event.deleteFile path d ∉ (handlePostComplete sc w).trace := by
    intro hpub path d hm
    rcases hshape with h | ⟨creationId, ⟨-, h, -⟩ | ⟨h, -⟩⟩
    · rw [h] at hm; exact quiet_not_delete hq path d hm
    · rw [h] at hm
      rcases List.mem_append.mp hm with hm | hm
      · exact quiet_not_delete hq path d hm
      · exact publishTrace_not_delete sc creationId path d hm
    · rw [hpub] at h; cases h
  have hearly : (handlePostComplete sc w).trace = pre0 →
      ∀ path d, Event.deleteFile path d ∉ (handlePostComplete sc w).trace := by
    intro h path d hm
    rw [h] at hm; exact quiet_not_delete hq path d hm
  constructor
  · intro pre path d post hsplit
    rcases hshape with h | ⟨creationId, ⟨hpub, -⟩ | ⟨hpub, path0, d0, post0, h, hq0⟩⟩
    · exact absurd (by rw [hsplit]; simp) (hearly h path d)
    · exact absurd (by rw [hsplit]; simp) (hnodel hpub path d)
    · have hpre : pre = pre0 ++ publishTrace sc creationId ++
          [.notify "🗑️ Cleaning up - deleting video from Dropbox..."] := by
        refine split_unique (fun e => ∃ p b, e = Event.deleteFile p b) _ post0 pre post
          (.deleteFile path0 d0) (.deleteFile path d) ?_ ?_ ⟨_, _, rfl⟩ ?_ ⟨_, _, rfl⟩
        · rw [← hsplit, h]; simp
        · rintro e he ⟨p, b, rfl⟩
          simp only [List.mem_append, List.mem_singleton] at he
          rcases he with (he | he) | he
          · exact quiet_not_delete hq p b he
          · exact publishTrace_not_delete sc creationId p b he
          · cases he
        · rintro e he ⟨p, b, rfl⟩
          exact quiet_not_delete hq0 p b he
      obtain ⟨publishJson, hmem, hid⟩ := published_confirmed sc creationId hpub
      exact ⟨creationId, publishJson, by rw [hpre]; simp [hmem], hid⟩
  · intro hno
    have hnd : ∀ path d, Event.deleteFile path d ∉ (handlePostComplete sc w).trace := by
      rcases hshape with h | ⟨creationId, ⟨hpub, -⟩ | ⟨hpub, path0, d0, post0, h, -⟩⟩
      · exact hearly h
      · exact hnodel hpub
      · obtain ⟨publishJson, hmem, hid⟩ := published_confirmed sc creationId hpub
        have := hno creationId publishJson (by rw [h]; simp [hmem])
        rw [hid] at this; cases this
    exact ⟨hnd, fun entries => queueAfter_of_no_delete entries _ hnd⟩

/-- Witness of C2: the publish request fails for good; nothing is deleted. -/
theorem delete_only_after_confirmed_publish_witness :
    (∀ creationId publishJson,
        Event.publish creationId (.json publishJson) ∈
          (handlePostComplete failScript ⟨Store.empty, 0⟩).trace →
          truthyStr publishJson.id = false) ∧
    (∀ path d,
      Event.deleteFile path d ∉ (handlePostComplete failScript ⟨Store.empty, 0⟩).trace) ∧
    queueAfter [⟨"file", "/a.mp4", 1000⟩]
      (handlePostComplete failScript ⟨Store.empty, 0⟩).trace = [⟨"file", "/a.mp4", 1000⟩] :=
  have hno : ∀ creationId publishJson,
      Event.publish creationId (.json publishJson) ∈
        (handlePostComplete failScript ⟨Store.empty, 0⟩).trace →
        truthyStr publishJson.id = false := by
    have ht : (handlePostComplete failScript ⟨Store.empty, 0⟩).trace.filter isPublish =
        [.publish "c1" (.json ⟨none, some (some "Invalid parameter"), "failed"⟩)] := by decide
    intro creationId publishJson hm
    have : Event.publish creationId (.json publishJson) ∈
        (handlePostComplete failScript ⟨Store.empty, 0⟩).trace.filter isPublish :=
      List.mem_filter.mpr ⟨hm, rfl⟩
    rw [ht] at this
    simp only [List.mem_singleton, Event.publish.injEq, Fetched.json.injEq] at this
    rw [this.2]; rfl
  have h := (delete_only_after_confirmed_publish failScript ⟨Store.empty, 0⟩).2 hno
  ⟨hno, h.1, h.2 _⟩

/-- **C3.** Whatever the workflow does, when it returns or throws, `handlePost` returns
normally, the store holds no `job_running` record afterwards, and when the workflow
threw, the notification carrying the error message is sent just before the lock is
deleted. -/
theorem handlePost_always_releases (wf : M Unit) (w : World)
    (hwf : (wf (lockedWorld w)).out ≠ .halted) :
    (handlePost wf w).out = .ok () ∧
    (handlePost wf w).world.kv "job_running" = none ∧
    (∀ now, (handlePost wf w).world.kv.get "job_running" now = none) ∧
    (∀ message, (wf (lockedWorld w)).out = .threw message →
      ∃ pre, (handlePost wf w).trace =
        pre ++ [.notify ("❌ Job execution error: " ++ message), .kvDelete "job_running"]) := by
  rw [handlePost_eq]
  rcases h : wf (lockedWorld w) with ⟨o, w1, t1⟩
  rw [h] at hwf
  cases o with
  | ok a =>
    refine ⟨rfl, by simp [Store.delete], fun now => by simp [Store.get, Store.delete], ?_⟩
    intro message hm
    simp at hm
  | threw e =>
    refine ⟨rfl, by simp [Store.delete], fun now => by simp [Store.get, Store.delete], ?_⟩
    intro message hm
    simp only [Outcome.threw.injEq] at hm
    subst hm
    exact ⟨.kvPut "job_running" (.lock w.now) (some 600) :: .callHandlePostComplete :: t1,
      by simp⟩
  | halted => exact absurd rfl hwf

/-- Witness of C3: the workflow whose publish request fails for good throws
`Publish failed: failed`; `handlePost` returns normally, reports it and clears the lock. -/
theorem handlePost_always_releases_witness :
    (handlePostComplete failScript (lockedWorld ⟨Store.empty, 0⟩)).out
      = .threw "Publish failed: failed" ∧
    (handlePost (handlePostComplete failScript) ⟨Store.empty, 0⟩).out = .ok () ∧
    (handlePost (handlePostComplete failScript) ⟨Store.empty, 0⟩).world.kv "job_running"
      = none ∧
    ∃ pre, (handlePost (handlePostComplete failScript) ⟨Store.empty, 0⟩).trace =
      pre ++ [.notify ("❌ Job execution error: " ++ "Publish failed: failed"),
        .kvDelete "job_running"] :=
  have h := handlePost_always_releases (handlePostComplete failScript) ⟨Store.empty, 0⟩
    (handlePostComplete_completes failScript _)
  ⟨by decide, h.1, h.2.1, h.2.2.2 "Publish failed: failed" (by decide)⟩

/-- **C4.** With neither a lock nor a Trigger Request visible, `GET|POST /trigger`
answers 200 and writes one `manual_trigger_requested` record with a TTL of 120 s; a
second `GET|POST /trigger`, made in any world where that record is still stored and
visible (and `job_running` holds nothing or a lock), answers 429, puts nothing, and the
stored Trigger Request is still the first call's. -/
theorem trigger_twice (method method2 : String) (hm : method = "GET" ∨ method = "POST")
    (hm2 : method2 = "GET" ∨ method2 = "POST") (w w2 : World)
    (h1 : w.kv.get "job_running" w.now = none)
    (h2 : w.kv.get "manual_trigger_requested" w.now = none)
    (hkept : w2.kv "manual_trigger_requested" =
      (fetch ⟨method, "/trigger"⟩ w).world.kv "manual_trigger_requested")
    (hwin : w2.now < w.now + 120 * 1000)
    (hlock : w2.kv.get "job_running" w2.now = none ∨
      ∃ t, w2.kv.get "job_running" w2.now = some (.lock t)) :
    (fetch ⟨method, "/trigger"⟩ w).status = some 200 ∧
    (fetch ⟨method, "/trigger"⟩ w).trace =
      [.kvPut "manual_trigger_requested" (.trigger w.now) (some 120),
       .notify "📋 Manual upload job queued - will start within 1 minute"] ∧
    (fetch ⟨method, "/trigger"⟩ w).world.kv "manual_trigger_requested" =
      some ⟨.trigger w.now, some (w.now + 120 * 1000)⟩ ∧
    (fetch ⟨method2, "/trigger"⟩ w2).status = some 429 ∧
    (∀ key v ttl, Event.kvPut key v ttl ∉ (fetch ⟨method2, "/trigger"⟩ w2).trace) ∧
    (fetch ⟨method2, "/trigger"⟩ w2).world.kv "manual_trigger_requested" =
      some ⟨.trigger w.now, some (w.now + 120 * 1000)⟩ := by
  have hp : pendingTrigger w.kv w.now = false := by simp [pendingTrigger, h2]
  rw [fetch_trigger_free method hm w h1 hp] at hkept ⊢
  have hrec : w2.kv "manual_trigger_requested" =
      some ⟨.trigger w.now, some (w.now + 120 * 1000)⟩ := by
    rw [hkept]; simp [Store.put]
  have hp2 : pendingTrigger w2.kv w2.now = true := by
    simp [pendingTrigger, Store.get, hrec, hwin, Value.truthy]
  refine ⟨rfl, rfl, by simp [Store.put], ?_⟩
  rcases hlock with hnone | ⟨t, ht⟩
  · rw [fetch_trigger_queued method2 hm2 w2 hnone hp2]
    exact ⟨rfl, by simp, hrec⟩
  · by_cases hage : (w2.now : Int) - (t : Int) > 300000
    · rw [fetch_trigger_stale method2 hm2 w2 t ht hage, if_pos hp2]
      exact ⟨rfl, by simp, by simpa [Store.delete] using hrec⟩
    · rw [fetch_trigger_fresh method2 hm2 w2 t ht (not_lt.mp hage)]
      exact ⟨rfl, by simp, hrec⟩

/-- Witness of C4: `POST /trigger` on the empty store at time 0, and `GET /trigger`
on the resulting store 60 s later. -/
theorem trigger_twice_witness :
    (fetch ⟨"POST", "/trigger"⟩ ⟨Store.empty, 0⟩).status = some 200 ∧
    (fetch ⟨"GET", "/trigger"⟩
      ⟨(fetch ⟨"POST", "/trigger"⟩ ⟨Store.empty, 0⟩).world.kv, 60000⟩).status = some 429 ∧
    (fetch ⟨"GET", "/trigger"⟩
      ⟨(fetch ⟨"POST", "/trigger"⟩ ⟨Store.empty, 0⟩).world.kv, 60000⟩).world.kv
        "manual_trigger_requested" = some ⟨.trigger 0, some (0 + 120 * 1000)⟩ :=
  have h := trigger_twice "POST" "GET" (Or.inr rfl) (Or.inl rfl) ⟨Store.empty, 0⟩
    ⟨(fetch ⟨"POST", "/trigger"⟩ ⟨Store.empty, 0⟩).world.kv, 60000⟩
    rfl rfl rfl (by decide) (Or.inl (by
      rw [fetch_trigger_free "POST" (Or.inr rfl) ⟨Store.empty, 0⟩ rfl rfl]
      rfl))
  ⟨h.1, h.2.2.2.1, h.2.2.2.2.2⟩

/-- **C5.** When the visible `job_running` record carries a timestamp more than
300000 ms before the current time, `GET|POST /trigger` deletes the record and does not
answer "already running"; with no pending Trigger Request it writes the Trigger Request
and answers 200.  When the age of the lock is at most 300000 ms it answers 429 and
leaves the store as it is. -/
theorem trigger_reclaims_stale_lock (method : String) (hm : method = "GET" ∨ method = "POST")
    (w : World) (t : Nat) (hlock : w.kv.get "job_running" w.now = some (.lock t)) :
    ((w.now : Int) - (t : Int) > 300000 →
      (fetch ⟨method, "/trigger"⟩ w).world.kv "job_running" = none ∧
      Event.kvDelete "job_running" ∈ (fetch ⟨method, "/trigger"⟩ w).trace ∧
      (fetch ⟨method, "/trigger"⟩ w).out ≠
        .ok ⟨"⏳ Job is already running, please wait...", 429⟩ ∧
      (pendingTrigger w.kv w.now = false →
        (fetch ⟨method, "/trigger"⟩ w).status = some 200 ∧
        (fetch ⟨method, "/trigger"⟩ w).world.kv "manual_trigger_requested" =
          some ⟨.trigger w.now, some (w.now + 120 * 1000)⟩ ∧
        (fetch ⟨method, "/trigger"⟩ w).trace =
          [.kvDelete "job_running",
           .kvPut "manual_trigger_requested" (.trigger w.now) (some 120),
           .notify "📋 Manual upload job queued - will start within 1 minute"])) ∧
    ((w.now : Int) - (t : Int) ≤ 300000 →
      (fetch ⟨method, "/trigger"⟩ w).status = some 429 ∧
      (fetch ⟨method, "/trigger"⟩ w).world = w ∧
      (fetch ⟨method, "/trigger"⟩ w).trace = []) := by
  constructor
  · intro hage
    rw [fetch_trigger_stale method hm w t hlock hage]
    by_cases hp : pendingTrigger w.kv w.now = true
    · rw [if_pos hp]
      refine ⟨by simp [Store.delete], by simp, by simp, ?_⟩
      intro hf
      rw [hp] at hf
      cases hf
    · rw [if_neg hp]
      refine ⟨by simp [Store.put, Store.delete], by simp, by simp, ?_⟩
      intro _
      exact ⟨rfl, by simp [Store.put], rfl⟩
  · intro hage
    rw [fetch_trigger_fresh method hm w t hlock hage]
    exact ⟨rfl, rfl, rfl⟩

/-- Witness of C5: a lock written at time 0 with a TTL of 600 s, seen at 400000 ms. -/
theorem trigger_reclaims_stale_lock_witness :
    (Store.put Store.empty "job_running" (.lock 0) (some 600) 0).get "job_running" 400000
      = some (.lock 0) ∧
    (fetch ⟨"POST", "/trigger"⟩
      ⟨Store.put Store.empty "job_running" (.lock 0) (some 600) 0, 400000⟩).world.kv
        "job_running" = none ∧
    (fetch ⟨"POST", "/trigger"⟩
      ⟨Store.put Store.empty "job_running" (.lock 0) (some 600) 0, 400000⟩).status
        = some 200 :=
  have h := (trigger_reclaims_stale_lock "POST" (Or.inr rfl)
    ⟨Store.put Store.empty "job_running" (.lock 0) (some 600) 0, 400000⟩ 0 (by decide)).1
    (by decide)
  ⟨by decide, h.1, (h.2.2.2 (by decide)).1⟩

/-- **C6.** A Trigger Request is pending when the store shows a record as `/trigger`
writes it, and none is pending when it shows no record.  The scheduled handler runs
the workflow exactly when a Trigger Request is pending or the tick is on a boundary.
With a pending request, whatever the time, the tick deletes the record and announces
the run, then writes the lock and runs the workflow from the store so obtained: the
requests of the workflow follow in the trace, then those that close the run, and the
world left is the one the workflow left, the lock deleted once the workflow returned or
threw.  When the workflow leaves the record alone, the store then holds no Trigger
Request, and a following tick off the boundary does nothing.  With no pending request
and on a boundary the tick announces the run and runs the workflow in the same way
from the store it found.  With no pending request and off the boundary the tick
issues nothing, runs no workflow and leaves the world as it is. -/
theorem scheduled_runs_iff (event : ScheduledEvent) (wf : M Unit) (w : World) :
    (w.kv.get "manual_trigger_requested" w.now = none → pendingTrigger w.kv w.now = false) ∧
    (∀ t, w.kv.get "manual_trigger_requested" w.now = some (.trigger t) →
      pendingTrigger w.kv w.now = true) ∧
    (Event.callHandlePostComplete ∈ (scheduled event wf w).trace ↔
      (pendingTrigger w.kv w.now = true ∨ onBoundary event w.now = true)) ∧
    (pendingTrigger w.kv w.now = true →
      scheduled event wf w =
        ⟨tickOutcome (wf (lockedWorld (consumed w))).out,
         released (wf (lockedWorld (consumed w))),
         .kvDelete "manual_trigger_requested"
          :: .notify "🎯 Manual trigger detected - starting job..."
          :: .kvPut "job_running" (.lock w.now) (some 600)
          :: .callHandlePostComplete
          :: (wf (lockedWorld (consumed w))).trace
            ++ closing (wf (lockedWorld (consumed w))).out⟩ ∧
      (Preserves "manual_trigger_requested" wf →
        (scheduled event wf w).world.kv "manual_trigger_requested" = none ∧
        ∀ (event2 : ScheduledEvent) (wf2 : M Unit) (now2 : Nat),
          onBoundary event2 now2 = false →
          scheduled event2 wf2 ⟨(scheduled event wf w).world.kv, now2⟩ =
            noAction ⟨(scheduled event wf w).world.kv, now2⟩)) ∧
    (pendingTrigger w.kv w.now = false →
      (onBoundary event w.now = true →
        scheduled event wf w =
          ⟨tickOutcome (wf (lockedWorld w)).out,
           released (wf (lockedWorld w)),
           .notify "⏰ Scheduled upload triggered - starting job..."
            :: .kvPut "job_running" (.lock w.now) (some 600)
            :: .callHandlePostComplete
            :: (wf (lockedWorld w)).trace ++ closing (wf (lockedWorld w)).out⟩) ∧
      (onBoundary event w.now = false → scheduled event wf w = noAction w)) := by
  have h := scheduled_marker_cases event wf w
  refine ⟨h.1, h.2.1, h.2.2.1, fun hp => ⟨?_, (h.2.2.2.1 hp).2⟩,
    fun hp => ⟨fun hb => ?_, (h.2.2.2.2 hp).2⟩⟩
  · have hs : startWorld w = consumed w := by simp [startWorld, hp]
    have ha : announcement w =
        [.kvDelete "manual_trigger_requested",
         .notify "🎯 Manual trigger detected - starting job..."] := by
      simp [announcement, hp]
    have hr := scheduled_run event wf w (Or.inl hp)
    rw [hs, ha] at hr
    exact hr
  · have hs : startWorld w = w := by simp [startWorld, hp]
    have ha : announcement w =
        [.notify "⏰ Scheduled upload triggered - starting job..."] := by
      simp [announcement, hp]
    have hr := scheduled_run event wf w (Or.inr hb)
    rw [hs, ha] at hr
    exact hr

/-- Witness of C6: a Trigger Request written at 00:59:30 is consumed by the tick of
01:00:00, off the boundary, which runs the workflow from the store without the record
and under its lock; the tick of 01:01:00 does nothing. -/
theorem scheduled_runs_iff_witness :
    pendingTrigger
      (Store.put Store.empty "manual_trigger_requested" (.trigger 3570000) (some 120) 3570000)
      3600000 = true ∧
    onBoundary ⟨some "* * * * *"⟩ 3600000 = false ∧
    Event.callHandlePostComplete ∈
      (scheduled ⟨some "* * * * *"⟩ (handlePostComplete errorScript)
        ⟨Store.put Store.empty "manual_trigger_requested" (.trigger 3570000) (some 120)
          3570000, 3600000⟩).trace ∧
    (scheduled ⟨some "* * * * *"⟩ (handlePostComplete errorScript)
        ⟨Store.put Store.empty "manual_trigger_requested" (.trigger 3570000) (some 120)
          3570000, 3600000⟩).trace.take 5 =
      [.kvDelete "manual_trigger_requested",
       .notify "🎯 Manual trigger detected - starting job...",
       .kvPut "job_running" (.lock 3600000) (some 600),
       .callHandlePostComplete,
       .notify "🔄 Starting job"] ∧
    scheduled ⟨some "* * * * *"⟩ (handlePostComplete errorScript)
        ⟨Store.put Store.empty "manual_trigger_requested" (.trigger 3570000) (some 120)
          3570000, 3600000⟩ =
      ⟨tickOutcome (handlePostComplete errorScript (lockedWorld (consumed
          ⟨Store.put Store.empty "manual_trigger_requested" (.trigger 3570000) (some 120)
            3570000, 3600000⟩))).out,
       released (handlePostComplete errorScript (lockedWorld (consumed
          ⟨Store.put Store.empty "manual_trigger_requested" (.trigger 3570000) (some 120)
            3570000, 3600000⟩))),
       .kvDelete "manual_trigger_requested"
        :: .notify "🎯 Manual trigger detected - starting job..."
        :: .kvPut "job_running" (.lock 3600000) (some 600)
        :: .callHandlePostComplete
        :: (handlePostComplete errorScript (lockedWorld (consumed
          ⟨Store.put Store.empty "manual_trigger_requested" (.trigger 3570000) (some 120)
            3570000, 3600000⟩))).trace
          ++ closing (handlePostComplete errorScript (lockedWorld (consumed
            ⟨Store.put Store.empty "manual_trigger_requested" (.trigger 3570000) (some 120)
              3570000, 3600000⟩))).out⟩ ∧
    (scheduled ⟨some "* * * * *"⟩ (handlePostComplete errorScript)
        ⟨Store.put Store.empty "manual_trigger_requested" (.trigger 3570000) (some 120)
          3570000, 3600000⟩).world.kv "manual_trigger_requested" = none ∧
    scheduled ⟨some "* * * * *"⟩ (handlePostComplete errorScript)
      ⟨(scheduled ⟨some "* * * * *"⟩ (handlePostComplete errorScript)
        ⟨Store.put Store.empty "manual_trigger_requested" (.trigger 3570000) (some 120)
          3570000, 3600000⟩).world.kv, 3660000⟩ =
      noAction ⟨(scheduled ⟨some "* * * * *"⟩ (handlePostComplete errorScript)
        ⟨Store.put Store.empty "manual_trigger_requested" (.trigger 3570000) (some 120)
          3570000, 3600000⟩).world.kv, 3660000⟩ :=
  have h := scheduled_runs_iff ⟨some "* * * * *"⟩ (handlePostComplete errorScript)
    ⟨Store.put Store.empty "manual_trigger_requested" (.trigger 3570000) (some 120)
      3570000, 3600000⟩
  have hp : pendingTrigger
      (Store.put Store.empty "manual_trigger_requested" (.trigger 3570000) (some 120) 3570000)
      3600000 = true := by decide
  have h2 := (h.2.2.2.1 hp).2 (handlePostComplete_preserves_trigger errorScript)
  ⟨hp, by decide, h.2.2.1.mpr (Or.inl hp), by decide, (h.2.2.2.1 hp).1, h2.1,
    h2.2 ⟨some "* * * * *"⟩ (handlePostComplete errorScript) 3660000 (by decide)⟩

end Poster

namespace Relay

open Poster

/-- **C7.** Whatever the request and whatever the remote services answer, the relay's
`fetch` returns a response with status 200; it never throws. -/
theorem relay_always_acknowledges (sc : Script) (request : Request) (w : World) :
    ∃ body, (fetch sc request w).out = .ok ⟨body, 200⟩ := by
  have hinner : Acks (if request.method = "POST" then
      match request.body with
      | .threw message => do
        sendMessageQuietly sc sc.adminChat
          ("UPLOAD BOT (DROPBOX) CRITICAL: JSON parse error: " ++ message)
        pure ⟨"OK_JSON_PARSE_ERROR", 200⟩
      | .json update => handleUpdate sc update
    else pure ⟨"Hello! This is the Telegram Dropbox Uploader Bot.", 200⟩) := by
    split
    · split
      · exact acks_bind (fun w => by rw [sendMessageQuietly_returns]; simp) fun _ =>
          acks_pure _
      · exact handleUpdate_acks _ _
    · exact acks_pure _
  have h0 := hinner w
  unfold fetch Poster.tryCatch
  rcases h : (if request.method = "POST" then
      match request.body with
      | .threw message => do
        sendMessageQuietly sc sc.adminChat
          ("UPLOAD BOT (DROPBOX) CRITICAL: JSON parse error: " ++ message)
        pure ⟨"OK_JSON_PARSE_ERROR", 200⟩
      | .json update => handleUpdate sc update
    else pure ⟨"Hello! This is the Telegram Dropbox Uploader Bot.", 200⟩ : M Response) w
    with ⟨o, w1, t1⟩
  rw [h] at h0
  cases o with
  | ok r =>
    obtain ⟨body, status⟩ := r
    simp only at h0
    subst h0
    exact ⟨body, rfl⟩
  | threw e =>
    refine ⟨"OK_TOP_LEVEL_ERROR_CAUGHT", ?_⟩
    simp only [bind_eq]
    have hq := sendMessageQuietly_returns sc sc.adminChat
      ("UPLOAD BOT (DROPBOX) Top-level error: " ++ e) w1
    rcases hs : sendMessageQuietly sc sc.adminChat
      ("UPLOAD BOT (DROPBOX) Top-level error: " ++ e) w1 with ⟨o2, w2, t2⟩
    rw [hs] at hq
    simp only at hq
    subst hq
    simp [pure, M.pure]
  | halted => exact absurd h0 (by simp)

end Relay

namespace Poster

/-- **C8.** In a run that reaches the publish step, the publish requests are the first
one alone, or the first one, a wait of 30000 ms and one retry; the retry is made exactly
when the first answer has no id and its error message contains `not ready`; the run
gets to cleanup exactly when the first answer or the answer to the retry carries an id,
and otherwise it throws right after its last publish request. -/
theorem publish_retried_once (sc : Script) (w : World)
    (hreach : ∃ creationId,
      Event.publish creationId sc.publish ∈ (handlePostComplete sc w).trace) :
    ∃ pre post creationId,
      (∀ e ∈ pre, isPublish e = false) ∧ (∀ e ∈ post, isPublish e = false) ∧
      (notReady sc = true →
        (handlePostComplete sc w).trace =
          pre ++ [.publish creationId sc.publish, .sleep 30000,
            .publish creationId sc.retryPublish] ++ post) ∧
      (notReady sc = false →
        (handlePostComplete sc w).trace = pre ++ [.publish creationId sc.publish] ++ post) ∧
      ((handlePostComplete sc w).trace.filter isPublish).length
        = (if notReady sc = true then 2 else 1) ∧
      ((∃ path d, Event.deleteFile path d ∈ (handlePostComplete sc w).trace) ↔
        (firstId sc = true ∨ (notReady sc = true ∧ retryId sc = true))) ∧
      (¬ (firstId sc = true ∨ (notReady sc = true ∧ retryId sc = true)) →
        post = [] ∧ ∃ message, (handlePostComplete sc w).out = .threw message) := by
  obtain ⟨creationId0, hreach⟩ := hreach
  obtain ⟨-, -, pre0, hq, hshape⟩ := handlePostComplete_shape "job_running" (by decide)
    (ne_sharedlink _ (by decide)) sc w
  have hpubl : (firstId sc = true ∨ (notReady sc = true ∧ retryId sc = true)) ↔
      published sc = true := by
    simp [published]
  have hcount : ∀ (creationId : String) (post : List Event),
      (∀ e ∈ post, isPublish e = false) →
      ((pre0 ++ publishTrace sc creationId ++ post).filter isPublish).length
        = (if notReady sc = true then 2 else 1) := by
    intro creationId post hpost
    rw [List.filter_append, List.filter_append, quiet_filter_publish (quiet_isPublish hq),
      quiet_filter_publish hpost]
    unfold publishTrace
    split <;> simp [isPublish, List.filter]
  rcases hshape with h | ⟨creationId, ⟨hpub, h, message, hout⟩ | ⟨hpub, path, d, post0, h, hq0⟩⟩
  · rw [h] at hreach
    exact absurd hreach (quiet_not_publish hq _ _)
  · refine ⟨pre0, [], creationId, quiet_isPublish hq, by simp, ?_, ?_, ?_, ?_, ?_⟩
    · intro hn; rw [h, publishTrace, if_pos hn]; simp
    · intro hn; rw [h, publishTrace, if_neg (by simpa using hn)]; simp
    · have := hcount creationId [] (by simp)
      rwa [List.append_nil, ← h] at this
    · rw [hpubl, hpub]
      constructor
      · rintro ⟨p, b, hm⟩
        rw [h] at hm
        rcases List.mem_append.mp hm with hm | hm
        · exact absurd hm (quiet_not_delete hq p b)
        · exact absurd hm (publishTrace_not_delete sc creationId p b)
      · intro hf; cases hf
    · intro _
      exact ⟨rfl, message, hout⟩
  · have hpost : ∀ e ∈ (Event.notify "🗑️ Cleaning up - deleting video from Dropbox..."
        :: .deleteFile path d :: post0), isPublish e = false := by
      intro e he
      simp only [List.mem_cons] at he
      rcases he with rfl | rfl | he
      · rfl
      · rfl
      · exact quiet_isPublish hq0 e he
    refine ⟨pre0, _, creationId, quiet_isPublish hq, hpost, ?_, ?_, ?_, ?_, ?_⟩
    · intro hn; rw [h, publishTrace, if_pos hn]
    · intro hn; rw [h, publishTrace, if_neg (by simpa using hn)]
    · rw [h]; exact hcount creationId _ hpost
    · rw [hpubl]
      exact ⟨fun _ => hpub, fun _ => ⟨path, d, by rw [h]; simp⟩⟩
    · intro hn
      exact absurd (hpubl.mpr hpub) hn

/-- Witness of C8: the first publish answer says `not ready`, the retry succeeds. -/
theorem publish_retried_once_witness :
    notReady retryScript = true ∧
    ∃ pre post creationId,
      (∀ e ∈ pre, isPublish e = false) ∧ (∀ e ∈ post, isPublish e = false) ∧
      (handlePostComplete retryScript ⟨Store.empty, 0⟩).trace =
        pre ++ [.publish creationId retryScript.publish, .sleep 30000,
          .publish creationId retryScript.retryPublish] ++ post ∧
      ∃ path d,
        Event.deleteFile path d ∈ (handlePostComplete retryScript ⟨Store.empty, 0⟩).trace :=
  have ⟨pre, post, creationId, h1, h2, h3, _, _, h6, _⟩ :=
    publish_retried_once retryScript ⟨Store.empty, 0⟩ ⟨"c1", by decide⟩
  ⟨by decide, pre, post, creationId, h1, h2, h3 (by decide), h6.mpr (Or.inr (by decide))⟩

/-- Evaluation for C9: the first status check answers `status_code: 'ERROR'`; the run
goes on with a wait, a second status check, the publish request and the delete request,
and returns normally. -/
theorem error_status_is_swallowed :
    (handlePostComplete errorScript ⟨Store.empty, 0⟩).out = .ok () ∧
    (handlePostComplete errorScript ⟨Store.empty, 0⟩).trace =
      [.notify "🔄 Starting job", .tokenRefresh,
       .kvPut "dropbox_access_token" (.token "tok" (some 13800000)) none,
       .listFolder "", .listSharedLinks "/a.mp4",
       .kvPut "sharedlink:/a.mp4" (.text "https://www.dropbox.com/s/x/a.mp4?dl=0")
         (some 86400),
       .createContainer "https://www.dropbox.com/s/x/a.mp4?raw=1"
         "still here? follow (@sillytonic)",
       .pollStatus "c1" (.json ⟨some "ERROR", none, "error"⟩),
       .sleep 6000,
       .pollStatus "c1" (.json ⟨some "FINISHED", none, "finished"⟩),
       .publish "c1" (.json ⟨some "p1", none, "publish"⟩),
       .notify "🗑️ Cleaning up - deleting video from Dropbox...",
       .deleteFile "/a.mp4" true,
       .notify ("✅ Job completed successfully!\nCaption: still here? follow (@sillytonic)"
         ++ "\nInstagram Post ID: p1")] := by
  decide

end Poster

namespace Relay

open Poster

/-- **C10.** `getAccessToken` (poster) and `getDropboxAccessToken` (relay) return the
cached token without a refresh request exactly when a cached token is present and its
stored expiry lies more than 5 minutes (300000 ms) after the current time; in every
other case their first request is the refresh-token exchange. -/
theorem cached_token_margin :
    (∀ (refresh : Answer TokenJson) (w : World),
      (freshToken w.kv w.now ↔ Event.tokenRefresh ∉ (getAccessToken refresh w).trace) ∧
      (∀ access_token expiresAt,
        w.kv.get "dropbox_access_token" w.now = some (.token access_token (some expiresAt)) →
        expiresAt > (w.now : Int) + 300000 →
        getAccessToken refresh w = ⟨.ok access_token, w, []⟩) ∧
      (¬ freshToken w.kv w.now →
        ∃ rest, (getAccessToken refresh w).trace = .tokenRefresh :: rest)) ∧
    (∀ (sc : Script) (w : World), sc.kvBound = true →
      (freshRelayToken sc w.kv w.now ↔
        Event.tokenRefresh ∉ (getDropboxAccessToken sc w).trace) ∧
      (∀ token, freshRelayToken sc w.kv w.now →
        w.kv.get KV_DROPBOX_ACCESS_TOKEN_KEY w.now = some token →
        getDropboxAccessToken sc w = ⟨.ok token.toText, w, []⟩) ∧
      (¬ freshRelayToken sc w.kv w.now →
        ∃ rest, (getDropboxAccessToken sc w).trace = .tokenRefresh :: rest)) := by
  constructor
  · intro refresh w
    have hmiss : ¬ freshToken w.kv w.now →
        ∃ rest, (getAccessToken refresh w).trace = .tokenRefresh :: rest := by
      intro hf
      apply getAccessToken_miss
      rcases hc : Poster.cachedToken (w.kv.get "dropbox_access_token" w.now) w.now with _ | a
      · rfl
      · obtain ⟨e, he, hgt⟩ := (cachedToken_eq_some_iff _ _ _).mp hc
        exact absurd ⟨a, e, he, hgt⟩ hf
    have hhit : ∀ access_token expiresAt,
        w.kv.get "dropbox_access_token" w.now = some (.token access_token (some expiresAt)) →
        expiresAt > (w.now : Int) + 300000 →
        getAccessToken refresh w = ⟨.ok access_token, w, []⟩ := by
      intro a e he hgt
      exact getAccessToken_hit refresh w a ((cachedToken_eq_some_iff _ _ _).mpr ⟨e, he, hgt⟩)
    refine ⟨⟨?_, ?_⟩, hhit, hmiss⟩
    · rintro ⟨a, e, he, hgt⟩
      rw [hhit a e he hgt]; simp
    · intro hno
      by_contra hf
      obtain ⟨rest, hr⟩ := hmiss hf
      exact hno (by rw [hr]; simp)
  · intro sc w hb
    have hmiss : ¬ freshRelayToken sc w.kv w.now →
        ∃ rest, (getDropboxAccessToken sc w).trace = .tokenRefresh :: rest := by
      intro hf
      apply getDropboxAccessToken_miss sc w hb
      rcases hc : cachedToken sc.parseInt (w.kv.get KV_DROPBOX_ACCESS_TOKEN_KEY w.now)
        (w.kv.get KV_DROPBOX_EXPIRES_AT_KEY w.now) w.now with _ | a
      · rfl
      · obtain ⟨token, txt, e, h1, h2, h3, h4, h5, h6, -⟩ :=
          (relay_cachedToken_eq_some_iff sc w.kv w.now a).mp hc
        exact absurd ⟨token, txt, e, h1, h2, h3, h4, h5, h6⟩ hf
    have hhit : ∀ token, freshRelayToken sc w.kv w.now →
        w.kv.get KV_DROPBOX_ACCESS_TOKEN_KEY w.now = some token →
        getDropboxAccessToken sc w = ⟨.ok token.toText, w, []⟩ := by
      rintro token ⟨token', txt, e, h1, h2, h3, h4, h5, h6⟩ ht
      rw [h1] at ht
      simp only [Option.some.injEq] at ht
      subst ht
      exact getDropboxAccessToken_hit sc w _ hb
        ((relay_cachedToken_eq_some_iff sc w.kv w.now _).mpr
          ⟨token', txt, e, h1, h2, h3, h4, h5, h6, rfl⟩)
    refine ⟨⟨?_, ?_⟩, hhit, hmiss⟩
    · intro hf
      obtain ⟨token, txt, e, h1, h2, h3, h4, h5, h6⟩ := hf
      rw [hhit token ⟨token, txt, e, h1, h2, h3, h4, h5, h6⟩ h1]; simp
    · intro hno
      by_contra hf
      obtain ⟨rest, hr⟩ := hmiss hf
      exact hno (by rw [hr]; simp)

/-- Witness of C10: a token whose stored expiry is 1000 s after the epoch is served at
time 0 by both workers without a request, and at 800 s the poster refreshes. -/
theorem cached_token_margin_witness :
    getAccessToken (.threw "unused")
      ⟨Store.put Store.empty "dropbox_access_token" (.token "cached" (some 1000000)) none 0,
        0⟩ =
      ⟨.ok "cached",
        ⟨Store.put Store.empty "dropbox_access_token" (.token "cached" (some 1000000)) none 0,
          0⟩, []⟩ ∧
    (∃ rest, (getAccessToken (.ok ⟨"fresh", some 14400⟩)
      ⟨Store.put Store.empty "dropbox_access_token" (.token "cached" (some 1000000)) none 0,
        800000⟩).trace = .tokenRefresh :: rest) ∧
    demoScript.kvBound = true ∧
    getDropboxAccessToken demoScript
      ⟨Store.put (Store.put Store.empty KV_DROPBOX_ACCESS_TOKEN_KEY (.text "cached")
          (some 14400) 0) KV_DROPBOX_EXPIRES_AT_KEY (.text "1000") (some 14400) 0, 0⟩ =
      ⟨.ok "cached",
        ⟨Store.put (Store.put Store.empty KV_DROPBOX_ACCESS_TOKEN_KEY (.text "cached")
          (some 14400) 0) KV_DROPBOX_EXPIRES_AT_KEY (.text "1000") (some 14400) 0, 0⟩, []⟩ :=
  ⟨(cached_token_margin.1 (.threw "unused")
      ⟨Store.put Store.empty "dropbox_access_token" (.token "cached" (some 1000000)) none 0,
        0⟩).2.1 "cached" 1000000 (by decide) (by decide),
   (cached_token_margin.1 (.ok ⟨"fresh", some 14400⟩)
      ⟨Store.put Store.empty "dropbox_access_token" (.token "cached" (some 1000000)) none 0,
        800000⟩).2.2 (by
      rintro ⟨a, e, he, hgt⟩
      have hget : (Store.put Store.empty "dropbox_access_token"
          (.token "cached" (some 1000000)) none 0).get "dropbox_access_token" 800000 =
          some (.token "cached" (some 1000000)) := by decide
      simp only [hget, Option.some.injEq, Value.token.injEq] at he
      obtain ⟨-, rfl⟩ := he
      simp at hgt),
   rfl,
   (cached_token_margin.2 demoScript
      ⟨Store.put (Store.put Store.empty KV_DROPBOX_ACCESS_TOKEN_KEY (.text "cached")
          (some 14400) 0) KV_DROPBOX_EXPIRES_AT_KEY (.text "1000") (some 14400) 0, 0⟩
      rfl).2.1 (.text "cached")
      ⟨.text "cached", .text "1000", 1000, by decide, by decide, by decide, by decide,
        by decide, by decide⟩
      (by decide)⟩

end Relay

namespace Poster

/-- Counterexample to C11: nine status checks answer `IN_PROGRESS`, the tenth request
fails; that single failed attempt ends the loop, and the publish request follows. -/
theorem one_late_failure_ends_polling :
    (handlePostComplete lateFailureScript ⟨Store.empty, 0⟩).trace.drop 7 =
      (List.replicate 9
        [Event.pollStatus "c1" (.json ⟨some "IN_PROGRESS", none, "in-progress"⟩),
         Event.sleep 6000]).flatten ++
      [.pollStatus "c1" (.threw "network error"),
       .publish "c1" (.json ⟨some "p1", none, "publish"⟩),
       .notify "🗑️ Cleaning up - deleting video from Dropbox...",
       .deleteFile "/a.mp4" true,
       .notify ("✅ Job completed successfully!\nCaption: still here? follow (@sillytonic)"
         ++ "\nInstagram Post ID: p1")] := by
  decide!

/-- **C11, amended.** A failed status check (the request throws) in a run of the
workflow is the check of the attempt with its number, counting all attempts made.
When that number is below 10 the loop goes on: the wait of 6000 ms follows, and then
a further status check or, the budget being used up, the publish request.  When that
number is 10 or more, the publish request follows at once and no further status check
is made, however few attempts failed before. -/
theorem poll_failure_counts_all_attempts (sc : Script) (w : World)
    (pre : List Event) (creationId message : String) (post : List Event)
    (h : (handlePostComplete sc w).trace =
      pre ++ .pollStatus creationId (.threw message) :: post) :
    (sc.polls ((pre.filter isPoll).length + 1)).1 = .threw message ∧
    ((pre.filter isPoll).length + 1 < 10 →
      ∃ post', post = .sleep 6000 :: post' ∧
        ((∃ post'', post' = .pollStatus creationId
            (sc.polls ((pre.filter isPoll).length + 2)).1 :: post'') ∨
         (∃ post'', post' = .publish creationId sc.publish :: post''))) ∧
    (10 ≤ (pre.filter isPoll).length + 1 →
      ∃ post', post = .publish creationId sc.publish :: post' ∧
        ∀ e ∈ post', isPoll e = false) := by
  have hsel := prelude_not_poll (selectItem_prelude sc w)
  have hmem : Event.pollStatus creationId (.threw message) ∈ (handlePostComplete sc w).trace := by
    rw [h]; simp
  rcases handlePostComplete_run sc w with ht | ht | ⟨file, rest, -, ht | ⟨cid, w1, tail, ht, htail⟩⟩
  · rw [ht] at hmem
    have := hsel _ hmem
    simp [isPoll] at this
  · rw [ht] at hmem
    rcases List.mem_append.mp hmem with hm | hm
    · have := hsel _ hm
      simp [isPoll] at this
    · simp at hm
  · rw [ht] at hmem
    rcases List.mem_append.mp hmem with hm | hm
    · have := hsel _ hm
      simp [isPoll] at this
    · simp at hm
  · obtain ⟨prest, hpt, hprest⟩ := publishTrace_cons sc cid
    have hS : ∀ e ∈ publishTrace sc cid ++ tail, isPoll e = false := by
      intro e he
      rcases List.mem_append.mp he with he | he
      · rw [hpt] at he
        rcases List.mem_cons.mp he with rfl | he
        · rfl
        · exact hprest e he
      · rcases htail with rfl | ⟨d, post0, rfl, hp⟩
        · simp at he
        · rcases hp with rfl | ⟨m, rfl⟩ <;>
            · simp only [List.mem_cons, List.mem_singleton, List.not_mem_nil, or_false] at he
              rcases he with rfl | rfl | rfl <;> rfl
    have hA : ∀ e ∈ (selectItem sc w).trace ++
        [Event.createContainer file.url (captions.getD sc.random.val "")],
        ¬ (isPoll e = true) := by
      intro e he
      rcases List.mem_append.mp he with he | he
      · simp [hsel e he]
      · simp only [List.mem_singleton] at he
        rw [he]; simp [isPoll]
    have hsplit : ((selectItem sc w).trace ++
        [Event.createContainer file.url (captions.getD sc.random.val "")]) ++
        ((pollLoop sc cid w1.now pollFuel 0 w1).trace ++ (publishTrace sc cid ++ tail)) =
        pre ++ .pollStatus creationId (.threw message) :: post := by
      rw [← h, ht]; simp
    obtain ⟨pre1, hpre, hrest⟩ := split_after_quiet (fun e => isPoll e = true) _ _ pre post _
      hsplit hA rfl
    have hcount : (pre.filter isPoll).length = (pre1.filter isPoll).length := by
      rw [hpre, List.filter_append]
      have : ((selectItem sc w).trace ++
          [Event.createContainer file.url (captions.getD sc.random.val "")]).filter isPoll
          = [] := List.filter_eq_nil_iff.mpr hA
      rw [this]; rfl
    obtain ⟨hc, hans, hlt, hge⟩ := pollLoop_failed_round sc cid w1.now
      (publishTrace sc cid ++ tail) hS pollFuel 0 w1 pre1 creationId message post hrest
    subst hc
    simp only [Nat.zero_add] at hans hlt hge
    rw [hcount]
    refine ⟨hans, fun hk => ?_, fun hk => ?_⟩
    · obtain ⟨post', hp1, hp2⟩ := hlt hk
      refine ⟨post', hp1, ?_⟩
      rcases hp2 with hp2 | ⟨post'', hp2⟩
      · right
        rw [hp2, hpt]
        exact ⟨prest ++ tail, rfl⟩
      · left
        exact ⟨post'', hp2⟩
    · refine ⟨prest ++ tail, by rw [hge hk, hpt]; rfl, ?_⟩
      intro e he
      exact hS e (by rw [hpt]; simp only [List.cons_append, List.mem_cons]; right; exact he)

/-- Witness of C11, amended: with nine `IN_PROGRESS` answers and a failed tenth
request, the failed check is attempt 10 and the publish request follows at once. -/
theorem poll_failure_counts_all_attempts_witness :
    (((handlePostComplete lateFailureScript ⟨Store.empty, 0⟩).trace.take 25).filter
      isPoll).length + 1 = 10 ∧
    (lateFailureScript.polls 10).1 = .threw "network error" ∧
    ∃ post', (handlePostComplete lateFailureScript ⟨Store.empty, 0⟩).trace.drop 26 =
      .publish "c1" lateFailureScript.publish :: post' ∧ ∀ e ∈ post', isPoll e = false :=
  have h := poll_failure_counts_all_attempts lateFailureScript ⟨Store.empty, 0⟩
    ((handlePostComplete lateFailureScript ⟨Store.empty, 0⟩).trace.take 25) "c1"
    "network error" ((handlePostComplete lateFailureScript ⟨Store.empty, 0⟩).trace.drop 26)
    (by decide!)
  have hk : (((handlePostComplete lateFailureScript ⟨Store.empty, 0⟩).trace.take 25).filter
      isPoll).length + 1 = 10 := by decide!
  ⟨hk, hk ▸ h.1, h.2.2 (by rw [hk])⟩

/-- Counterexample to C12: the folder holds one file and the request for its shared
links is answered 500.  An entry is tagged `file`, yet `listDropboxFiles` returns no
item: it throws, and the run of the workflow posts nothing and deletes nothing. -/
theorem link_failure_returns_no_item :
    linkFailureScript.listFolder = .ok [⟨"file", "/a.mp4", 1000⟩] ∧
    (listDropboxFiles "" linkFailureScript.listFolder linkFailureScript.listSharedLinks
      linkFailureScript.createSharedLink ⟨Store.empty, 0⟩).out =
        .threw "Failed to list shared links: 500" ∧
    (handlePostComplete linkFailureScript ⟨Store.empty, 0⟩).out =
      .threw "Failed to list shared links: 500" ∧
    (handlePostComplete linkFailureScript ⟨Store.empty, 0⟩).trace.filter isContainer = [] ∧
    (handlePostComplete linkFailureScript ⟨Store.empty, 0⟩).trace.filter isDelete = [] := by
  decide

/-- **C12, amended.** On the entries of the answer of `list_folder`, `listDropboxFiles`
returns the empty list when no entry is tagged `file`; when it returns an item, the
item is the single one of the oldest `file` entry, the earliest-listed among equals (an
entry not tagged `file` is never selected); it does return it whenever the shared link
of that entry is cached, listed or created, and throws otherwise.  A listing with a
`file` entry has exactly one such entry.  In a run of the workflow on the listing,
every container request posts the item the selection returned for that entry, every
delete request has the path of the item the selection returned, and there is at most
one of each. -/
theorem oldest_file_is_selected (entries : List Entry) :
    (∀ (path : String) (listed : Answer (List String)) (created : Answer String)
      (w : World),
      ((∀ e ∈ entries, e.tag ≠ "file") →
        listDropboxFiles path (.ok entries) listed created w =
          ⟨.ok [], w, [.listFolder path]⟩) ∧
      (∀ files, (listDropboxFiles path (.ok entries) listed created w).out = .ok files →
        (files = [] ∧ ∀ e ∈ entries, e.tag ≠ "file") ∨
        ∃ e url, IsOldestFile entries e ∧ files = [⟨e.path_lower, url⟩]) ∧
      (∀ e, IsOldestFile entries e → linkResolves w.kv w.now e.path_lower listed created →
        ∃ url, (listDropboxFiles path (.ok entries) listed created w).out =
          .ok [⟨e.path_lower, url⟩]) ∧
      (∀ e, IsOldestFile entries e →
        ¬ linkResolves w.kv w.now e.path_lower listed created →
        ∃ message, (listDropboxFiles path (.ok entries) listed created w).out =
          .threw message)) ∧
    ((∃ f ∈ entries, f.tag = "file") → ∃ e, IsOldestFile entries e) ∧
    (∀ e e', IsOldestFile entries e → IsOldestFile entries e' → e = e') ∧
    (∀ (sc : Script) (w : World), sc.listFolder = .ok entries →
      (∀ url caption, Event.createContainer url caption ∈ (handlePostComplete sc w).trace →
        ∃ e, IsOldestFile entries e ∧
          (selectItem sc w).out = .ok [⟨e.path_lower, url⟩]) ∧
      (∀ path d, Event.deleteFile path d ∈ (handlePostComplete sc w).trace →
        ∃ e url, IsOldestFile entries e ∧ path = e.path_lower ∧
          (selectItem sc w).out = .ok [⟨e.path_lower, url⟩]) ∧
      ((handlePostComplete sc w).trace.filter isContainer).length ≤ 1 ∧
      ((handlePostComplete sc w).trace.filter isDelete).length ≤ 1) := by
  refine ⟨fun path listed created w =>
      ⟨(listDropboxFiles_on_listing path entries listed created w).1,
       (listDropboxFiles_on_listing path entries listed created w).2.1,
       (listDropboxFiles_on_listing path entries listed created w).2.2,
       fun e he hno => listDropboxFiles_link_failure path entries listed created w e he hno⟩,

    isOldestFile_exists entries, isOldestFile_unique entries, ?_⟩
  intro sc w hl
  have hP := selectItem_prelude sc w
  have hPc := filter_nil_of_all_false (prelude_not_container hP)
  have hPd := filter_nil_of_all_false (prelude_not_isDelete hP)
  have hmemC : ∀ {l : List Event} {url caption : String},
      Event.createContainer url caption ∈ l →
        Event.createContainer url caption ∈ l.filter isContainer :=
    fun h => List.mem_filter.mpr ⟨h, rfl⟩
  have hmemD : ∀ {l : List Event} {path : String} {d : Bool},
      Event.deleteFile path d ∈ l → Event.deleteFile path d ∈ l.filter isDelete :=
    fun h => List.mem_filter.mpr ⟨h, rfl⟩
  rcases handlePostComplete_run sc w with ht | ht | ⟨file, rest, hsel, hrun⟩
  · have hc : (handlePostComplete sc w).trace.filter isContainer = [] := by rw [ht]; exact hPc
    have hd : (handlePostComplete sc w).trace.filter isDelete = [] := by rw [ht]; exact hPd
    refine ⟨fun url caption h => ?_, fun path d h => ?_, by simp [hc], by simp [hd]⟩
    · have := hmemC h; rw [hc] at this; simp at this
    · have := hmemD h; rw [hd] at this; simp at this
  · have hc : (handlePostComplete sc w).trace.filter isContainer = [] := by
      rw [ht, List.filter_append, hPc]; rfl
    have hd : (handlePostComplete sc w).trace.filter isDelete = [] := by
      rw [ht, List.filter_append, hPd]; rfl
    refine ⟨fun url caption h => ?_, fun path d h => ?_, by simp [hc], by simp [hd]⟩
    · have := hmemC h; rw [hc] at this; simp at this
    · have := hmemD h; rw [hd] at this; simp at this
  · obtain ⟨w', hw'⟩ := selectItem_returns sc w (file :: rest) hsel
    rw [hl] at hw'
    have hfile : ∃ e, IsOldestFile entries e ∧ file.path_lower = e.path_lower ∧ rest = [] := by
      rcases (listDropboxFiles_on_listing "" entries sc.listSharedLinks sc.createSharedLink
        w').2.1 _ hw' with ⟨h0, -⟩ | ⟨e, url, he, hf⟩
      · cases h0
      · simp only [List.cons.injEq] at hf
        exact ⟨e, he, by rw [hf.1], hf.2⟩
    obtain ⟨e, he, hpath, hrest⟩ := hfile
    have hselE : ∀ url, url = file.url →
        (selectItem sc w).out = .ok [⟨e.path_lower, url⟩] := by
      intro url hu
      rw [hsel, hrest, hu, ← hpath]
    rcases hrun with ht | ⟨creationId, w1, tail, ht, htail⟩
    · have hc : (handlePostComplete sc w).trace.filter isContainer =
          [.createContainer file.url (captions.getD sc.random.val "")] := by
        rw [ht, List.filter_append, hPc]; rfl
      have hd : (handlePostComplete sc w).trace.filter isDelete = [] := by
        rw [ht, List.filter_append, hPd]; rfl
      refine ⟨fun url caption h => ?_, fun path d h => ?_, by simp [hc], by simp [hd]⟩
      · have := hmemC h
        rw [hc] at this
        simp only [List.mem_singleton, Event.createContainer.injEq] at this
        exact ⟨e, he, hselE url this.1⟩
      · have := hmemD h; rw [hd] at this; simp at this
    · have hreq := run_requests (selectItem sc w).trace
        (pollLoop sc creationId w1.now pollFuel 0 w1).trace (publishTrace sc creationId)
      rcases htail with rfl | ⟨d0, post, rfl, hpost⟩
      · obtain ⟨-, -, hc, hd⟩ := hreq [] file.url (captions.getD sc.random.val "") "" false hP
          (pollLoop_loopEvents sc creationId w1.now pollFuel 0 w1)
          (publishTrace_not_container sc creationId) (Or.inl rfl)
        rw [List.append_nil] at ht
        rw [← ht] at hc hd
        refine ⟨fun url caption h => ?_, fun path d h => ?_, by simp [hc], by simp [hd]⟩
        · have := hmemC h
          rw [hc] at this
          simp only [List.mem_singleton, Event.createContainer.injEq] at this
          exact ⟨e, he, hselE url this.1⟩
        · have := hmemD h; rw [hd] at this; simp at this
      · obtain ⟨hc, hd, -, -⟩ := hreq post file.url (captions.getD sc.random.val "")
          file.path_lower d0 hP (pollLoop_loopEvents sc creationId w1.now pollFuel 0 w1)
          (publishTrace_not_container sc creationId) hpost
        rw [← ht] at hc hd
        refine ⟨fun url caption h => ?_, fun path d h => ?_, by simp [hc], by simp [hd]⟩
        · have := hmemC h
          rw [hc] at this
          simp only [List.mem_singleton, Event.createContainer.injEq] at this
          exact ⟨e, he, hselE url this.1⟩
        · have := hmemD h
          rw [hd] at this
          simp only [List.mem_singleton, Event.deleteFile.injEq] at this
          exact ⟨e, file.url, he, by rw [this.1, hpath], hselE _ rfl⟩

/-- Witness of C12, amended: a listing with a folder, a younger file and two files of the same
age; the run deletes `/a.mp4`, the earlier-listed of the two oldest files. -/
theorem oldest_file_is_selected_witness :
    mixedScript.listFolder = .ok
      [⟨"folder", "/old", 10⟩, ⟨"file", "/c.mp4", 3000⟩, ⟨"file", "/a.mp4", 1000⟩,
       ⟨"file", "/b.mp4", 1000⟩] ∧
    Event.deleteFile "/a.mp4" true ∈
      (handlePostComplete mixedScript ⟨Store.empty, 0⟩).trace ∧
    ∃ e url, IsOldestFile
      [⟨"folder", "/old", 10⟩, ⟨"file", "/c.mp4", 3000⟩, ⟨"file", "/a.mp4", 1000⟩,
       ⟨"file", "/b.mp4", 1000⟩] e ∧ "/a.mp4" = e.path_lower ∧
      (selectItem mixedScript ⟨Store.empty, 0⟩).out = .ok [⟨e.path_lower, url⟩] :=
  ⟨rfl, by decide,
    ((oldest_file_is_selected
      [⟨"folder", "/old", 10⟩, ⟨"file", "/c.mp4", 3000⟩, ⟨"file", "/a.mp4", 1000⟩,
       ⟨"file", "/b.mp4", 1000⟩]).2.2.2 mixedScript ⟨Store.empty, 0⟩ rfl).2.1
      "/a.mp4" true (by decide)⟩

end Poster
